import Mathlib

/-! The line-tracing controller `Tracer`.

A shallow embedding of `app/Tracer.cpp` (the two copies in
`sample06_20250909testForce` and `sample06_20250909testForce2-LTest`) together
with the declarations of `Race-L/app/Tracer.h`.

Conventions of the embedding.

* The controller is embedded in the namespace `Tracer` over exact arithmetic:
  C++ `int` values are mathematical integers (`Int`), C++ `float` values are
  rational numbers (`ℚ`) and the `float` operations are the exact ones; the
  literal `0.8` is `4 / 5`, `0.2` is `1 / 5`, and so on.  The `unsigned long`
  tick counters of `performInitialSequence` are `Nat` values reduced modulo
  `2 ^ 32`.
* The methods that compute with `float` or add encoder counts
  (`calcPropValue`, the PD part of `run`, `moveForward`, and the methods that
  call them) are embedded a second time in the namespace `Tracer.Machine`, with
  the same control flow and the arithmetic of the target: a `float` is a
  binary32 number, every `float` operation, literal and conversion to `float`
  rounds to nearest, ties to even (`f32`), and a sum or difference of `int` or
  `int32_t` values is taken modulo `2 ^ 32` (`wrap32`).  A statement about the
  value of a turn, of a wheel power or of a target count that depends on the
  rounding or on the range of `int32_t` is a statement about `Tracer.Machine`.
* A `float` converted to `int` loses its fraction (`floatToInt`), `int / int` is
  `Int.tdiv`: both truncate toward zero.  The conversion is that of the target
  when the truncated value is a value of `int` (`inInt32`).
* The hardware is a record of sensor readings (`Sensors`) that one call of
  `run` consumes and a log of the motor commands the call issues.
* A busy-wait loop without an exit bound of its own is followed for `fuel`
  iterations; the result is `none` when the loop has not left by then.
-/

/-- Conversion `float → int` of C++: the fractional part is discarded. -/
def floatToInt (x : ℚ) : Int :=
  if 0 ≤ x then ⌊x⌋ else ⌈x⌉

/-- The two copies of `Tracer.cpp` in the repository. -/
inductive Variant
  | testForce
  | LTest
deriving DecidableEq, Repr

/-- The enum `Tracer::TurnDirection` of `Tracer.h`. -/
inductive TurnDirection
  | STRAIGHT
  | LEFT
  | RIGHT
deriving DecidableEq, Repr

/-- The two `Motor` members of the class. -/
inductive Wheel
  | leftWheel
  | rightWheel
deriving DecidableEq, Repr

/-- A call on a `Motor` that changes the hardware. -/
inductive MotorCmd
  | setPower (w : Wheel) (power : Int)
  | stop (w : Wheel)
  | resetCount (w : Wheel)
deriving DecidableEq, Repr

/-- The struct `ColorSensor::RGB` filled in by `getRGB`. -/
structure RGB where
  r : Int
  g : Int
  b : Int
deriving DecidableEq, Repr

/-- What the sensors return during one call of `run`: the RGB reading, the
`k`-th value of `colorSensor.getReflection()` and the `k`-th pair of encoder
counts `(leftWheel.getCount(), rightWheel.getCount())`. -/
structure Sensors where
  rgb : RGB
  reflection : Nat → Int
  count : Nat → Int × Int

/-- The data members of `Tracer` (`Tracer.h`) followed by the function-local
statics of `performInitialSequence`. -/
structure Tracer where
  mPreviousError : Int
  mIsInitialized : Bool
  mLineTraceEnabled : Bool
  mBlueDetectionEnabled : Bool
  mBlueDetectionCount : Int
  mCurrentBaseSpeed : Int
  mIsStopped : Bool
  mInitialSequenceCompleted : Bool
  mInitialStartTime : Nat
  sequenceStep : Int
  stepStartTime : Nat
  firstRun : Bool
  timeCounter : Nat
deriving DecidableEq, Repr

/-- The machine inside one call of `run`: the controller, how many reflection
readings and encoder samples have been consumed, and the motor commands issued
so far (oldest first). -/
structure Exec where
  self : Tracer
  nReflection : Nat
  nCount : Nat
  log : List MotorCmd
deriving DecidableEq, Repr

/-- A statement of a `case` body of `executeBlueAction`. -/
inductive Stmt
  | moveForward (distanceCm : ℚ) (direction : TurnDirection) (turnIntensity : ℚ)
  | setCompleteStop (stopped : Bool)
  | awaitBlack
deriving DecidableEq

namespace Tracer

/-- Constant `const float Tracer::Kp = 0.8`. -/
def Kp : ℚ := 4 / 5

/-- Constant `const float Tracer::Kd = 0.2`. -/
def Kd : ℚ := 1 / 5

/-- Constant `const int Tracer::bias = 0`. -/
def bias : Int := 0

/-- Constant `const int Tracer::target = 25`. -/
def target : Int := 25

/-- Constant `const int Tracer::BLUE_THRESHOLD = 120`. -/
def BLUE_THRESHOLD : Int := 120

/-- Constant `const int Tracer::COLOR_DIFF_THRESHOLD = 50`. -/
def COLOR_DIFF_THRESHOLD : Int := 50

/-- Constant `const float Tracer::WHEEL_DIAMETER_CM = 5.4f`. -/
def WHEEL_DIAMETER_CM : ℚ := 27 / 5

/-- Constant `static const int DEFAULT_BASE_SPEED = 50`. -/
def DEFAULT_BASE_SPEED : Int := 50

/-- Constant `static const int SLOW_BASE_SPEED = 30`. -/
def SLOW_BASE_SPEED : Int := 30

/-- Constant `static const int MIN_SPEED = 25`. -/
def MIN_SPEED : Int := 25

/-- The local `const int BLACK_THRESHOLD = 15` of `detectBlack`. -/
def BLACK_THRESHOLD : Int := 15

/-- Number of values of an `unsigned long` on the 32-bit target. -/
def ULONG_MOD : Nat := 2 ^ 32

/-- Constructor `Tracer::Tracer()`: the member initialisers, and the initial values of the
statics of `performInitialSequence`. -/
def constructed : Tracer where
  mPreviousError := 0
  mIsInitialized := false
  mLineTraceEnabled := true
  mBlueDetectionEnabled := true
  mBlueDetectionCount := 0
  mCurrentBaseSpeed := DEFAULT_BASE_SPEED
  mIsStopped := false
  mInitialSequenceCompleted := false
  mInitialStartTime := 0
  sequenceStep := 0
  stepStartTime := 0
  firstRun := true
  timeCounter := 0

/-- Method `Tracer::calcPropValue`: the returned `turn` and the controller with
`mPreviousError` overwritten. -/
def calcPropValue (t : Tracer) (diffReflection : Int) : ℚ × Tracer :=
  let pTerm : ℚ := Kp * (diffReflection : ℚ)
  let dTerm : ℚ := Kd * ((diffReflection - t.mPreviousError : Int) : ℚ)
  let turn : ℚ := pTerm + dTerm + (bias : ℚ)
  (turn, { t with mPreviousError := diffReflection })

/-- The call `abs(turn)` in `calcAdaptiveSpeed`.  The file includes only
`<cstdlib>` for it and calls it unqualified, which is `int abs(int)`: the
`float` argument is converted to `int` first, and the `int` result is stored
in the `float` variable `turnAbs`. -/
def turnAbs (turn : ℚ) : ℚ :=
  ((|floatToInt turn| : Int) : ℚ)

/-- Method `Tracer::calcAdaptiveSpeed`. -/
def calcAdaptiveSpeed (t : Tracer) (turn : ℚ) : Int :=
  if turnAbs turn > 25 then MIN_SPEED
  else if turnAbs turn > 15 then Int.tdiv (t.mCurrentBaseSpeed * 50) 100
  else if turnAbs turn > 8 then Int.tdiv (t.mCurrentBaseSpeed * 70) 100
  else t.mCurrentBaseSpeed

/-- Method `Tracer::detectBlue`, as a function of the reading `getRGB` returned. -/
def detectBlue (rgb : RGB) : Bool :=
  decide (rgb.b > BLUE_THRESHOLD) &&
    decide (rgb.b > rgb.r + COLOR_DIFF_THRESHOLD) &&
    decide (rgb.b > rgb.g + COLOR_DIFF_THRESHOLD)

/-- Append one motor command to the log. -/
def emit (c : MotorCmd) (x : Exec) : Exec :=
  { x with log := x.log ++ [c] }

/-- Statements `leftWheel.stop(); rightWheel.stop();`. -/
def stopBoth (x : Exec) : Exec :=
  emit (.stop .rightWheel) (emit (.stop .leftWheel) x)

/-- Statements `leftWheel.setPower(l); rightWheel.setPower(r);`. -/
def setPowers (l r : Int) (x : Exec) : Exec :=
  emit (.setPower .rightWheel r) (emit (.setPower .leftWheel l) x)

/-- Method `Tracer::init`. -/
def init (x : Exec) : Exec :=
  let x := emit (.resetCount .rightWheel) (emit (.resetCount .leftWheel) x)
  { x with self := { x.self with mIsInitialized := true } }

/-- Method `Tracer::setLineTraceEnabled`. -/
def setLineTraceEnabled (enabled : Bool) (x : Exec) : Exec :=
  { x with self := { x.self with mLineTraceEnabled := enabled } }

/-- Method `Tracer::setBlueDetectionEnabled`. -/
def setBlueDetectionEnabled (enabled : Bool) (x : Exec) : Exec :=
  { x with self := { x.self with mBlueDetectionEnabled := enabled } }

/-- Method `Tracer::setSlowMode`. -/
def setSlowMode (enabled : Bool) (x : Exec) : Exec :=
  if enabled then { x with self := { x.self with mCurrentBaseSpeed := SLOW_BASE_SPEED } }
  else { x with self := { x.self with mCurrentBaseSpeed := DEFAULT_BASE_SPEED } }

/-- Method `Tracer::setCompleteStop`. -/
def setCompleteStop (stopped : Bool) (x : Exec) : Exec :=
  let x := { x with self := { x.self with mIsStopped := stopped } }
  if stopped then stopBoth x else x

/-- One call of `colorSensor.getReflection()`: the value read and the machine
with the reading consumed. -/
def getReflection (hw : Sensors) (x : Exec) : Int × Exec :=
  (hw.reflection x.nReflection, { x with nReflection := x.nReflection + 1 })

/-- The pair `leftWheel.getCount()`, `rightWheel.getCount()`: the counts read and
the machine with the sample consumed. -/
def getCounts (hw : Sensors) (x : Exec) : (Int × Int) × Exec :=
  (hw.count x.nCount, { x with nCount := x.nCount + 1 })

/-- Method `Tracer::calDiffReflection`. -/
def calDiffReflection (hw : Sensors) (x : Exec) : Int × Exec :=
  ((getReflection hw x).1 - target, (getReflection hw x).2)

/-- Method `Tracer::detectBlack`. -/
def detectBlack (hw : Sensors) (x : Exec) : Bool × Exec :=
  (decide ((getReflection hw x).1 < BLACK_THRESHOLD), (getReflection hw x).2)

/-- The local `baseDegrees` of `moveForward`; `3.14159265f` is the literal of the
source. -/
def baseDegrees (distanceCm : ℚ) : Int :=
  let circumference : ℚ := (314159265 / 100000000) * WHEEL_DIAMETER_CM
  let baseRotations : ℚ := distanceCm / circumference
  floatToInt (baseRotations * 360)

/-- The local `distanceMultiplier` of `moveForward`. -/
def distanceMultiplier (turnIntensity : ℚ) : ℚ :=
  1 + turnIntensity * (1 / 5)

/-- The local `leftTargetDegrees` of `moveForward`. -/
def leftTargetDegrees (distanceCm : ℚ) (direction : TurnDirection) (turnIntensity : ℚ) : Int :=
  match direction with
  | .RIGHT => floatToInt ((baseDegrees distanceCm : ℚ) * distanceMultiplier turnIntensity)
  | _ => baseDegrees distanceCm

/-- The local `rightTargetDegrees` of `moveForward`. -/
def rightTargetDegrees (distanceCm : ℚ) (direction : TurnDirection) (turnIntensity : ℚ) : Int :=
  match direction with
  | .LEFT => floatToInt ((baseDegrees distanceCm : ℚ) * distanceMultiplier turnIntensity)
  | _ => baseDegrees distanceCm

/-- The local `speedReduction` of `moveForward`, after the cap at `0.8f`. -/
def speedReduction (turnIntensity : ℚ) : ℚ :=
  if 1 / 10 + turnIntensity * (1 / 10) > 4 / 5 then 4 / 5
  else 1 / 10 + turnIntensity * (1 / 10)

/-- The power of the slowed wheel in `moveForward`, after the floor at 5. -/
def reducedPower (mCurrentBaseSpeed : Int) (turnIntensity : ℚ) : Int :=
  if floatToInt ((mCurrentBaseSpeed : ℚ) * (1 - speedReduction turnIntensity)) < 5 then 5
  else floatToInt ((mCurrentBaseSpeed : ℚ) * (1 - speedReduction turnIntensity))

/-- The local `leftPower` of `moveForward`. -/
def leftPower (t : Tracer) (direction : TurnDirection) (turnIntensity : ℚ) : Int :=
  match direction with
  | .LEFT => reducedPower t.mCurrentBaseSpeed turnIntensity
  | _ => t.mCurrentBaseSpeed

/-- The local `rightPower` of `moveForward`. -/
def rightPower (t : Tracer) (direction : TurnDirection) (turnIntensity : ℚ) : Int :=
  match direction with
  | .RIGHT => reducedPower t.mCurrentBaseSpeed turnIntensity
  | _ => t.mCurrentBaseSpeed

/-- The test of the poll loop of `moveForward` on one encoder sample:
`averageCurrent >= averageTarget`. -/
def reached (averageTarget : Int) (c : Int × Int) : Bool :=
  decide (Int.tdiv (c.1 + c.2) 2 ≥ averageTarget)

/-- The poll loop `while (true)` of `moveForward` in `sample06_20250909testForce`,
followed for at most `fuel` polls. -/
def pollLoop (hw : Sensors) (averageTarget : Int) : Nat → Exec → Option Exec
  | 0, _ => none
  | fuel + 1, x =>
    if reached averageTarget (getCounts hw x).1 then some (getCounts hw x).2
    else pollLoop hw averageTarget fuel (getCounts hw x).2

/-- The poll loop of `moveForward` in `sample06_20250909testForce2-LTest`; the
first argument is `maxLoopCount - loopCount`, so the loop is entered with
`maxLoopCount` and leaves when `loopCount >= maxLoopCount`. -/
def pollLoopTimeout (hw : Sensors) (averageTarget : Int) : Nat → Exec → Exec
  | 0, x => x
  | remaining + 1, x =>
    if reached averageTarget (getCounts hw x).1 then (getCounts hw x).2
    else pollLoopTimeout hw averageTarget remaining (getCounts hw x).2

/-- The local `maxLoopCount = 5000` of `moveForward` in the LTest copy. -/
def maxLoopCount : Nat := 5000

/-- The local `averageTarget` of `moveForward`, from the start counts read. -/
def averageTarget (start : Int × Int) (distanceCm : ℚ) (direction : TurnDirection)
    (turnIntensity : ℚ) : Int :=
  let leftTargetCount := start.1 + leftTargetDegrees distanceCm direction turnIntensity
  let rightTargetCount := start.2 + rightTargetDegrees distanceCm direction turnIntensity
  Int.tdiv (leftTargetCount + rightTargetCount) 2

/-- Method `Tracer::moveForward`. -/
def moveForward (v : Variant) (hw : Sensors) (fuel : Nat) (distanceCm : ℚ)
    (direction : TurnDirection) (turnIntensity : ℚ) (x : Exec) : Option Exec :=
  let start := (getCounts hw x).1
  let x := (getCounts hw x).2
  let x := setPowers (leftPower x.self direction turnIntensity)
    (rightPower x.self direction turnIntensity) x
  let goal := averageTarget start distanceCm direction turnIntensity
  match v with
  | .testForce => (pollLoop hw goal fuel x).map stopBoth
  | .LTest => some (stopBoth (pollLoopTimeout hw goal maxLoopCount x))

/-- The loop `while (!detectBlack())` of case 4 of `executeBlueAction` in the LTest
copy, followed for at most `fuel` readings. -/
def awaitBlackLoop (hw : Sensors) : Nat → Exec → Option Exec
  | 0, _ => none
  | fuel + 1, x =>
    if (detectBlack hw x).1 then some (detectBlack hw x).2
    else awaitBlackLoop hw fuel (setPowers SLOW_BASE_SPEED SLOW_BASE_SPEED (detectBlack hw x).2)

/-- The statements of the `case` of `executeBlueAction` selected by the
detection count; a count without a `case` runs nothing in
`sample06_20250909testForce` and the `default` in the LTest copy. -/
def executeBlueActionBody : Variant → Int → List Stmt
  | .testForce, 1 =>
    [.moveForward 13 .STRAIGHT 0, .moveForward 10 .RIGHT (13 / 10)]
  | .testForce, 2 =>
    [.moveForward 10 .RIGHT 2, .setCompleteStop true, .moveForward 3 .LEFT 10,
      .setCompleteStop true]
  | .testForce, 3 =>
    [.moveForward 10 .RIGHT (1 / 5), .moveForward 10 .LEFT (1 / 5),
      .moveForward 10 .STRAIGHT 0]
  | .testForce, 4 =>
    [.moveForward 5 .STRAIGHT 0, .moveForward 20 .LEFT (4 / 5), .moveForward 20 .LEFT (4 / 5)]
  | .testForce, _ => []
  | .LTest, 1 =>
    [.moveForward 20 .STRAIGHT 0, .moveForward 3 .RIGHT 6, .moveForward 14 .STRAIGHT 0]
  | .LTest, 2 =>
    [.moveForward 15 .RIGHT 2, .moveForward 12 .LEFT (14 / 5)]
  | .LTest, 3 =>
    [.moveForward 8 .LEFT 2, .moveForward 9 .RIGHT (11 / 5)]
  | .LTest, 4 =>
    [.moveForward 2 .RIGHT (13 / 10), .moveForward 1 .LEFT (1 / 2),
      .moveForward 15 .RIGHT (3 / 2), .awaitBlack]
  | .LTest, 5 => []
  | .LTest, _ => [.setCompleteStop true]

/-- Run one statement of a `case` body. -/
def execStmt (v : Variant) (hw : Sensors) (fuel : Nat) : Stmt → Exec → Option Exec
  | .moveForward distanceCm direction turnIntensity, x =>
    moveForward v hw fuel distanceCm direction turnIntensity x
  | .setCompleteStop stopped, x => some (setCompleteStop stopped x)
  | .awaitBlack, x => (awaitBlackLoop hw fuel x).map stopBoth

/-- Run the statements of a `case` body in order. -/
def execStmts (v : Variant) (hw : Sensors) (fuel : Nat) : List Stmt → Exec → Option Exec
  | [], x => some x
  | s :: rest, x =>
    match execStmt v hw fuel s x with
    | none => none
    | some y => execStmts v hw fuel rest y

/-- The machines seen while a `case` body runs: the one it is entered with and
the one after each statement that returned. -/
def statesDuring (v : Variant) (hw : Sensors) (fuel : Nat) : List Stmt → Exec → List Exec
  | [], x => [x]
  | s :: rest, x =>
    match execStmt v hw fuel s x with
    | none => [x]
    | some y => x :: statesDuring v hw fuel rest y

/-- Method `Tracer::executeBlueAction`. -/
def executeBlueAction (v : Variant) (hw : Sensors) (fuel : Nat) (x : Exec) : Option Exec :=
  execStmts v hw fuel (executeBlueActionBody v x.self.mBlueDetectionCount) x

/-- The value of `timeCounter - stepStartTime`, an `unsigned long` subtraction. -/
def elapsed (t : Tracer) : Nat :=
  (t.timeCounter + ULONG_MOD - t.stepStartTime) % ULONG_MOD

/-- The assignments `sequenceStep = step; stepStartTime = timeCounter;` that
close a step of `performInitialSequence`. -/
def enterStep (step : Int) (x : Exec) : Exec :=
  { x with self := { x.self with sequenceStep := step, stepStartTime := x.self.timeCounter } }

/-- The statements of `performInitialSequence` (`sample06_20250909testForce`)
before its `switch`: the reset `if (firstRun)` and `timeCounter++`. -/
def beginSequence (x : Exec) : Exec :=
  let x : Exec :=
    if x.self.firstRun then
      { x with self := { x.self with
          mInitialStartTime := 0, sequenceStep := 0, stepStartTime := 0, firstRun := false } }
    else x
  { x with self := { x.self with timeCounter := (x.self.timeCounter + 1) % ULONG_MOD } }

/-- The `switch (sequenceStep)` of `performInitialSequence`
(`sample06_20250909testForce`), cases 0 to 5. -/
def sequenceSwitch (hw : Sensors) (fuel : Nat) (x : Exec) : Option Exec :=
  if x.self.sequenceStep = 0 then
    some (enterStep 1 (setPowers x.self.mCurrentBaseSpeed x.self.mCurrentBaseSpeed x))
  else if x.self.sequenceStep = 1 then
    if elapsed x.self ≥ 20 then some (enterStep 2 (stopBoth x))
    else some (setPowers x.self.mCurrentBaseSpeed x.self.mCurrentBaseSpeed x)
  else if x.self.sequenceStep = 2 then
    if elapsed x.self ≥ 5 then
      (moveForward .testForce hw fuel 6 .RIGHT 3 x).map (enterStep 3)
    else some x
  else if x.self.sequenceStep = 3 then
    (moveForward .testForce hw fuel 20 .STRAIGHT 0 x).map (enterStep 4)
  else if x.self.sequenceStep = 4 then
    if elapsed x.self ≥ 5 then
      (moveForward .testForce hw fuel 7 .LEFT 3 x).map
        (fun y => { y with self := { y.self with sequenceStep := 5 } })
    else some x
  else if x.self.sequenceStep = 5 then
    if (detectBlack hw x).1 then
      some { stopBoth (detectBlack hw x).2 with self := { x.self with
        mInitialSequenceCompleted := true, sequenceStep := 0, timeCounter := 0,
        firstRun := true } }
    else some (setPowers SLOW_BASE_SPEED SLOW_BASE_SPEED (detectBlack hw x).2)
  else some x

/-- Method `Tracer::performInitialSequence`.  The LTest copy returns after its first
three statements; the other copy is the six-step sequence. -/
def performInitialSequence (v : Variant) (hw : Sensors) (fuel : Nat) (x : Exec) :
    Option Exec :=
  match v with
  | .LTest =>
    some (setBlueDetectionEnabled true (setLineTraceEnabled true
      { x with self := { x.self with mInitialSequenceCompleted := true } }))
  | .testForce => sequenceSwitch hw fuel (beginSequence x)

/-- The value of the local `turn` of `run`: `calcPropValue(calDiffReflection())`. -/
def turnOf (hw : Sensors) (x : Exec) : ℚ :=
  (calcPropValue (calDiffReflection hw x).2.self (calDiffReflection hw x).1).1

/-- The PD part of `run` (from `calDiffReflection` to the two `setPower` calls):
`turn`, `adaptiveSpeed`, `pwm_l`, `pwm_r` are the locals of the source. -/
def lineTrace (hw : Sensors) (x : Exec) : Exec :=
  let diffReflection := (calDiffReflection hw x).1
  let turn := turnOf hw x
  let x := (calDiffReflection hw x).2
  let x := { x with self := (calcPropValue x.self diffReflection).2 }
  let adaptiveSpeed := calcAdaptiveSpeed x.self turn
  let pwm_l := floatToInt ((adaptiveSpeed : ℚ) - turn)
  let pwm_r := floatToInt ((adaptiveSpeed : ℚ) + turn)
  setPowers pwm_l pwm_r x

/-- The statements of the blue branch of `run` before the call of
`executeBlueAction`: count, slow mode on the first detection, both flags off. -/
def blueEntry (x : Exec) : Exec :=
  let x := { x with self := { x.self with mBlueDetectionCount := x.self.mBlueDetectionCount + 1 } }
  let x := if x.self.mBlueDetectionCount = 1 then setSlowMode true x else x
  setLineTraceEnabled false (setBlueDetectionEnabled false x)

/-- The statements of the blue branch of `run` after `executeBlueAction` has
returned. -/
def blueExit (x : Exec) : Exec :=
  if !x.self.mIsStopped then setLineTraceEnabled true (setBlueDetectionEnabled true x)
  else x

/-- The machine a call of `run` starts with. -/
def enter (t : Tracer) : Exec :=
  { self := t, nReflection := 0, nCount := 0, log := [] }

/-- The first statement of `run`: `if (!mIsInitialized) init();`. -/
def startOf (t : Tracer) : Exec :=
  if !t.mIsInitialized then init (enter t) else enter t

/-- Method `Tracer::run`, one tick: the machine when the call returns, or `none` when
a busy-wait loop has not left within `fuel` iterations. -/
def run (v : Variant) (hw : Sensors) (fuel : Nat) (t : Tracer) : Option Exec :=
  let x := startOf t
  if !x.self.mInitialSequenceCompleted then performInitialSequence v hw fuel x
  else if x.self.mIsStopped then some (stopBoth x)
  else if x.self.mBlueDetectionEnabled && detectBlue hw.rgb then
    (executeBlueAction v hw fuel (blueEntry x)).map blueExit
  else if !x.self.mLineTraceEnabled then some x
  else some (lineTrace hw x)

/-- The `(wheel, power)` pairs of the `setPower` calls in a log, in order. -/
def powers : List MotorCmd → List (Wheel × Int)
  | [] => []
  | .setPower w p :: rest => (w, p) :: powers rest
  | _ :: rest => powers rest

/-- Feed a sequence of errors to `calcPropValue`, one per call: the value each
call returns paired with the controller it leaves. -/
def feed : Tracer → List Int → List (ℚ × Tracer)
  | _, [] => []
  | t, e :: es => calcPropValue t e :: feed (calcPropValue t e).2 es

/-- Successive ticks of `run`, each with its own sensor readings: the machine
at the return of each tick, or `none` when a tick did not return. -/
def runTicks (v : Variant) (fuel : Nat) : Tracer → List Sensors → Option (List Exec)
  | _, [] => some []
  | t, hw :: rest =>
    match run v hw fuel t with
    | none => none
    | some x =>
      match runTicks v fuel x.self rest with
      | none => none
      | some xs => some (x :: xs)

/-- The controller states at tick boundaries of `run`, from the constructed
controller (and after a call of `init`, as `main_task` makes). -/
inductive Reachable (v : Variant) : Tracer → Prop
  | constructed : Reachable v constructed
  | init (t : Tracer) : Reachable v t → Reachable v (init (enter t)).self
  | tick (t : Tracer) (hw : Sensors) (fuel : Nat) (x : Exec) :
      Reachable v t → run v hw fuel t = some x → Reachable v x.self

/-- The local `leftTargetCount` of `moveForward`, from the start counts read. -/
def leftTargetCount (start : Int × Int) (distanceCm : ℚ) (direction : TurnDirection)
    (turnIntensity : ℚ) : Int :=
  start.1 + leftTargetDegrees distanceCm direction turnIntensity

/-- The local `rightTargetCount` of `moveForward`, from the start counts read. -/
def rightTargetCount (start : Int × Int) (distanceCm : ℚ) (direction : TurnDirection)
    (turnIntensity : ℚ) : Int :=
  start.2 + rightTargetDegrees distanceCm direction turnIntensity

/-- The part of `run` after the alignment test: the stop check, the blue check
and the PD line-following. -/
def steadyPath (v : Variant) (hw : Sensors) (fuel : Nat) (x : Exec) : Option Exec :=
  if x.self.mIsStopped then some (stopBoth x)
  else if x.self.mBlueDetectionEnabled && detectBlue hw.rgb then
    (executeBlueAction v hw fuel (blueEntry x)).map blueExit
  else if !x.self.mLineTraceEnabled then some x
  else some (lineTrace hw x)

/-- The test that sends a tick of `run` into its blue branch, on the controller
the tick is entered with: alignment complete, not stopped, detection enabled
and a blue reading. -/
def detects (t : Tracer) (hw : Sensors) : Bool :=
  t.mInitialSequenceCompleted && !t.mIsStopped && t.mBlueDetectionEnabled && detectBlue hw.rgb

/-- The number of ticks among the first `i` of a run that take the blue branch;
`t` is the controller the run starts with, `xs` the machines its ticks return
and `hws` the readings of its ticks. -/
def detections (t : Tracer) (xs : List Exec) (hws : List Sensors) (i : Nat) : Nat :=
  (((t :: xs.map Exec.self).zip hws).take i).countP (fun p => detects p.1 p.2)

/-- The test that sends a tick of `run` to its early return "line trace
disabled", on the controller the tick is entered with: alignment complete, not
stopped, no blue detection, `mLineTraceEnabled` false. -/
def skipsLineTrace (t : Tracer) (hw : Sensors) : Bool :=
  t.mInitialSequenceCompleted && !t.mIsStopped &&
    !(t.mBlueDetectionEnabled && detectBlue hw.rgb) && !t.mLineTraceEnabled

/-- Controller `b` is controller `a` up to the stop flag. -/
def OnlyStopChanged (a b : Tracer) : Prop :=
  b = { a with mIsStopped := b.mIsStopped }

/-- The controller in steady state after its first blue detection. -/
def afterFirstBlue : Tracer :=
  { constructed with
    mIsInitialized := true, mInitialSequenceCompleted := true, mBlueDetectionCount := 1,
    mCurrentBaseSpeed := SLOW_BASE_SPEED }

/-- Readings of one tick over a blue marker, with both encoders advancing by 1000
counts from one sample to the next. -/
def blueReading : Sensors :=
  { rgb := { r := 10, g := 10, b := 200 }, reflection := fun _ => 25,
    count := fun k => (1000 * (k : Int), 1000 * (k : Int)) }

/-- A controller in steady state whose last error was 1. -/
def steadyAfterOne : Tracer :=
  { constructed with
    mIsInitialized := true, mInitialSequenceCompleted := true, mPreviousError := 1 }

/-- Readings of one tick: reflectance 26 (error 1), no blue, encoders at rest. -/
def reading26 : Sensors :=
  { rgb := { r := 0, g := 0, b := 0 }, reflection := fun _ => 26, count := fun _ => (0, 0) }

/-- Readings of one tick: reflectance 25 (the target), no blue, encoders at rest. -/
def reading25 : Sensors :=
  { rgb := { r := 0, g := 0, b := 0 }, reflection := fun _ => 25, count := fun _ => (0, 0) }

/-- A controller in steady state after its alignment, with no error so far. -/
def steady : Tracer :=
  { constructed with mIsInitialized := true, mInitialSequenceCompleted := true }

/-- The controller at the return of the tick of `sample06_20250909testForce`
that detects blue for the second time. -/
def afterSecondBlue : Tracer :=
  { afterFirstBlue with
    mBlueDetectionCount := 2, mBlueDetectionEnabled := false, mLineTraceEnabled := false,
    mIsStopped := true }

/-- Readings of a move that starts with the encoders at `(1, 0)` and finds them
at `(275, 275)` on every poll. -/
def oddStart : Sensors :=
  { rgb := { r := 0, g := 0, b := 0 }, reflection := fun _ => 25,
    count := fun k => if k = 0 then (1, 0) else (275, 275) }

/-- The controller of `sample06_20250909testForce` during its alignment: in step
`step`, entered when `timeCounter` was `sst`, with `timeCounter = tc`. -/
def aligning (step : Int) (sst tc : Nat) : Tracer :=
  { constructed with
    mIsInitialized := true, sequenceStep := step, stepStartTime := sst, firstRun := false,
    timeCounter := tc }

/-- The controller of `sample06_20250909testForce` after the 32 ticks that bring
its alignment to the last step, the wait for black. -/
def awaitingBlack : Tracer :=
  aligning 5 27 32

/-- Readings of one tick over black: reflectance 10, no blue, encoders at rest. -/
def blackReading : Sensors :=
  { rgb := { r := 0, g := 0, b := 0 }, reflection := fun _ => 10, count := fun _ => (0, 0) }

/-- The machine at the return of the first tick of
`sample06_20250909testForce` from the constructed controller. -/
def afterFirstTick : Exec :=
  { self := aligning 1 1 1, nReflection := 0, nCount := 0,
    log := [.resetCount .leftWheel, .resetCount .rightWheel,
      .setPower .leftWheel 50, .setPower .rightWheel 50] }

/-- The controller of `sample06_20250909testForce` when the tick after
`awaitingBlack` has read black: the alignment is complete. -/
def alignmentDone : Tracer :=
  { awaitingBlack with
    mInitialSequenceCompleted := true, sequenceStep := 0, timeCounter := 0, firstRun := true }

/-- The controller of `sample06_20250909testForce` after its alignment and its
first blue detection. -/
def firstBlueDone : Tracer :=
  { alignmentDone with mBlueDetectionCount := 1, mCurrentBaseSpeed := SLOW_BASE_SPEED }

/-- The controller of `sample06_20250909testForce` after its alignment and its
second blue detection, whose maneuver sets the stop flag. -/
def secondBlueDone : Tracer :=
  { firstBlueDone with
    mBlueDetectionCount := 2, mBlueDetectionEnabled := false, mLineTraceEnabled := false,
    mIsStopped := true }

/-- The controller of `sample06_20250909testForce` after `n` ticks of `run` from
the constructed controller, for `n ≤ 32`: step 1 is entered on tick 1, step 2
on tick 21, step 3 on tick 26, step 4 on tick 27 and step 5 on tick 32. -/
def alignmentAfter (n : Nat) : Tracer :=
  if n = 0 then constructed
  else if n ≤ 20 then aligning 1 1 n
  else if n ≤ 25 then aligning 2 21 n
  else if n = 26 then aligning 3 26 26
  else if n ≤ 31 then aligning 4 27 n
  else aligning 5 27 n

/-- Readings of 33 ticks: 32 with the encoders advancing by 1000 counts per
sample, then one over black. -/
def alignmentReadings : List Sensors :=
  List.replicate 32 blueReading ++ [blackReading]

/-- A controller in steady state whose last error was 75. -/
def steadyAfter75 : Tracer :=
  { constructed with
    mIsInitialized := true, mInitialSequenceCompleted := true, mPreviousError := 75 }

/-- Readings of one tick: reflectance 16 (error -9), no blue, encoders at rest. -/
def reading16 : Sensors :=
  { rgb := { r := 0, g := 0, b := 0 }, reflection := fun _ => 16, count := fun _ => (0, 0) }

/-- Readings of a move whose encoders stay at `(2 ^ 30 - 100, 2 ^ 30 - 100)`. -/
def farStart : Sensors :=
  { rgb := { r := 0, g := 0, b := 0 }, reflection := fun _ => 25,
    count := fun _ => (2 ^ 30 - 100, 2 ^ 30 - 100) }

end Tracer

/-! ## The arithmetic of the target: binary32 and 32-bit integers -/

/-- Round a rational to the nearest integer, a tie to the even one. -/
def roundEven (q : ℚ) : Int :=
  if q - ⌊q⌋ < 1 / 2 then ⌊q⌋
  else if 1 / 2 < q - ⌊q⌋ then ⌊q⌋ + 1
  else if ⌊q⌋ % 2 = 0 then ⌊q⌋
  else ⌊q⌋ + 1

/-- The exponent of the unit in the last place of a binary32 number near `x`: 23
bits below the binade of `x`, and `-149` in the subnormal range. -/
def ulpExp (x : ℚ) : Int :=
  max (Int.log 2 |x|) (-126) - 23

/-- The binary32 number nearest to `x` (round to nearest, ties to even): the
result of a `float` operation whose exact result is `x`, and the value of a
`float` literal or of a conversion to `float`.  Overflow to infinity is left
out: the values of the controller are far below `2 ^ 127`. -/
def f32 (x : ℚ) : ℚ :=
  (roundEven (x / 2 ^ ulpExp x) : ℚ) * 2 ^ ulpExp x

/-- The value an `int` or `int32_t` sum or difference takes on the target: the
result modulo `2 ^ 32` in `[-2 ^ 31, 2 ^ 31)`. -/
def wrap32 (n : Int) : Int :=
  (n + 2 ^ 31) % 2 ^ 32 - 2 ^ 31

/-- The integer is a value of `int32_t` (of `int`): a sum or difference with
this value has not overflowed, and a `float` that truncates to it converts. -/
def inInt32 (n : Int) : Prop :=
  -2 ^ 31 ≤ n ∧ n < 2 ^ 31

namespace Tracer

namespace Machine

/-- Constant `const float Tracer::Kp = 0.8`, as the `float` it is stored in. -/
def Kp : ℚ := f32 (4 / 5)

/-- Constant `const float Tracer::Kd = 0.2`, as the `float` it is stored in. -/
def Kd : ℚ := f32 (1 / 5)

/-- Constant `const float Tracer::WHEEL_DIAMETER_CM = 5.4f`. -/
def WHEEL_DIAMETER_CM : ℚ := f32 (27 / 5)

/-- Method `Tracer::calDiffReflection`: the difference is an `int`. -/
def calDiffReflection (hw : Sensors) (x : Exec) : Int × Exec :=
  (wrap32 ((getReflection hw x).1 - target), (getReflection hw x).2)

/-- Method `Tracer::calcPropValue` in `float` arithmetic: the difference of the
two errors is an `int`, the `int` operands are converted to `float`, and each
product and each sum is rounded. -/
def calcPropValue (t : Tracer) (diffReflection : Int) : ℚ × Tracer :=
  let pTerm : ℚ := f32 (Kp * f32 (diffReflection : ℚ))
  let dTerm : ℚ := f32 (Kd * f32 ((wrap32 (diffReflection - t.mPreviousError) : Int) : ℚ))
  let turn : ℚ := f32 (f32 (pTerm + dTerm) + f32 (bias : ℚ))
  (turn, { t with mPreviousError := diffReflection })

/-- Feed a sequence of errors to `calcPropValue`, one per call: the value each
call returns paired with the controller it leaves. -/
def feed : Tracer → List Int → List (ℚ × Tracer)
  | _, [] => []
  | t, e :: es => calcPropValue t e :: feed (calcPropValue t e).2 es

/-- The value of the local `turn` of `run`: `calcPropValue(calDiffReflection())`. -/
def turnOf (hw : Sensors) (x : Exec) : ℚ :=
  (calcPropValue (calDiffReflection hw x).2.self (calDiffReflection hw x).1).1

/-- The PD part of `run` in `float` arithmetic: `adaptiveSpeed - turn` and
`adaptiveSpeed + turn` are `float` expressions (the `int` is converted), rounded
and then converted to `int`. -/
def lineTrace (hw : Sensors) (x : Exec) : Exec :=
  let diffReflection := (calDiffReflection hw x).1
  let turn := turnOf hw x
  let x := (calDiffReflection hw x).2
  let x := { x with self := (calcPropValue x.self diffReflection).2 }
  let adaptiveSpeed := calcAdaptiveSpeed x.self turn
  let pwm_l := floatToInt (f32 (f32 (adaptiveSpeed : ℚ) - turn))
  let pwm_r := floatToInt (f32 (f32 (adaptiveSpeed : ℚ) + turn))
  setPowers pwm_l pwm_r x

/-- The local `baseDegrees` of `moveForward`; the parameter `distanceCm` is a
`float`, `3.14159265f` and `360.0f` are the literals of the source. -/
def baseDegrees (distanceCm : ℚ) : Int :=
  let circumference : ℚ := f32 (f32 (314159265 / 100000000) * WHEEL_DIAMETER_CM)
  let baseRotations : ℚ := f32 (f32 distanceCm / circumference)
  floatToInt (f32 (baseRotations * 360))

/-- The local `distanceMultiplier` of `moveForward`: `1.0f + (turnIntensity * 0.2f)`. -/
def distanceMultiplier (turnIntensity : ℚ) : ℚ :=
  f32 (1 + f32 (f32 turnIntensity * f32 (1 / 5)))

/-- The local `leftTargetDegrees` of `moveForward`. -/
def leftTargetDegrees (distanceCm : ℚ) (direction : TurnDirection) (turnIntensity : ℚ) : Int :=
  match direction with
  | .RIGHT =>
    floatToInt (f32 (f32 (baseDegrees distanceCm : ℚ) * distanceMultiplier turnIntensity))
  | _ => baseDegrees distanceCm

/-- The local `rightTargetDegrees` of `moveForward`. -/
def rightTargetDegrees (distanceCm : ℚ) (direction : TurnDirection) (turnIntensity : ℚ) : Int :=
  match direction with
  | .LEFT =>
    floatToInt (f32 (f32 (baseDegrees distanceCm : ℚ) * distanceMultiplier turnIntensity))
  | _ => baseDegrees distanceCm

/-- The local `speedReduction` of `moveForward`, `0.1f + (turnIntensity * 0.1f)`,
after the cap at `0.8f`. -/
def speedReduction (turnIntensity : ℚ) : ℚ :=
  if f32 (f32 (1 / 10) + f32 (f32 turnIntensity * f32 (1 / 10))) > f32 (4 / 5) then f32 (4 / 5)
  else f32 (f32 (1 / 10) + f32 (f32 turnIntensity * f32 (1 / 10)))

/-- The power of the slowed wheel in `moveForward`,
`(int)(mCurrentBaseSpeed * (1.0f - speedReduction))`, after the floor at 5. -/
def reducedPower (mCurrentBaseSpeed : Int) (turnIntensity : ℚ) : Int :=
  if floatToInt (f32 (f32 (mCurrentBaseSpeed : ℚ) * f32 (1 - speedReduction turnIntensity))) < 5
  then 5
  else floatToInt (f32 (f32 (mCurrentBaseSpeed : ℚ) * f32 (1 - speedReduction turnIntensity)))

/-- The local `leftPower` of `moveForward`. -/
def leftPower (t : Tracer) (direction : TurnDirection) (turnIntensity : ℚ) : Int :=
  match direction with
  | .LEFT => reducedPower t.mCurrentBaseSpeed turnIntensity
  | _ => t.mCurrentBaseSpeed

/-- The local `rightPower` of `moveForward`. -/
def rightPower (t : Tracer) (direction : TurnDirection) (turnIntensity : ℚ) : Int :=
  match direction with
  | .RIGHT => reducedPower t.mCurrentBaseSpeed turnIntensity
  | _ => t.mCurrentBaseSpeed

/-- The local `leftTargetCount` of `moveForward`, an `int32_t` sum. -/
def leftTargetCount (start : Int × Int) (distanceCm : ℚ) (direction : TurnDirection)
    (turnIntensity : ℚ) : Int :=
  wrap32 (start.1 + leftTargetDegrees distanceCm direction turnIntensity)

/-- The local `rightTargetCount` of `moveForward`, an `int32_t` sum. -/
def rightTargetCount (start : Int × Int) (distanceCm : ℚ) (direction : TurnDirection)
    (turnIntensity : ℚ) : Int :=
  wrap32 (start.2 + rightTargetDegrees distanceCm direction turnIntensity)

/-- The local `averageTarget` of `moveForward`:
`(leftTargetCount + rightTargetCount) / 2` in `int32_t`. -/
def averageTarget (start : Int × Int) (distanceCm : ℚ) (direction : TurnDirection)
    (turnIntensity : ℚ) : Int :=
  Int.tdiv (wrap32 (leftTargetCount start distanceCm direction turnIntensity
    + rightTargetCount start distanceCm direction turnIntensity)) 2

/-- The test of the poll loop of `moveForward` on one encoder sample:
`averageCurrent >= averageTarget`, with `averageCurrent` an `int32_t`. -/
def reached (averageTarget : Int) (c : Int × Int) : Bool :=
  decide (Int.tdiv (wrap32 (c.1 + c.2)) 2 ≥ averageTarget)

/-- The poll loop `while (true)` of `moveForward` in `sample06_20250909testForce`,
followed for at most `fuel` polls. -/
def pollLoop (hw : Sensors) (averageTarget : Int) : Nat → Exec → Option Exec
  | 0, _ => none
  | fuel + 1, x =>
    if reached averageTarget (getCounts hw x).1 then some (getCounts hw x).2
    else pollLoop hw averageTarget fuel (getCounts hw x).2

/-- The poll loop of `moveForward` in `sample06_20250909testForce2-LTest`, entered
with `maxLoopCount`. -/
def pollLoopTimeout (hw : Sensors) (averageTarget : Int) : Nat → Exec → Exec
  | 0, x => x
  | remaining + 1, x =>
    if reached averageTarget (getCounts hw x).1 then (getCounts hw x).2
    else pollLoopTimeout hw averageTarget remaining (getCounts hw x).2

/-- Method `Tracer::moveForward`. -/
def moveForward (v : Variant) (hw : Sensors) (fuel : Nat) (distanceCm : ℚ)
    (direction : TurnDirection) (turnIntensity : ℚ) (x : Exec) : Option Exec :=
  let start := (getCounts hw x).1
  let x := (getCounts hw x).2
  let x := setPowers (leftPower x.self direction turnIntensity)
    (rightPower x.self direction turnIntensity) x
  let goal := averageTarget start distanceCm direction turnIntensity
  match v with
  | .testForce => (pollLoop hw goal fuel x).map stopBoth
  | .LTest => some (stopBoth (pollLoopTimeout hw goal maxLoopCount x))

/-- Run one statement of a `case` body. -/
def execStmt (v : Variant) (hw : Sensors) (fuel : Nat) : Stmt → Exec → Option Exec
  | .moveForward distanceCm direction turnIntensity, x =>
    moveForward v hw fuel distanceCm direction turnIntensity x
  | .setCompleteStop stopped, x => some (setCompleteStop stopped x)
  | .awaitBlack, x => (awaitBlackLoop hw fuel x).map stopBoth

/-- Run the statements of a `case` body in order. -/
def execStmts (v : Variant) (hw : Sensors) (fuel : Nat) : List Stmt → Exec → Option Exec
  | [], x => some x
  | s :: rest, x =>
    match execStmt v hw fuel s x with
    | none => none
    | some y => execStmts v hw fuel rest y

/-- Method `Tracer::executeBlueAction`. -/
def executeBlueAction (v : Variant) (hw : Sensors) (fuel : Nat) (x : Exec) : Option Exec :=
  execStmts v hw fuel (executeBlueActionBody v x.self.mBlueDetectionCount) x

/-- The `switch (sequenceStep)` of `performInitialSequence`
(`sample06_20250909testForce`), cases 0 to 5. -/
def sequenceSwitch (hw : Sensors) (fuel : Nat) (x : Exec) : Option Exec :=
  if x.self.sequenceStep = 0 then
    some (enterStep 1 (setPowers x.self.mCurrentBaseSpeed x.self.mCurrentBaseSpeed x))
  else if x.self.sequenceStep = 1 then
    if elapsed x.self ≥ 20 then some (enterStep 2 (stopBoth x))
    else some (setPowers x.self.mCurrentBaseSpeed x.self.mCurrentBaseSpeed x)
  else if x.self.sequenceStep = 2 then
    if elapsed x.self ≥ 5 then
      (moveForward .testForce hw fuel 6 .RIGHT 3 x).map (enterStep 3)
    else some x
  else if x.self.sequenceStep = 3 then
    (moveForward .testForce hw fuel 20 .STRAIGHT 0 x).map (enterStep 4)
  else if x.self.sequenceStep = 4 then
    if elapsed x.self ≥ 5 then
      (moveForward .testForce hw fuel 7 .LEFT 3 x).map
        (fun y => { y with self := { y.self with sequenceStep := 5 } })
    else some x
  else if x.self.sequenceStep = 5 then
    if (detectBlack hw x).1 then
      some { stopBoth (detectBlack hw x).2 with self := { x.self with
        mInitialSequenceCompleted := true, sequenceStep := 0, timeCounter := 0,
        firstRun := true } }
    else some (setPowers SLOW_BASE_SPEED SLOW_BASE_SPEED (detectBlack hw x).2)
  else some x

/-- Method `Tracer::performInitialSequence`. -/
def performInitialSequence (v : Variant) (hw : Sensors) (fuel : Nat) (x : Exec) :
    Option Exec :=
  match v with
  | .LTest =>
    some (setBlueDetectionEnabled true (setLineTraceEnabled true
      { x with self := { x.self with mInitialSequenceCompleted := true } }))
  | .testForce => sequenceSwitch hw fuel (beginSequence x)

/-- Method `Tracer::run`, one tick, in the arithmetic of the target. -/
def run (v : Variant) (hw : Sensors) (fuel : Nat) (t : Tracer) : Option Exec :=
  let x := startOf t
  if !x.self.mInitialSequenceCompleted then performInitialSequence v hw fuel x
  else if x.self.mIsStopped then some (stopBoth x)
  else if x.self.mBlueDetectionEnabled && detectBlue hw.rgb then
    (executeBlueAction v hw fuel (blueEntry x)).map blueExit
  else if !x.self.mLineTraceEnabled then some x
  else some (lineTrace hw x)

end Machine

end Tracer

namespace Tracer

/-! ## Conversions -/

theorem floatToInt_intCast (n : Int) : floatToInt (n : ℚ) = n := by
  unfold floatToInt
  split <;> simp

theorem floatToInt_of_nonneg {x : ℚ} (h : 0 ≤ x) : floatToInt x = ⌊x⌋ := by
  simp [floatToInt, h]

theorem floatToInt_of_neg {x : ℚ} (h : x < 0) : floatToInt x = ⌈x⌉ := by
  simp [floatToInt, not_le.mpr h]

/-! ## The PD law and the speed bands -/

theorem abs_floatToInt (x : ℚ) : |floatToInt x| = ⌊|x|⌋ := by
  unfold floatToInt
  split
  · rename_i h
    rw [abs_of_nonneg h, abs_of_nonneg (Int.floor_nonneg.mpr h)]
  · rename_i h
    have hx : x < 0 := not_le.mp h
    have hc : ⌈x⌉ ≤ 0 := Int.ceil_le.mpr (by exact_mod_cast hx.le)
    rw [abs_of_neg hx, abs_of_nonpos hc, Int.floor_neg]

theorem turnAbs_gt_iff (x : ℚ) (n : Nat) : turnAbs x > n ↔ |x| ≥ n + 1 := by
  unfold turnAbs
  rw [abs_floatToInt]
  constructor
  · intro h
    have h1 : (n : Int) < ⌊|x|⌋ := by exact_mod_cast h
    have h2 : (n : Int) + 1 ≤ ⌊|x|⌋ := h1
    have h3 := Int.le_floor.mp h2
    push_cast at h3
    exact h3
  · intro h
    have h2 : (n : Int) + 1 ≤ ⌊|x|⌋ := Int.le_floor.mpr (by push_cast; exact h)
    have h1 : (n : Int) < ⌊|x|⌋ := h2
    exact_mod_cast h1

/-- The bands `calcAdaptiveSpeed` applies, in terms of the unrounded turn: the
edges are at 9, 16 and 26, not at 8, 15 and 25. -/
theorem calcAdaptiveSpeed_bands (t : Tracer) (turn : ℚ) :
    (|turn| ≥ 26 → calcAdaptiveSpeed t turn = MIN_SPEED) ∧
    (16 ≤ |turn| → |turn| < 26 →
      calcAdaptiveSpeed t turn = Int.tdiv (t.mCurrentBaseSpeed * 50) 100) ∧
    (9 ≤ |turn| → |turn| < 16 →
      calcAdaptiveSpeed t turn = Int.tdiv (t.mCurrentBaseSpeed * 70) 100) ∧
    (|turn| < 9 → calcAdaptiveSpeed t turn = t.mCurrentBaseSpeed) := by
  have h25 := turnAbs_gt_iff turn 25
  have h15 := turnAbs_gt_iff turn 15
  have h8 := turnAbs_gt_iff turn 8
  norm_num at h25 h15 h8
  unfold calcAdaptiveSpeed
  refine ⟨?_, ?_, ?_, ?_⟩
  · intro h
    rw [if_pos (h25.mpr h)]
  · intro h1 h2
    rw [if_neg (fun h => absurd (h25.mp h) (not_le.mpr h2)), if_pos (h15.mpr h1)]
  · intro h1 h2
    rw [if_neg (fun h => absurd (h25.mp h) (not_le.mpr (by linarith))),
      if_neg (fun h => absurd (h15.mp h) (not_le.mpr h2)), if_pos (h8.mpr h1)]
  · intro h
    rw [if_neg (fun h' => absurd (h25.mp h') (not_le.mpr (by linarith))),
      if_neg (fun h' => absurd (h15.mp h') (not_le.mpr (by linarith))),
      if_neg (fun h' => absurd (h8.mp h') (not_le.mpr h))]

/-- C2. The turn `8.2`, which `calcPropValue` returns for the error 10 after the
error 9, is in the band `8 < |turn| <= 15`, yet `calcAdaptiveSpeed` returns the
base speed 50 for it and not `(50*70)/100 = 35`: `abs` has dropped the
fraction (`turnAbs` is 8) before the comparison with 8. -/
theorem calcAdaptiveSpeed_drops_fraction :
    (calcPropValue { constructed with mPreviousError := 9 } 10).1 = 41 / 5 ∧
    (8 < |(41 / 5 : ℚ)| ∧ |(41 / 5 : ℚ)| ≤ 15) ∧
    turnAbs (41 / 5) = 8 ∧
    calcAdaptiveSpeed (calcPropValue { constructed with mPreviousError := 9 } 10).2 (41 / 5) = 50 ∧
    Int.tdiv (50 * 70) 100 = 35 := by
  have h : floatToInt (41 / 5) = 8 := by
    rw [floatToInt_of_nonneg (by norm_num), Int.floor_eq_iff]
    norm_num
  refine ⟨?_, ⟨?_, ?_⟩, ?_, ?_, by decide⟩
  · norm_num [calcPropValue, constructed, Kp, Kd, bias]
  · norm_num [abs_of_pos]
  · norm_num [abs_of_pos]
  · norm_num [turnAbs, h]
  · norm_num [calcAdaptiveSpeed, turnAbs, h, calcPropValue, constructed, DEFAULT_BASE_SPEED]

/-- C3. At the slow base speed 30 the turn 20 gets the speed 15 and the larger
turn 30 gets the speed 25 (`MIN_SPEED`): the speed rises across the boundary
at 25. -/
theorem calcAdaptiveSpeed_rises_at_slow_speed :
    |(20 : ℚ)| ≤ |(30 : ℚ)| ∧
    calcAdaptiveSpeed { constructed with mCurrentBaseSpeed := SLOW_BASE_SPEED } 20 = 15 ∧
    calcAdaptiveSpeed { constructed with mCurrentBaseSpeed := SLOW_BASE_SPEED } 30 = 25 ∧
    ¬ (calcAdaptiveSpeed { constructed with mCurrentBaseSpeed := SLOW_BASE_SPEED } 30
        ≤ calcAdaptiveSpeed { constructed with mCurrentBaseSpeed := SLOW_BASE_SPEED } 20) := by
  have h20 : floatToInt 20 = 20 := by exact_mod_cast floatToInt_intCast 20
  have h30 : floatToInt 30 = 30 := by exact_mod_cast floatToInt_intCast 30
  have e20 : calcAdaptiveSpeed { constructed with mCurrentBaseSpeed := SLOW_BASE_SPEED } 20
      = 15 := by
    norm_num [calcAdaptiveSpeed, turnAbs, h20, constructed, SLOW_BASE_SPEED, MIN_SPEED]
    decide
  have e30 : calcAdaptiveSpeed { constructed with mCurrentBaseSpeed := SLOW_BASE_SPEED } 30
      = 25 := by
    norm_num [calcAdaptiveSpeed, turnAbs, h30, constructed, SLOW_BASE_SPEED, MIN_SPEED]
  refine ⟨by norm_num, e20, e30, ?_⟩
  rw [e20, e30]
  decide

/-- C7. `detectBlue` is true exactly when `b > 120`, `b > r + 50` and `b > g + 50`;
the reading `(10, 10, 200)` is blue. -/
theorem detectBlue_iff (rgb : RGB) :
    (detectBlue rgb = true ↔
      rgb.b > BLUE_THRESHOLD ∧ rgb.b > rgb.r + COLOR_DIFF_THRESHOLD ∧
        rgb.b > rgb.g + COLOR_DIFF_THRESHOLD) ∧
    BLUE_THRESHOLD = 120 ∧ COLOR_DIFF_THRESHOLD = 50 ∧
    detectBlue { r := 10, g := 10, b := 200 } = true := by
  refine ⟨?_, rfl, rfl, by decide⟩
  simp [detectBlue, and_assoc]

/-- C8, as stated, fails: `detectBlue` does not return false on `(10, 10, 150)`. -/
theorem detectBlue_150_not_rejected :
    ¬ (detectBlue { r := 10, g := 10, b := 150 } = false) := by
  decide

/-- C8, amended. The reading `(10, 10, 150)` is detected as blue, and a reading
with `r = g = 10` is rejected exactly when `b <= 120`. -/
theorem detectBlue_150_accepted :
    BLUE_THRESHOLD = 120 ∧ COLOR_DIFF_THRESHOLD = 50 ∧
    detectBlue { r := 10, g := 10, b := 150 } = true ∧
    ∀ b : Int, detectBlue { r := 10, g := 10, b := b } = false ↔ b ≤ 120 := by
  refine ⟨rfl, rfl, by decide, ?_⟩
  intro b
  simp only [detectBlue, BLUE_THRESHOLD, COLOR_DIFF_THRESHOLD]
  constructor
  · intro h
    by_contra hb
    simp at h
    omega
  · intro h
    have h1 : ¬ b > 120 := by omega
    simp [h1]

/-! ## Feeding errors to `calcPropValue` -/

theorem feed_three (t : Tracer) (h0 : t.mPreviousError = 0) :
    (feed t [10, 10, 10]).map Prod.fst = [10, 8, 8] := by
  norm_num [feed, calcPropValue, h0, Kp, Kd, bias]

theorem floatToInt_eight : floatToInt 8 = 8 := by
  exact_mod_cast floatToInt_intCast 8

theorem floatToInt_ten : floatToInt 10 = 10 := by
  exact_mod_cast floatToInt_intCast 10

theorem speeds_three (t : Tracer) (h0 : t.mPreviousError = 0) :
    (feed t [10, 10, 10]).map (fun r => calcAdaptiveSpeed r.2 r.1)
      = [Int.tdiv (t.mCurrentBaseSpeed * 70) 100, t.mCurrentBaseSpeed, t.mCurrentBaseSpeed] := by
  have h := feed_three t h0
  simp only [feed, List.map, List.cons.injEq, and_true] at h
  obtain ⟨h1, h2, h3⟩ := h
  simp only [feed, List.map, h1, h2, h3]
  norm_num [calcAdaptiveSpeed, turnAbs, floatToInt_eight, floatToInt_ten, calcPropValue]

/-- C6, as stated, fails: the turns for the errors `[10, 10, 10]` are not
`[8, 8, 8]`, and on the first tick the speed (35 at base speed 50) is not the
base speed. -/
theorem feed_three_not_all_eight :
    (feed constructed [10, 10, 10]).map Prod.fst ≠ [8, 8, 8] ∧
    (feed constructed [10, 10, 10]).map (fun r => calcAdaptiveSpeed r.2 r.1)
      ≠ [constructed.mCurrentBaseSpeed, constructed.mCurrentBaseSpeed,
          constructed.mCurrentBaseSpeed] := by
  rw [feed_three constructed rfl, speeds_three constructed rfl]
  constructor
  · norm_num
  · decide

/-- C6, amended. With `Kp = 0.8`, `Kd = 0.2`, `bias = 0` and `mPreviousError = 0`
the errors `[10, 10, 10]` give the turns `[10, 8, 8]`; the first is in the band
`8 < |turn| <= 15`, where the speed is `(base*70)/100`, the other two are in the
band `|turn| <= 8`, where the speed is the base speed. -/
theorem feed_three_turns_and_speeds (t : Tracer) (h0 : t.mPreviousError = 0) :
    (Kp = 4 / 5 ∧ Kd = 1 / 5 ∧ bias = 0) ∧
    (feed t [10, 10, 10]).map Prod.fst = [10, 8, 8] ∧
    (feed t [10, 10, 10]).map (fun r => calcAdaptiveSpeed r.2 r.1)
      = [Int.tdiv (t.mCurrentBaseSpeed * 70) 100, t.mCurrentBaseSpeed, t.mCurrentBaseSpeed] :=
  ⟨⟨rfl, rfl, rfl⟩, feed_three t h0, speeds_three t h0⟩

/-- Witness of the amended C6 on the constructed controller (base speed 50). -/
theorem feed_three_turns_and_speeds_witness :
    constructed.mPreviousError = 0 ∧
    ((Kp = 4 / 5 ∧ Kd = 1 / 5 ∧ bias = 0) ∧
    (feed constructed [10, 10, 10]).map Prod.fst = [10, 8, 8] ∧
    (feed constructed [10, 10, 10]).map (fun r => calcAdaptiveSpeed r.2 r.1)
      = [Int.tdiv (constructed.mCurrentBaseSpeed * 70) 100, constructed.mCurrentBaseSpeed,
          constructed.mCurrentBaseSpeed]) :=
  ⟨rfl, feed_three_turns_and_speeds constructed rfl⟩

/-! ## One tick of `run` in steady state -/

theorem startOf_self (t : Tracer) : (startOf t).self = { t with mIsInitialized := true } := by
  unfold startOf
  cases h : t.mIsInitialized
  · simp [init, emit, enter]
  · cases t
    simp_all [enter]

theorem startOf_nReflection (t : Tracer) : (startOf t).nReflection = 0 := by
  unfold startOf
  split <;> simp [init, emit, enter]

theorem powers_append (l₁ l₂ : List MotorCmd) : powers (l₁ ++ l₂) = powers l₁ ++ powers l₂ := by
  induction l₁ with
  | nil => rfl
  | cons c rest ih => cases c <;> simp [powers, ih]

theorem powers_startOf (t : Tracer) : powers (startOf t).log = [] := by
  unfold startOf
  split <;> simp [init, emit, enter, powers]

theorem run_steady (v : Variant) (hw : Sensors) (fuel : Nat) (t : Tracer)
    (hc : t.mInitialSequenceCompleted = true) (hs : t.mIsStopped = false)
    (hb : (t.mBlueDetectionEnabled && detectBlue hw.rgb) = false)
    (hl : t.mLineTraceEnabled = true) :
    run v hw fuel t = some (lineTrace hw (startOf t)) := by
  simp only [run, startOf_self, hc, hs, hb, hl]
  simp

theorem turnOf_startOf (hw : Sensors) (t : Tracer) :
    turnOf hw (startOf t) = (calcPropValue t (hw.reflection 0 - target)).1 := by
  simp [turnOf, calDiffReflection, getReflection, startOf_self, startOf_nReflection,
    calcPropValue]

theorem lineTrace_self (hw : Sensors) (t : Tracer) :
    (lineTrace hw (startOf t)).self
      = { t with mIsInitialized := true, mPreviousError := hw.reflection 0 - target } := by
  simp [lineTrace, setPowers, emit, calDiffReflection, getReflection, startOf_self,
    startOf_nReflection, calcPropValue]

theorem lineTrace_powers (hw : Sensors) (t : Tracer) :
    powers (lineTrace hw (startOf t)).log
      = [(Wheel.leftWheel, floatToInt
            ((calcAdaptiveSpeed t (calcPropValue t (hw.reflection 0 - target)).1 : ℚ)
              - (calcPropValue t (hw.reflection 0 - target)).1)),
         (Wheel.rightWheel, floatToInt
            ((calcAdaptiveSpeed t (calcPropValue t (hw.reflection 0 - target)).1 : ℚ)
              + (calcPropValue t (hw.reflection 0 - target)).1))] := by
  simp only [lineTrace, setPowers, emit, powers_append, turnOf_startOf]
  simp [powers, powers_startOf, calDiffReflection, getReflection, startOf_self,
    startOf_nReflection, calcPropValue, calcAdaptiveSpeed]

/-! ## Ten ticks on the target reflectance -/

theorem run_on_target (v : Variant) (hw : Sensors) (fuel : Nat) (t : Tracer)
    (hc : t.mInitialSequenceCompleted = true) (hs : t.mIsStopped = false)
    (hl : t.mLineTraceEnabled = true) (hp : t.mPreviousError = 0)
    (hr : hw.reflection 0 = target) (hb : detectBlue hw.rgb = false) :
    run v hw fuel t = some (lineTrace hw (startOf t)) ∧
    turnOf hw (startOf t) = 0 ∧
    powers (lineTrace hw (startOf t)).log
      = [(Wheel.leftWheel, t.mCurrentBaseSpeed), (Wheel.rightWheel, t.mCurrentBaseSpeed)] ∧
    (lineTrace hw (startOf t)).self = { t with mIsInitialized := true } := by
  have hturn : (calcPropValue t (hw.reflection 0 - target)).1 = 0 := by
    simp [calcPropValue, hr, hp, bias]
  have hz : floatToInt 0 = 0 := by exact_mod_cast floatToInt_intCast 0
  have hspeed : calcAdaptiveSpeed t 0 = t.mCurrentBaseSpeed := by
    norm_num [calcAdaptiveSpeed, turnAbs, hz]
  refine ⟨run_steady v hw fuel t hc hs (by simp [hb]) hl, ?_, ?_, ?_⟩
  · rw [turnOf_startOf, hturn]
  · rw [lineTrace_powers, hturn, hspeed]
    simp [floatToInt_intCast]
  · rw [lineTrace_self, hr]
    cases t
    simp_all

theorem runTicks_on_target (v : Variant) (fuel : Nat) (hws : List Sensors) :
    ∀ t : Tracer, t.mInitialSequenceCompleted = true → t.mIsStopped = false →
      t.mLineTraceEnabled = true → t.mPreviousError = 0 →
      (∀ hw ∈ hws, hw.reflection 0 = target ∧ detectBlue hw.rgb = false) →
      ∃ xs : List Exec, runTicks v fuel t hws = some xs ∧ xs.length = hws.length ∧
        ∀ (i : Nat) (hw : Sensors) (s : Tracer) (x : Exec),
          hws[i]? = some hw → (t :: xs.map Exec.self)[i]? = some s → xs[i]? = some x →
          turnOf hw (startOf s) = 0 ∧
          powers x.log
            = [(Wheel.leftWheel, s.mCurrentBaseSpeed), (Wheel.rightWheel, s.mCurrentBaseSpeed)] ∧
          s.mCurrentBaseSpeed = t.mCurrentBaseSpeed := by
  induction hws with
  | nil =>
    intro t _ _ _ _ _
    exact ⟨[], rfl, rfl, by intro i hw s x h; simp at h⟩
  | cons hw rest ih =>
    intro t hc hs hl hp hr
    obtain ⟨hrun, hturn, hpow, hself⟩ :=
      run_on_target v hw fuel t hc hs hl hp (hr hw (by simp)).1 (hr hw (by simp)).2
    obtain ⟨xs, hxs, hlen, hall⟩ := ih (lineTrace hw (startOf t)).self
      (by rw [hself]; exact hc) (by rw [hself]; exact hs) (by rw [hself]; exact hl)
      (by rw [hself]; exact hp) (fun hw' hm => hr hw' (by simp [hm]))
    refine ⟨lineTrace hw (startOf t) :: xs, ?_, by simp [hlen], ?_⟩
    · simp [runTicks, hrun, hxs]
    · intro i hw' s x h1 h2 h3
      cases i with
      | zero =>
        simp at h1 h2 h3
        subst h1 h2 h3
        exact ⟨hturn, hpow, rfl⟩
      | succ j =>
        simp only [List.getElem?_cons_succ, List.map_cons] at h1 h2 h3
        obtain ⟨a, b, c⟩ := hall j hw' s x h1 h2 h3
        refine ⟨a, b, ?_⟩
        rw [c, hself]

/-- C5. From a steady-state controller (alignment complete, not stopped, both
flags armed, `mPreviousError = 0`), ten ticks whose reflectance reading is the
target 25 and whose RGB reading is not blue all return; on each of them `turn`
is 0 and the two powers commanded are the current base speed (which stays what
it was). -/
theorem run_ten_ticks_on_target (v : Variant) (fuel : Nat) (t : Tracer) (hws : List Sensors)
    (hc : t.mInitialSequenceCompleted = true) (hs : t.mIsStopped = false)
    (hl : t.mLineTraceEnabled = true) (hd : t.mBlueDetectionEnabled = true)
    (hp : t.mPreviousError = 0) (hlen : hws.length = 10)
    (hr : ∀ hw ∈ hws, hw.reflection 0 = 25 ∧ detectBlue hw.rgb = false) :
    target = 25 ∧
    ∃ xs : List Exec, runTicks v fuel t hws = some xs ∧ xs.length = 10 ∧
      ∀ (i : Nat) (hw : Sensors) (s : Tracer) (x : Exec),
        hws[i]? = some hw → (t :: xs.map Exec.self)[i]? = some s → xs[i]? = some x →
        turnOf hw (startOf s) = 0 ∧
        powers x.log
          = [(Wheel.leftWheel, s.mCurrentBaseSpeed), (Wheel.rightWheel, s.mCurrentBaseSpeed)] ∧
        s.mCurrentBaseSpeed = t.mCurrentBaseSpeed := by
  have _ := hd
  obtain ⟨xs, h1, h2, h3⟩ := runTicks_on_target v fuel hws t hc hs hl hp hr
  exact ⟨rfl, xs, h1, by rw [h2, hlen], h3⟩

/-- Witness of C5: ten ticks at reflectance 25 from `steady` (base speed 50). -/
theorem run_ten_ticks_on_target_witness :
    (List.replicate 10 reading25).length = 10 ∧
    ∃ xs : List Exec,
      runTicks Variant.testForce 0 steady (List.replicate 10 reading25) = some xs ∧
      xs.length = 10 ∧
      ∀ (i : Nat) (hw : Sensors) (s : Tracer) (x : Exec),
        (List.replicate 10 reading25)[i]? = some hw →
        (steady :: xs.map Exec.self)[i]? = some s → xs[i]? = some x →
        turnOf hw (startOf s) = 0 ∧
        powers x.log
          = [(Wheel.leftWheel, s.mCurrentBaseSpeed), (Wheel.rightWheel, s.mCurrentBaseSpeed)] ∧
        s.mCurrentBaseSpeed = steady.mCurrentBaseSpeed :=
  ⟨rfl, (run_ten_ticks_on_target Variant.testForce 0 steady (List.replicate 10 reading25)
    rfl rfl rfl rfl rfl rfl (by
      intro hw h
      rw [List.eq_of_mem_replicate h]
      exact ⟨rfl, by decide⟩)).2⟩

/-! ## What the scripted statements leave alone -/

theorem emit_self (c : MotorCmd) (x : Exec) : (emit c x).self = x.self := rfl

theorem stopBoth_self (x : Exec) : (stopBoth x).self = x.self := rfl

theorem setPowers_self (l r : Int) (x : Exec) : (setPowers l r x).self = x.self := rfl

theorem getCounts_self (hw : Sensors) (x : Exec) : (getCounts hw x).2.self = x.self := rfl

theorem detectBlack_self (hw : Sensors) (x : Exec) : (detectBlack hw x).2.self = x.self :=
  rfl

theorem pollLoop_self (hw : Sensors) (goal : Int) : ∀ (fuel : Nat) (x y : Exec),
    pollLoop hw goal fuel x = some y → y.self = x.self := by
  intro fuel
  induction fuel with
  | zero => intro x y h; simp [pollLoop] at h
  | succ n ih =>
    intro x y h
    simp only [pollLoop] at h
    split at h
    · simp only [Option.some.injEq] at h
      rw [← h]; rfl
    · rw [ih _ _ h]; rfl

theorem pollLoopTimeout_self (hw : Sensors) (goal : Int) : ∀ (n : Nat) (x : Exec),
    (pollLoopTimeout hw goal n x).self = x.self := by
  intro n
  induction n with
  | zero => intro x; rfl
  | succ n ih =>
    intro x
    simp only [pollLoopTimeout]
    split
    · rfl
    · rw [ih]; rfl

theorem moveForward_self (v : Variant) (hw : Sensors) (fuel : Nat) (distanceCm : ℚ)
    (direction : TurnDirection) (turnIntensity : ℚ) (x y : Exec)
    (h : moveForward v hw fuel distanceCm direction turnIntensity x = some y) :
    y.self = x.self := by
  cases v with
  | testForce =>
    simp only [moveForward, Option.map_eq_some'] at h
    obtain ⟨z, hz, hy⟩ := h
    rw [← hy, stopBoth_self, pollLoop_self hw _ fuel _ z hz]
    rfl
  | LTest =>
    simp only [moveForward, Option.some.injEq] at h
    rw [← h, stopBoth_self, pollLoopTimeout_self]
    rfl

theorem awaitBlackLoop_self (hw : Sensors) : ∀ (fuel : Nat) (x y : Exec),
    awaitBlackLoop hw fuel x = some y → y.self = x.self := by
  intro fuel
  induction fuel with
  | zero => intro x y h; simp [awaitBlackLoop] at h
  | succ n ih =>
    intro x y h
    simp only [awaitBlackLoop] at h
    split at h
    · simp only [Option.some.injEq] at h
      rw [← h]; rfl
    · rw [ih _ _ h]; rfl

theorem OnlyStopChanged.refl (a : Tracer) : OnlyStopChanged a a := by
  cases a; rfl

theorem OnlyStopChanged.trans {a b c : Tracer} (h1 : OnlyStopChanged a b)
    (h2 : OnlyStopChanged b c) : OnlyStopChanged a c := by
  unfold OnlyStopChanged at *
  rw [h2, h1]

theorem OnlyStopChanged.of_eq {a b : Tracer} (h : b = a) : OnlyStopChanged a b := by
  rw [h]; exact OnlyStopChanged.refl a

theorem execStmt_frame (v : Variant) (hw : Sensors) (fuel : Nat) (s : Stmt) (x y : Exec)
    (h : execStmt v hw fuel s x = some y) : OnlyStopChanged x.self y.self := by
  cases s with
  | moveForward d dir i =>
    exact OnlyStopChanged.of_eq (moveForward_self v hw fuel d dir i x y h)
  | setCompleteStop stopped =>
    simp only [execStmt, Option.some.injEq] at h
    rw [← h]
    cases stopped <;> simp [setCompleteStop, OnlyStopChanged, stopBoth, emit]
  | awaitBlack =>
    simp only [execStmt, Option.map_eq_some'] at h
    obtain ⟨z, hz, hy⟩ := h
    rw [← hy, stopBoth_self]
    exact OnlyStopChanged.of_eq (awaitBlackLoop_self hw fuel x z hz)

theorem statesDuring_frame (v : Variant) (hw : Sensors) (fuel : Nat) (body : List Stmt) :
    ∀ (x y : Exec), y ∈ statesDuring v hw fuel body x → OnlyStopChanged x.self y.self := by
  induction body with
  | nil =>
    intro x y h
    simp only [statesDuring, List.mem_singleton] at h
    rw [h]; exact OnlyStopChanged.refl _
  | cons s rest ih =>
    intro x y h
    simp only [statesDuring] at h
    split at h
    · simp only [List.mem_singleton] at h
      rw [h]; exact OnlyStopChanged.refl _
    · rename_i z hz
      simp only [List.mem_cons] at h
      rcases h with h | h
      · rw [h]; exact OnlyStopChanged.refl _
      · exact (execStmt_frame v hw fuel s x z hz).trans (ih z y h)

theorem execStmts_mem (v : Variant) (hw : Sensors) (fuel : Nat) (body : List Stmt) :
    ∀ (x y : Exec), execStmts v hw fuel body x = some y →
      y ∈ statesDuring v hw fuel body x := by
  induction body with
  | nil =>
    intro x y h
    simp only [execStmts, Option.some.injEq] at h
    simp [statesDuring, h]
  | cons s rest ih =>
    intro x y h
    simp only [execStmts] at h
    split at h
    · simp at h
    · rename_i z hz
      simp only [statesDuring, hz, List.mem_cons]
      exact Or.inr (ih z y h)

theorem executeBlueAction_frame (v : Variant) (hw : Sensors) (fuel : Nat) (x y : Exec)
    (h : executeBlueAction v hw fuel x = some y) : OnlyStopChanged x.self y.self :=
  statesDuring_frame v hw fuel _ x y (execStmts_mem v hw fuel _ x y h)

theorem run_blue (v : Variant) (hw : Sensors) (fuel : Nat) (t : Tracer)
    (hc : t.mInitialSequenceCompleted = true) (hs : t.mIsStopped = false)
    (hd : t.mBlueDetectionEnabled = true) (hb : detectBlue hw.rgb = true) :
    run v hw fuel t = (executeBlueAction v hw fuel (blueEntry (startOf t))).map blueExit := by
  simp only [run, startOf_self, hc, hs, hb, hd]
  simp

theorem blueEntry_flags (x : Exec) :
    (blueEntry x).self.mBlueDetectionEnabled = false ∧
    (blueEntry x).self.mLineTraceEnabled = false ∧
    (blueEntry x).self.mIsStopped = x.self.mIsStopped := by
  unfold blueEntry
  simp only [setLineTraceEnabled, setBlueDetectionEnabled, setSlowMode]
  split <;> simp

/-- C9. On a tick of `run` entered in steady state (alignment complete, not
stopped, blue detection enabled) whose RGB reading is blue, every machine seen
while `executeBlueAction` runs has `mBlueDetectionEnabled` and
`mLineTraceEnabled` false; when the tick returns, both flags are true if the
stop flag is not set at the return of `executeBlueAction` and both are false
if it is. -/
theorem run_blue_flags (v : Variant) (hw : Sensors) (fuel : Nat) (t : Tracer)
    (hc : t.mInitialSequenceCompleted = true) (hs : t.mIsStopped = false)
    (hd : t.mBlueDetectionEnabled = true) (hb : detectBlue hw.rgb = true) :
    (∀ y ∈ statesDuring v hw fuel
        (executeBlueActionBody v (blueEntry (startOf t)).self.mBlueDetectionCount)
        (blueEntry (startOf t)),
      y.self.mBlueDetectionEnabled = false ∧ y.self.mLineTraceEnabled = false) ∧
    (∀ x : Exec, run v hw fuel t = some x →
      ∃ y : Exec, executeBlueAction v hw fuel (blueEntry (startOf t)) = some y ∧
        y ∈ statesDuring v hw fuel
          (executeBlueActionBody v (blueEntry (startOf t)).self.mBlueDetectionCount)
          (blueEntry (startOf t)) ∧
        (y.self.mIsStopped = false →
          x.self.mBlueDetectionEnabled = true ∧ x.self.mLineTraceEnabled = true ∧
            x.self.mIsStopped = false) ∧
        (y.self.mIsStopped = true →
          x.self.mBlueDetectionEnabled = false ∧ x.self.mLineTraceEnabled = false ∧
            x.self.mIsStopped = true)) := by
  have hflags : ∀ y ∈ statesDuring v hw fuel
      (executeBlueActionBody v (blueEntry (startOf t)).self.mBlueDetectionCount)
      (blueEntry (startOf t)),
      y.self.mBlueDetectionEnabled = false ∧ y.self.mLineTraceEnabled = false := by
    intro y hy
    have h := statesDuring_frame v hw fuel _ _ y hy
    obtain ⟨h1, h2, _⟩ := blueEntry_flags (startOf t)
    unfold OnlyStopChanged at h
    rw [h]
    exact ⟨h1, h2⟩
  refine ⟨hflags, ?_⟩
  intro x hx
  rw [run_blue v hw fuel t hc hs hd hb, Option.map_eq_some'] at hx
  obtain ⟨y, hy, hxy⟩ := hx
  have hmem := execStmts_mem v hw fuel _ _ y hy
  obtain ⟨h1, h2⟩ := hflags y hmem
  refine ⟨y, hy, hmem, ?_, ?_⟩
  · intro hstop
    rw [← hxy]
    simp [blueExit, hstop, setLineTraceEnabled, setBlueDetectionEnabled]
  · intro hstop
    rw [← hxy]
    simp [blueExit, hstop, h1, h2]

/-! ## Base speed and detection count -/

theorem beginSequence_frame (x : Exec) :
    (beginSequence x).self.mBlueDetectionCount = x.self.mBlueDetectionCount ∧
    (beginSequence x).self.mCurrentBaseSpeed = x.self.mCurrentBaseSpeed ∧
    (beginSequence x).self.mPreviousError = x.self.mPreviousError ∧
    (beginSequence x).self.mIsStopped = x.self.mIsStopped := by
  unfold beginSequence
  split <;> simp

theorem sequenceSwitch_frame (hw : Sensors) (fuel : Nat) (x y : Exec)
    (h : sequenceSwitch hw fuel x = some y) :
    y.self.mBlueDetectionCount = x.self.mBlueDetectionCount ∧
    y.self.mCurrentBaseSpeed = x.self.mCurrentBaseSpeed ∧
    y.self.mPreviousError = x.self.mPreviousError ∧
    y.self.mIsStopped = x.self.mIsStopped := by
  unfold sequenceSwitch at h
  split_ifs at h <;>
    first
    | (simp only [Option.some.injEq] at h
       rw [← h]
       simp [enterStep, setPowers, stopBoth, emit, detectBlack, getReflection])
    | (simp only [Option.map_eq_some'] at h
       obtain ⟨z, hz, hy⟩ := h
       have hs := moveForward_self _ _ _ _ _ _ _ z hz
       rw [← hy]
       simp [enterStep, hs])

theorem performInitialSequence_frame (v : Variant) (hw : Sensors) (fuel : Nat) (x y : Exec)
    (h : performInitialSequence v hw fuel x = some y) :
    y.self.mBlueDetectionCount = x.self.mBlueDetectionCount ∧
    y.self.mCurrentBaseSpeed = x.self.mCurrentBaseSpeed ∧
    y.self.mPreviousError = x.self.mPreviousError ∧
    y.self.mIsStopped = x.self.mIsStopped := by
  cases v with
  | LTest =>
    simp only [performInitialSequence, Option.some.injEq] at h
    rw [← h]
    simp [setBlueDetectionEnabled, setLineTraceEnabled]
  | testForce =>
    simp only [performInitialSequence] at h
    obtain ⟨a, b, c, d⟩ := sequenceSwitch_frame hw fuel _ y h
    obtain ⟨a', b', c', d'⟩ := beginSequence_frame x
    exact ⟨a.trans a', b.trans b', c.trans c', d.trans d'⟩

theorem blueEntry_count (x : Exec) :
    (blueEntry x).self.mBlueDetectionCount = x.self.mBlueDetectionCount + 1 ∧
    (blueEntry x).self.mCurrentBaseSpeed
      = (if x.self.mBlueDetectionCount + 1 = 1 then SLOW_BASE_SPEED
          else x.self.mCurrentBaseSpeed) := by
  unfold blueEntry
  simp only [setLineTraceEnabled, setBlueDetectionEnabled, setSlowMode]
  split <;> simp

theorem blueExit_frame (x : Exec) :
    (blueExit x).self.mBlueDetectionCount = x.self.mBlueDetectionCount ∧
    (blueExit x).self.mCurrentBaseSpeed = x.self.mCurrentBaseSpeed := by
  unfold blueExit
  split <;> simp [setLineTraceEnabled, setBlueDetectionEnabled]

theorem run_count_speed (v : Variant) (hw : Sensors) (fuel : Nat) (t : Tracer) (x : Exec)
    (h : run v hw fuel t = some x) :
    (x.self.mBlueDetectionCount = t.mBlueDetectionCount ∧
      x.self.mCurrentBaseSpeed = t.mCurrentBaseSpeed) ∨
    (x.self.mBlueDetectionCount = t.mBlueDetectionCount + 1 ∧
      x.self.mCurrentBaseSpeed
        = (if t.mBlueDetectionCount + 1 = 1 then SLOW_BASE_SPEED else t.mCurrentBaseSpeed)) := by
  have hst := startOf_self t
  simp only [run] at h
  split_ifs at h with h1 h2 h3 h4
  · obtain ⟨a, b, _, _⟩ := performInitialSequence_frame v hw fuel _ x h
    left
    rw [a, b, hst]
    exact ⟨rfl, rfl⟩
  · simp only [Option.some.injEq] at h
    left
    rw [← h, stopBoth_self, hst]
    exact ⟨rfl, rfl⟩
  · rw [Option.map_eq_some'] at h
    obtain ⟨y, hy, hxy⟩ := h
    have hf := executeBlueAction_frame v hw fuel _ y hy
    obtain ⟨a, b⟩ := blueEntry_count (startOf t)
    obtain ⟨c, d⟩ := blueExit_frame y
    right
    unfold OnlyStopChanged at hf
    rw [← hxy, c, d, hf]
    simp only
    rw [a, b, hst]
    exact ⟨rfl, rfl⟩
  · simp only [Option.some.injEq] at h
    left
    rw [← h, hst]
    exact ⟨rfl, rfl⟩
  · simp only [Option.some.injEq] at h
    left
    rw [← h, lineTrace_self]
    exact ⟨rfl, rfl⟩

theorem reachable_inv (v : Variant) (t : Tracer) (h : Reachable v t) :
    0 ≤ t.mBlueDetectionCount ∧
    (t.mBlueDetectionCount = 0 → t.mCurrentBaseSpeed = DEFAULT_BASE_SPEED) ∧
    (1 ≤ t.mBlueDetectionCount → t.mCurrentBaseSpeed = SLOW_BASE_SPEED) := by
  induction h with
  | constructed => simp [constructed]
  | init t _ ih => simpa [init, emit, enter] using ih
  | tick t hw fuel x _ hrun ih =>
    obtain ⟨h0, h1, h2⟩ := ih
    rcases run_count_speed v hw fuel t x hrun with ⟨a, b⟩ | ⟨a, b⟩
    · rw [a, b]; exact ⟨h0, h1, h2⟩
    · rw [a, b]
      refine ⟨by omega, by intro h; omega, ?_⟩
      intro _
      split
      · rfl
      · rename_i hne
        exact h2 (by omega)

/-- C10. In every state reachable by ticks of `run` from the constructed
controller the base speed is `DEFAULT_BASE_SPEED` (50) if no blue has been
counted and `SLOW_BASE_SPEED` (30) once the count is at least 1. -/
theorem base_speed_by_count (v : Variant) (t : Tracer) (h : Reachable v t) :
    DEFAULT_BASE_SPEED = 50 ∧ SLOW_BASE_SPEED = 30 ∧
    (t.mBlueDetectionCount = 0 → t.mCurrentBaseSpeed = DEFAULT_BASE_SPEED) ∧
    (t.mBlueDetectionCount ≥ 1 → t.mCurrentBaseSpeed = SLOW_BASE_SPEED) :=
  ⟨rfl, rfl, (reachable_inv v t h).2.1, (reachable_inv v t h).2.2⟩

/-! ## The second blue detection of `sample06_20250909testForce`, evaluated -/

theorem baseDegrees_10 : baseDegrees 10 = 212 := by
  unfold baseDegrees
  rw [floatToInt_of_nonneg (by norm_num [WHEEL_DIAMETER_CM]), Int.floor_eq_iff]
  norm_num [WHEEL_DIAMETER_CM]

theorem baseDegrees_3 : baseDegrees 3 = 63 := by
  unfold baseDegrees
  rw [floatToInt_of_nonneg (by norm_num [WHEEL_DIAMETER_CM]), Int.floor_eq_iff]
  norm_num [WHEEL_DIAMETER_CM]

theorem leftTargetDegrees_10_right_2 : leftTargetDegrees 10 .RIGHT 2 = 296 := by
  simp only [leftTargetDegrees, baseDegrees_10, distanceMultiplier]
  rw [floatToInt_of_nonneg (by norm_num), Int.floor_eq_iff]
  norm_num

theorem rightTargetDegrees_3_left_10 : rightTargetDegrees 3 .LEFT 10 = 189 := by
  simp only [rightTargetDegrees, baseDegrees_3, distanceMultiplier]
  rw [floatToInt_of_nonneg (by norm_num), Int.floor_eq_iff]
  norm_num

theorem moveForward_first_poll (hw : Sensors) (fuel : Nat) (distanceCm : ℚ)
    (direction : TurnDirection) (turnIntensity : ℚ) (x : Exec)
    (h : reached (averageTarget (hw.count x.nCount) distanceCm direction turnIntensity)
      (hw.count (x.nCount + 1)) = true) :
    moveForward .testForce hw (fuel + 1) distanceCm direction turnIntensity x
      = some
        { self := x.self
          nReflection := x.nReflection
          nCount := x.nCount + 2
          log := x.log ++ [.setPower .leftWheel (leftPower x.self direction turnIntensity),
            .setPower .rightWheel (rightPower x.self direction turnIntensity),
            .stop .leftWheel, .stop .rightWheel] } := by
  simp only [moveForward, pollLoop, getCounts, setPowers, emit, h, if_true, Option.map_some',
    stopBoth, List.append_assoc, List.singleton_append]
  rfl

theorem run_second_blue :
    (run .testForce blueReading 1 afterFirstBlue).map Exec.self = some afterSecondBlue := by
  rw [run_blue .testForce blueReading 1 afterFirstBlue rfl rfl rfl (by decide)]
  have hentry : blueEntry (startOf afterFirstBlue)
      = { self := { afterFirstBlue with
            mBlueDetectionCount := 2, mBlueDetectionEnabled := false,
            mLineTraceEnabled := false }
          nReflection := 0, nCount := 0, log := [] } := by
    rfl
  have hbody : executeBlueActionBody .testForce 2
      = [.moveForward 10 .RIGHT 2, .setCompleteStop true, .moveForward 3 .LEFT 10,
          .setCompleteStop true] := by
    rfl
  have hbase10 : rightTargetDegrees 10 .RIGHT 2 = 212 := baseDegrees_10
  have hbase3 : leftTargetDegrees 3 .LEFT 10 = 63 := baseDegrees_3
  rw [hentry]
  simp only [executeBlueAction, hbody, execStmts, execStmt]
  rw [moveForward_first_poll blueReading 0 10 .RIGHT 2 _ (by
    simp only [averageTarget, leftTargetDegrees_10_right_2, hbase10, reached, blueReading]
    decide)]
  simp only [setCompleteStop, stopBoth, emit, if_true]
  rw [moveForward_first_poll blueReading 0 3 .LEFT 10 _ (by
    simp only [averageTarget, rightTargetDegrees_3_left_10, hbase3, reached, blueReading]
    decide)]
  simp only [Option.map_some', blueExit, afterSecondBlue]
  simp

/-- Witness of C9: the second blue detection of `sample06_20250909testForce`, whose
maneuver sets the stop flag; the tick returns with the controller
`afterSecondBlue`, both flags still false. -/
theorem run_blue_flags_witness :
    afterFirstBlue.mInitialSequenceCompleted = true ∧ afterFirstBlue.mIsStopped = false ∧
    afterFirstBlue.mBlueDetectionEnabled = true ∧ detectBlue blueReading.rgb = true ∧
    (run .testForce blueReading 1 afterFirstBlue).map Exec.self = some afterSecondBlue ∧
    ∀ y ∈ statesDuring .testForce blueReading 1
        (executeBlueActionBody .testForce
          (blueEntry (startOf afterFirstBlue)).self.mBlueDetectionCount)
        (blueEntry (startOf afterFirstBlue)),
      y.self.mBlueDetectionEnabled = false ∧ y.self.mLineTraceEnabled = false :=
  ⟨rfl, rfl, rfl, by decide, run_second_blue,
    (run_blue_flags .testForce blueReading 1 afterFirstBlue rfl rfl rfl (by decide)).1⟩

/-! ## A reachable state after the first blue detection -/

theorem execStmts_moves (hw : Sensors) (fuel : Nat) (body : List Stmt)
    (hbody : ∀ s ∈ body, ∃ d dir i, s = Stmt.moveForward d dir i) :
    ∀ x : Exec, ∃ y : Exec, execStmts .LTest hw fuel body x = some y ∧ y.self = x.self := by
  induction body with
  | nil => intro x; exact ⟨x, rfl, rfl⟩
  | cons s rest ih =>
    intro x
    obtain ⟨d, dir, i, hs⟩ := hbody s (by simp)
    obtain ⟨y, hy, hself⟩ := ih (fun s' hm => hbody s' (by simp [hm]))
      (stopBoth (pollLoopTimeout hw
        (averageTarget (getCounts hw x).1 d dir i) maxLoopCount
        (setPowers (leftPower x.self dir i) (rightPower x.self dir i) (getCounts hw x).2)))
    refine ⟨y, ?_, ?_⟩
    · rw [hs]
      simp only [execStmts, execStmt, moveForward]
      exact hy
    · rw [hself, stopBoth_self, pollLoopTimeout_self]
      rfl

theorem reachable_steady : Reachable .LTest steady :=
  Reachable.tick constructed reading25 0
    { self := steady, nReflection := 0, nCount := 0,
      log := [.resetCount .leftWheel, .resetCount .rightWheel] }
    Reachable.constructed rfl

theorem reachable_afterFirstBlue : Reachable .LTest afterFirstBlue := by
  have hbody : executeBlueActionBody .LTest (blueEntry (startOf steady)).self.mBlueDetectionCount
      = [.moveForward 20 .STRAIGHT 0, .moveForward 3 .RIGHT 6, .moveForward 14 .STRAIGHT 0] := by
    rfl
  obtain ⟨y, hy, hself⟩ := execStmts_moves blueReading 0
    (executeBlueActionBody .LTest (blueEntry (startOf steady)).self.mBlueDetectionCount)
    (by rw [hbody]; intro s hs; simp at hs; rcases hs with h | h | h <;> exact ⟨_, _, _, h⟩)
    (blueEntry (startOf steady))
  have hrun : run .LTest blueReading 0 steady = some (blueExit y) := by
    rw [run_blue .LTest blueReading 0 steady rfl rfl rfl (by decide), executeBlueAction, hy]
    rfl
  have hentry : (blueEntry (startOf steady)).self
      = { afterFirstBlue with mBlueDetectionEnabled := false, mLineTraceEnabled := false } := by
    rfl
  have hfinal : (blueExit y).self = afterFirstBlue := by
    rw [hentry] at hself
    simp only [blueExit, hself, setLineTraceEnabled, setBlueDetectionEnabled]
    rfl
  rw [← hfinal]
  exact Reachable.tick steady blueReading 0 (blueExit y) reachable_steady hrun

/-- Witness of C10: `afterFirstBlue`, the state of the LTest copy after the
alignment tick and one tick over a blue marker, has count 1 and base speed 30;
the constructed controller of `sample06_20250909testForce` has count 0 and base
speed 50. -/
theorem base_speed_by_count_witness :
    (Reachable .LTest afterFirstBlue ∧ afterFirstBlue.mBlueDetectionCount ≥ 1 ∧
      afterFirstBlue.mCurrentBaseSpeed = SLOW_BASE_SPEED) ∧
    (Reachable .testForce constructed ∧ constructed.mBlueDetectionCount = 0 ∧
      constructed.mCurrentBaseSpeed = DEFAULT_BASE_SPEED) :=
  ⟨⟨reachable_afterFirstBlue, by decide,
      (base_speed_by_count .LTest afterFirstBlue reachable_afterFirstBlue).2.2.2 (by decide)⟩,
    ⟨Reachable.constructed, rfl,
      (base_speed_by_count .testForce constructed Reachable.constructed).2.2.1 rfl⟩⟩

/-! ## Permanent stop -/

theorem run_stopped (v : Variant) (hw : Sensors) (fuel : Nat) (t : Tracer)
    (hc : t.mInitialSequenceCompleted = true) (hs : t.mIsStopped = true) :
    run v hw fuel t = some (stopBoth (startOf t)) := by
  simp only [run, startOf_self, hc, hs]
  simp

theorem runTicks_stopped (v : Variant) (fuel : Nat) (hws : List Sensors) :
    ∀ t : Tracer, t.mInitialSequenceCompleted = true → t.mIsStopped = true →
      ∃ xs : List Exec, runTicks v fuel t hws = some xs ∧ xs.length = hws.length ∧
        ∀ x ∈ xs, x.self = { t with mIsInitialized := true } ∧
          ∃ pre : List MotorCmd, x.log = pre ++ [.stop .leftWheel, .stop .rightWheel] ∧
            powers x.log = [] := by
  induction hws with
  | nil => intro t _ _; exact ⟨[], rfl, rfl, by simp⟩
  | cons hw rest ih =>
    intro t hc hs
    have hrun := run_stopped v hw fuel t hc hs
    have hself : (stopBoth (startOf t)).self = { t with mIsInitialized := true } := by
      rw [stopBoth_self, startOf_self]
    obtain ⟨xs, hxs, hlen, hall⟩ := ih (stopBoth (startOf t)).self
      (by rw [hself]; exact hc) (by rw [hself]; exact hs)
    refine ⟨stopBoth (startOf t) :: xs, ?_, by simp [hlen], ?_⟩
    · simp [runTicks, hrun, hxs]
    · intro x hx
      rcases List.mem_cons.mp hx with h | h
      · rw [h]
        refine ⟨hself, (startOf t).log, ?_, ?_⟩
        · simp [stopBoth, emit]
        · simp [stopBoth, emit, powers_append, powers_startOf, powers]
      · obtain ⟨a, b⟩ := hall x h
        refine ⟨?_, b⟩
        rw [a, hself]

/-- C11. Once the stop flag is set after the alignment has completed, every
later tick of `run` returns, whatever its reflectance and RGB readings: its
last two commands are `stop` on the left and on the right wheel, it sets no
power, and it leaves the stop flag, the detection count, both enable flags, the
base speed and `mPreviousError` (every field but `mIsInitialized`, which is
true from then on) as they were. -/
theorem stop_is_absorbing (v : Variant) (fuel : Nat) (t : Tracer) (hws : List Sensors)
    (hc : t.mInitialSequenceCompleted = true) (hs : t.mIsStopped = true) :
    ∃ xs : List Exec, runTicks v fuel t hws = some xs ∧ xs.length = hws.length ∧
      ∀ x ∈ xs,
        (∃ pre : List MotorCmd, x.log = pre ++ [.stop .leftWheel, .stop .rightWheel] ∧
          powers x.log = []) ∧
        x.self = { t with mIsInitialized := true } ∧
        (t.mIsInitialized = true → x.self = t) ∧
        x.self.mIsStopped = true ∧
        x.self.mBlueDetectionCount = t.mBlueDetectionCount ∧
        x.self.mBlueDetectionEnabled = t.mBlueDetectionEnabled ∧
        x.self.mLineTraceEnabled = t.mLineTraceEnabled ∧
        x.self.mCurrentBaseSpeed = t.mCurrentBaseSpeed ∧
        x.self.mPreviousError = t.mPreviousError := by
  obtain ⟨xs, h1, h2, h3⟩ := runTicks_stopped v fuel hws t hc hs
  refine ⟨xs, h1, h2, ?_⟩
  intro x hx
  obtain ⟨a, b⟩ := h3 x hx
  refine ⟨b, a, ?_, ?_, ?_, ?_, ?_, ?_, ?_⟩
  · intro hi
    rw [a]
    cases t
    simp_all
  all_goals rw [a]
  exact hs

/-- Witness of C11: two ticks from `afterSecondBlue` (alignment complete, stopped),
the first of them on a blue reading. -/
theorem stop_is_absorbing_witness :
    afterSecondBlue.mInitialSequenceCompleted = true ∧ afterSecondBlue.mIsStopped = true ∧
    detectBlue blueReading.rgb = true ∧
    ∃ xs : List Exec,
      runTicks .testForce 0 afterSecondBlue [blueReading, reading25] = some xs ∧
      xs.length = [blueReading, reading25].length ∧
      ∀ x ∈ xs,
        (∃ pre : List MotorCmd, x.log = pre ++ [.stop .leftWheel, .stop .rightWheel] ∧
          powers x.log = []) ∧
        x.self = { afterSecondBlue with mIsInitialized := true } ∧
        (afterSecondBlue.mIsInitialized = true → x.self = afterSecondBlue) ∧
        x.self.mIsStopped = true ∧
        x.self.mBlueDetectionCount = afterSecondBlue.mBlueDetectionCount ∧
        x.self.mBlueDetectionEnabled = afterSecondBlue.mBlueDetectionEnabled ∧
        x.self.mLineTraceEnabled = afterSecondBlue.mLineTraceEnabled ∧
        x.self.mCurrentBaseSpeed = afterSecondBlue.mCurrentBaseSpeed ∧
        x.self.mPreviousError = afterSecondBlue.mPreviousError :=
  ⟨rfl, rfl, by decide,
    stop_is_absorbing .testForce 0 afterSecondBlue [blueReading, reading25] rfl rfl⟩

/-! ## Counts past the table of `executeBlueAction` -/

theorem executeBlueActionBody_LTest_default (n : Int) (h : n > 5) :
    executeBlueActionBody .LTest n = [.setCompleteStop true] := by
  unfold executeBlueActionBody
  split <;> first | rfl | omega | contradiction

theorem run_detects_eq (v : Variant) (hw : Sensors) (fuel : Nat) (t : Tracer)
    (h : detects t hw = true) :
    run v hw fuel t = (executeBlueAction v hw fuel (blueEntry (startOf t))).map blueExit := by
  simp only [detects, Bool.and_eq_true, Bool.not_eq_true'] at h
  obtain ⟨⟨⟨hc, hs⟩, hd⟩, hb⟩ := h
  exact run_blue v hw fuel t hc hs hd hb

/-! ## The targets and powers of `moveForward` -/

/-- C14. For the direction `STRAIGHT` the two target counts of `moveForward` are
`start + baseDegrees` and the two powers are the current base speed, whatever
`turnIntensity` is: two calls that differ only in `turnIntensity` do the same. -/
theorem moveForward_straight_ignores_intensity (v : Variant) (hw : Sensors) (fuel : Nat)
    (t : Tracer) (x : Exec) (start : Int × Int) (distanceCm i₁ i₂ : ℚ) :
    leftTargetCount start distanceCm .STRAIGHT i₁ = start.1 + baseDegrees distanceCm ∧
    rightTargetCount start distanceCm .STRAIGHT i₁ = start.2 + baseDegrees distanceCm ∧
    leftPower t .STRAIGHT i₁ = t.mCurrentBaseSpeed ∧
    rightPower t .STRAIGHT i₁ = t.mCurrentBaseSpeed ∧
    leftTargetCount start distanceCm .STRAIGHT i₁
      = leftTargetCount start distanceCm .STRAIGHT i₂ ∧
    rightTargetCount start distanceCm .STRAIGHT i₁
      = rightTargetCount start distanceCm .STRAIGHT i₂ ∧
    leftPower t .STRAIGHT i₁ = leftPower t .STRAIGHT i₂ ∧
    rightPower t .STRAIGHT i₁ = rightPower t .STRAIGHT i₂ ∧
    moveForward v hw fuel distanceCm .STRAIGHT i₁ x
      = moveForward v hw fuel distanceCm .STRAIGHT i₂ x :=
  ⟨rfl, rfl, rfl, rfl, rfl, rfl, rfl, rfl, rfl⟩

theorem floatToInt_nonneg {x : ℚ} (h : 0 ≤ x) : 0 ≤ floatToInt x := by
  rw [floatToInt_of_nonneg h]
  exact Int.floor_nonneg.mpr h

theorem floatToInt_mono_of_nonneg {x y : ℚ} (hx : 0 ≤ x) (hxy : x ≤ y) :
    floatToInt x ≤ floatToInt y := by
  rw [floatToInt_of_nonneg hx, floatToInt_of_nonneg (le_trans hx hxy)]
  exact Int.floor_mono hxy

theorem baseDegrees_nonneg (d : ℚ) (hd : 0 ≤ d) : 0 ≤ baseDegrees d := by
  unfold baseDegrees
  apply floatToInt_nonneg
  have hc : (0 : ℚ) < 314159265 / 100000000 * WHEEL_DIAMETER_CM := by
    norm_num [WHEEL_DIAMETER_CM]
  positivity

theorem scaled_ge_baseDegrees (d i : ℚ) (hd : 0 ≤ d) (hi : 0 ≤ i) :
    baseDegrees d ≤ floatToInt ((baseDegrees d : ℚ) * distanceMultiplier i) := by
  have hb : (0 : ℚ) ≤ (baseDegrees d : ℚ) := by exact_mod_cast baseDegrees_nonneg d hd
  have hm : (1 : ℚ) ≤ distanceMultiplier i := by
    unfold distanceMultiplier
    linarith [mul_nonneg hi (by norm_num : (0 : ℚ) ≤ 1 / 5)]
  have h := floatToInt_mono_of_nonneg hb (le_mul_of_one_le_right hb hm)
  rwa [floatToInt_intCast] at h

/-- C18. For a distance `>= 0` and an intensity `>= 0`, in every direction, the
target counts of `moveForward` are at least the start counts, and the target
degrees of the outer wheel (right for `LEFT`, left for `RIGHT`) are at least
those of the inner wheel; counts are unbounded integers here. -/
theorem moveForward_targets_forward (start : Int × Int) (distanceCm : ℚ)
    (direction : TurnDirection) (i : ℚ) (hd : 0 ≤ distanceCm) (hi : 0 ≤ i) :
    leftTargetCount start distanceCm direction i ≥ start.1 ∧
    rightTargetCount start distanceCm direction i ≥ start.2 ∧
    (direction = .LEFT →
      rightTargetDegrees distanceCm direction i ≥ leftTargetDegrees distanceCm direction i) ∧
    (direction = .RIGHT →
      leftTargetDegrees distanceCm direction i ≥ rightTargetDegrees distanceCm direction i) ∧
    (direction = .STRAIGHT →
      leftTargetDegrees distanceCm direction i = rightTargetDegrees distanceCm direction i) := by
  have hb := baseDegrees_nonneg distanceCm hd
  have hs := scaled_ge_baseDegrees distanceCm i hd hi
  cases direction <;>
    simp only [leftTargetCount, rightTargetCount, leftTargetDegrees, rightTargetDegrees] <;>
    refine ⟨by omega, by omega, ?_, ?_, ?_⟩ <;> intro _ <;> trivial

/-- Witness of C18: the right curve of 10 cm at intensity 2 from the start counts
`(0, 0)`. -/
theorem moveForward_targets_forward_witness :
    (0 : ℚ) ≤ 10 ∧ (0 : ℚ) ≤ 2 ∧
    leftTargetCount (0, 0) 10 .RIGHT 2 ≥ 0 ∧ rightTargetCount (0, 0) 10 .RIGHT 2 ≥ 0 ∧
    leftTargetDegrees 10 .RIGHT 2 ≥ rightTargetDegrees 10 .RIGHT 2 :=
  ⟨by norm_num, by norm_num,
    (moveForward_targets_forward (0, 0) 10 .RIGHT 2 (by norm_num) (by norm_num)).1,
    (moveForward_targets_forward (0, 0) 10 .RIGHT 2 (by norm_num) (by norm_num)).2.1,
    (moveForward_targets_forward (0, 0) 10 .RIGHT 2 (by norm_num) (by norm_num)).2.2.2.1 rfl⟩

/-! ## The poll loop with its timeout -/

theorem pollLoopTimeout_log (hw : Sensors) (goal : Int) : ∀ (n : Nat) (x : Exec),
    (pollLoopTimeout hw goal n x).log = x.log := by
  intro n
  induction n with
  | zero => intro x; rfl
  | succ n ih =>
    intro x
    simp only [pollLoopTimeout]
    split
    · rfl
    · rw [ih]; rfl

theorem pollLoopTimeout_nCount (hw : Sensors) (goal : Int) : ∀ (n : Nat) (x : Exec),
    x.nCount ≤ (pollLoopTimeout hw goal n x).nCount ∧
    (pollLoopTimeout hw goal n x).nCount ≤ x.nCount + n ∧
    ((∀ k, reached goal (hw.count k) = false) →
      (pollLoopTimeout hw goal n x).nCount = x.nCount + n) := by
  intro n
  induction n with
  | zero => intro x; simp [pollLoopTimeout]
  | succ n ih =>
    intro x
    simp only [pollLoopTimeout]
    split
    · rename_i h
      refine ⟨by simp [getCounts], by simp [getCounts], ?_⟩
      intro hall
      simp [getCounts, hall] at h
    · obtain ⟨a, b, c⟩ := ih (getCounts hw x).2
      have e : (getCounts hw x).2.nCount = x.nCount + 1 := rfl
      rw [e] at a b c
      refine ⟨by omega, by omega, ?_⟩
      intro hall
      rw [c hall]
      omega

/-- C16. In the LTest copy `moveForward` returns for every distance, direction,
intensity and every encoder readings, after one read of the start counts and
at least 1 and at most `maxLoopCount = 5000` polls (exactly 5000 when no
reading passes the distance test), and the last two commands it issues are
`stop` on the left and on the right wheel. -/
theorem moveForward_LTest_returns (hw : Sensors) (fuel : Nat) (distanceCm : ℚ)
    (direction : TurnDirection) (turnIntensity : ℚ) (x : Exec) :
    maxLoopCount = 5000 ∧
    ∃ y : Exec, moveForward .LTest hw fuel distanceCm direction turnIntensity x = some y ∧
      x.nCount + 1 ≤ y.nCount ∧ y.nCount ≤ x.nCount + 1 + maxLoopCount ∧
      ((∀ k, reached (averageTarget (hw.count x.nCount) distanceCm direction turnIntensity)
          (hw.count k) = false) → y.nCount = x.nCount + 1 + maxLoopCount) ∧
      y.log = x.log ++ [.setPower .leftWheel (leftPower x.self direction turnIntensity),
        .setPower .rightWheel (rightPower x.self direction turnIntensity),
        .stop .leftWheel, .stop .rightWheel] := by
  have h := pollLoopTimeout_nCount hw
    (averageTarget (getCounts hw x).1 distanceCm direction turnIntensity) maxLoopCount
    (setPowers (leftPower (getCounts hw x).2.self direction turnIntensity)
      (rightPower (getCounts hw x).2.self direction turnIntensity) (getCounts hw x).2)
  have e : (setPowers (leftPower (getCounts hw x).2.self direction turnIntensity)
      (rightPower (getCounts hw x).2.self direction turnIntensity)
      (getCounts hw x).2).nCount = x.nCount + 1 := rfl
  rw [e] at h
  refine ⟨rfl, _, rfl, h.1, h.2.1, h.2.2, ?_⟩
  simp [stopBoth, emit, pollLoopTimeout_log, setPowers, getCounts]

theorem never_reached_at_rest :
    ∀ k, reached (averageTarget (reading25.count (enter steady).nCount) 10 .STRAIGHT 0)
      (reading25.count k) = false := by
  intro k
  have hl : leftTargetDegrees 10 .STRAIGHT 0 = 212 := baseDegrees_10
  have hr : rightTargetDegrees 10 .STRAIGHT 0 = 212 := baseDegrees_10
  simp only [averageTarget, hl, hr, reached, reading25]
  decide

/-- Witness of C16: a straight move of 10 cm in the LTest copy with both encoders
stuck at 0 returns after the read of the start counts and 5000 polls, with
both wheels stopped. -/
theorem moveForward_LTest_returns_witness :
    ∃ y : Exec, moveForward .LTest reading25 0 10 .STRAIGHT 0 (enter steady) = some y ∧
      y.nCount = 5001 ∧
      y.log = [.setPower .leftWheel 50, .setPower .rightWheel 50,
        .stop .leftWheel, .stop .rightWheel] :=
  match (moveForward_LTest_returns reading25 0 10 .STRAIGHT 0 (enter steady)).2 with
  | ⟨y, h1, _, _, h4, h5⟩ => ⟨y, h1, h4 never_reached_at_rest, h5⟩

/-! ## What the distance test of the poll loop guarantees -/

theorem tdiv_two_of_neg (a : Int) (h : a < 0) : Int.tdiv a 2 = -((-a) / 2) := by
  have e := @Int.tdiv_eq_ediv (-a) 2 (by omega) (by norm_num)
  rw [Int.neg_tdiv] at e
  omega

theorem tdiv_two_ge (a s : Int) (h : Int.tdiv a 2 ≥ Int.tdiv s 2) :
    a ≥ s - 2 ∧ (0 ≤ a → a ≥ s - 1) := by
  rcases le_or_lt 0 a with ha | ha <;> rcases le_or_lt 0 s with hs | hs
  · rw [Int.tdiv_eq_ediv ha (by norm_num), Int.tdiv_eq_ediv hs (by norm_num)] at h
    omega
  · omega
  · rw [tdiv_two_of_neg a ha, Int.tdiv_eq_ediv hs (by norm_num)] at h
    omega
  · rw [tdiv_two_of_neg a ha, tdiv_two_of_neg s hs] at h
    omega

theorem baseDegrees_13 : baseDegrees 13 = 275 := by
  unfold baseDegrees
  rw [floatToInt_of_nonneg (by norm_num [WHEEL_DIAMETER_CM]), Int.floor_eq_iff]
  norm_num [WHEEL_DIAMETER_CM]

theorem moveForward_oddStart :
    leftTargetDegrees 13 .STRAIGHT 0 = 275 ∧ rightTargetDegrees 13 .STRAIGHT 0 = 275 ∧
    reached (averageTarget (1, 0) 13 .STRAIGHT 0) (275, 275) = true ∧
    moveForward .testForce oddStart 1 13 .STRAIGHT 0 (enter afterFirstBlue)
      = some { self := afterFirstBlue, nReflection := 0, nCount := 2
               log := [.setPower .leftWheel 30, .setPower .rightWheel 30,
                 .stop .leftWheel, .stop .rightWheel] } := by
  have hl : leftTargetDegrees 13 .STRAIGHT 0 = 275 := baseDegrees_13
  have hr : rightTargetDegrees 13 .STRAIGHT 0 = 275 := baseDegrees_13
  have hreach : reached (averageTarget (1, 0) 13 .STRAIGHT 0) (275, 275) = true := by
    simp only [averageTarget, hl, hr, reached]
    decide
  refine ⟨hl, hr, hreach, ?_⟩
  rw [moveForward_first_poll oddStart 0 13 .STRAIGHT 0 (enter afterFirstBlue) hreach]
  rfl

/-! ## The detection count from tick to tick -/

theorem detects_eq (t : Tracer) (hw : Sensors) :
    detects t hw
      = ((startOf t).self.mInitialSequenceCompleted && !(startOf t).self.mIsStopped &&
          ((startOf t).self.mBlueDetectionEnabled && detectBlue hw.rgb)) := by
  simp [detects, startOf_self, Bool.and_assoc]

theorem run_count (v : Variant) (hw : Sensors) (fuel : Nat) (t : Tracer) (x : Exec)
    (h : run v hw fuel t = some x) :
    x.self.mBlueDetectionCount
      = t.mBlueDetectionCount + (if detects t hw = true then 1 else 0) := by
  have hst := startOf_self t
  simp only [run] at h
  split_ifs at h with h1 h2 h3 h4
  · obtain ⟨a, _, _, _⟩ := performInitialSequence_frame v hw fuel _ x h
    rw [hst] at h1
    rw [a, hst]
    simp_all [detects]
  · simp only [Option.some.injEq] at h
    rw [hst] at h1 h2
    rw [← h, stopBoth_self, hst]
    simp_all [detects]
  · rw [Option.map_eq_some'] at h
    obtain ⟨y, hy, hxy⟩ := h
    have hf := executeBlueAction_frame v hw fuel _ y hy
    obtain ⟨a, _⟩ := blueEntry_count (startOf t)
    obtain ⟨c, _⟩ := blueExit_frame y
    unfold OnlyStopChanged at hf
    have hx : x.self.mBlueDetectionCount = t.mBlueDetectionCount + 1 := by
      rw [← hxy, c, hf]
      simp only
      rw [a, hst]
    rw [hst] at h1 h2 h3
    rw [hx]
    clear hf hy hxy hx a c
    simp_all [detects]
  · simp only [Option.some.injEq] at h
    rw [hst] at h1 h2 h3
    rw [← h, hst]
    simp_all [detects]
  · simp only [Option.some.injEq] at h
    rw [hst] at h1 h2 h3
    rw [← h, lineTrace_self]
    simp_all [detects]

theorem detections_zero (t : Tracer) (xs : List Exec) (hws : List Sensors) :
    detections t xs hws 0 = 0 := by
  simp [detections]

theorem detections_succ (t : Tracer) (x : Exec) (xs : List Exec) (hw : Sensors)
    (hws : List Sensors) (j : Nat) :
    detections t (x :: xs) (hw :: hws) (j + 1)
      = (if detects t hw = true then 1 else 0) + detections x.self xs hws j := by
  simp only [detections, List.map_cons, List.zip_cons_cons, List.take_succ_cons,
    List.countP_cons]
  omega

theorem runTicks_count (v : Variant) (fuel : Nat) (hws : List Sensors) :
    ∀ (t : Tracer) (xs : List Exec), runTicks v fuel t hws = some xs →
      ∀ (i : Nat) (s : Tracer) (hw : Sensors) (x : Exec),
        (t :: xs.map Exec.self)[i]? = some s → hws[i]? = some hw → xs[i]? = some x →
        s.mBlueDetectionCount = t.mBlueDetectionCount + detections t xs hws i ∧
        run v hw fuel s = some x ∧
        detections t xs hws (i + 1)
          = detections t xs hws i + (if detects s hw = true then 1 else 0) := by
  induction hws with
  | nil => intro t xs _ i s hw x _ h; simp at h
  | cons hw0 rest ih =>
    intro t xs hrun i s hw x h1 h2 h3
    simp only [runTicks] at hrun
    split at hrun
    · simp at hrun
    · rename_i x0 hx0
      split at hrun
      · simp at hrun
      · rename_i xs' hxs'
        simp only [Option.some.injEq] at hrun
        subst hrun
        cases i with
        | zero =>
          simp only [List.getElem?_cons_zero, Option.some.injEq] at h1 h2 h3
          subst h1 h2 h3
          refine ⟨by simp [detections_zero], hx0, ?_⟩
          rw [detections_succ, detections_zero, detections_zero]
          omega
        | succ j =>
          simp only [List.getElem?_cons_succ, List.map_cons] at h1 h2 h3
          obtain ⟨a, b, c⟩ := ih x0.self xs' hxs' j s hw x h1 h2 h3
          have hc0 := run_count v hw0 fuel t x0 hx0
          refine ⟨?_, b, ?_⟩
          · rw [a, hc0, detections_succ]
            push_cast
            split <;> omega
          · rw [detections_succ, detections_succ, c]
            omega

/-- C12. In the LTest copy the detection count grows by exactly 1 on a tick that
takes the blue branch and is unchanged on every other tick; so, in a run that
starts with the count 0, the tick that detects blue for the `k`-th time enters
`executeBlueAction` with the count `k` and runs the statements of `case k`
(the five cases of the table), or those of the `default` when `k > 5`. -/
theorem blue_count_selects_case (fuel : Nat) (t : Tracer) (hws : List Sensors)
    (xs : List Exec) (h0 : t.mBlueDetectionCount = 0)
    (hrun : runTicks .LTest fuel t hws = some xs) :
    (∀ (i : Nat) (s : Tracer) (hw : Sensors) (x : Exec),
      (t :: xs.map Exec.self)[i]? = some s → hws[i]? = some hw → xs[i]? = some x →
      s.mBlueDetectionCount = detections t xs hws i ∧
      (detects s hw = false →
        x.self.mBlueDetectionCount = s.mBlueDetectionCount ∧
        detections t xs hws (i + 1) = detections t xs hws i) ∧
      (detects s hw = true →
        x.self.mBlueDetectionCount = s.mBlueDetectionCount + 1 ∧
        detections t xs hws (i + 1) = detections t xs hws i + 1 ∧
        (blueEntry (startOf s)).self.mBlueDetectionCount = detections t xs hws (i + 1) ∧
        run .LTest hw fuel s
          = (execStmts .LTest hw fuel
              (executeBlueActionBody .LTest (detections t xs hws (i + 1)))
              (blueEntry (startOf s))).map blueExit)) ∧
    executeBlueActionBody .LTest 1
      = [.moveForward 20 .STRAIGHT 0, .moveForward 3 .RIGHT 6, .moveForward 14 .STRAIGHT 0] ∧
    executeBlueActionBody .LTest 2
      = [.moveForward 15 .RIGHT 2, .moveForward 12 .LEFT (14 / 5)] ∧
    executeBlueActionBody .LTest 3
      = [.moveForward 8 .LEFT 2, .moveForward 9 .RIGHT (11 / 5)] ∧
    executeBlueActionBody .LTest 4
      = [.moveForward 2 .RIGHT (13 / 10), .moveForward 1 .LEFT (1 / 2),
          .moveForward 15 .RIGHT (3 / 2), .awaitBlack] ∧
    executeBlueActionBody .LTest 5 = [] ∧
    (∀ k : Int, k > 5 → executeBlueActionBody .LTest k = [.setCompleteStop true]) := by
  refine ⟨?_, rfl, rfl, rfl, rfl, rfl, executeBlueActionBody_LTest_default⟩
  intro i s hw x h1 h2 h3
  obtain ⟨a, b, c⟩ := runTicks_count .LTest fuel hws t xs hrun i s hw x h1 h2 h3
  rw [h0, zero_add] at a
  have hx := run_count .LTest hw fuel s x b
  refine ⟨a, ?_, ?_⟩
  · intro hd
    rw [hd] at hx c
    simp only [Bool.false_eq_true, if_false, add_zero] at hx c
    exact ⟨hx, c⟩
  · intro hd
    rw [hd] at hx c
    simp only [if_true] at hx c
    have he : (blueEntry (startOf s)).self.mBlueDetectionCount
        = ((detections t xs hws (i + 1) : Nat) : Int) := by
      rw [(blueEntry_count (startOf s)).1, startOf_self, c]
      simp only
      rw [a]
      push_cast
      rfl
    refine ⟨hx, c, he, ?_⟩
    rw [run_detects_eq .LTest hw fuel s hd, executeBlueAction, he]

theorem run_LTest_first_blue :
    ∃ x : Exec, run .LTest blueReading 0 steady = some x := by
  have hbody : executeBlueActionBody .LTest (blueEntry (startOf steady)).self.mBlueDetectionCount
      = [.moveForward 20 .STRAIGHT 0, .moveForward 3 .RIGHT 6, .moveForward 14 .STRAIGHT 0] := by
    rfl
  obtain ⟨y, hy, _⟩ := execStmts_moves blueReading 0
    (executeBlueActionBody .LTest (blueEntry (startOf steady)).self.mBlueDetectionCount)
    (by rw [hbody]; intro s hs; simp at hs; rcases hs with h | h | h <;> exact ⟨_, _, _, h⟩)
    (blueEntry (startOf steady))
  refine ⟨blueExit y, ?_⟩
  rw [run_blue .LTest blueReading 0 steady rfl rfl rfl (by decide), executeBlueAction, hy]
  rfl

theorem runTicks_LTest_first_blue :
    ∃ xs : List Exec, runTicks .LTest 0 constructed [reading25, blueReading] = some xs := by
  obtain ⟨x, hx⟩ := run_LTest_first_blue
  have h1 : run .LTest reading25 0 constructed
      = some { self := steady, nReflection := 0, nCount := 0
               log := [.resetCount .leftWheel, .resetCount .rightWheel] } := rfl
  exact ⟨[{ self := steady, nReflection := 0, nCount := 0
            log := [.resetCount .leftWheel, .resetCount .rightWheel] }, x],
    by simp [runTicks, h1, hx]⟩

/-- Witness of C12: the run of the LTest copy from the constructed controller over
an alignment tick and a tick on a blue marker. -/
theorem blue_count_selects_case_witness :
    constructed.mBlueDetectionCount = 0 ∧
    ∃ xs : List Exec, runTicks .LTest 0 constructed [reading25, blueReading] = some xs ∧
      ∀ (i : Nat) (s : Tracer) (hw : Sensors) (x : Exec),
        (constructed :: xs.map Exec.self)[i]? = some s →
        [reading25, blueReading][i]? = some hw → xs[i]? = some x →
        s.mBlueDetectionCount = detections constructed xs [reading25, blueReading] i ∧
        (detects s hw = false →
          x.self.mBlueDetectionCount = s.mBlueDetectionCount ∧
          detections constructed xs [reading25, blueReading] (i + 1)
            = detections constructed xs [reading25, blueReading] i) ∧
        (detects s hw = true →
          x.self.mBlueDetectionCount = s.mBlueDetectionCount + 1 ∧
          detections constructed xs [reading25, blueReading] (i + 1)
            = detections constructed xs [reading25, blueReading] i + 1 ∧
          (blueEntry (startOf s)).self.mBlueDetectionCount
            = detections constructed xs [reading25, blueReading] (i + 1) ∧
          run .LTest hw 0 s
            = (execStmts .LTest hw 0
                (executeBlueActionBody .LTest
                  (detections constructed xs [reading25, blueReading] (i + 1)))
                (blueEntry (startOf s))).map blueExit) := by
  obtain ⟨xs, hxs⟩ := runTicks_LTest_first_blue
  exact ⟨rfl, xs, hxs,
    (blue_count_selects_case 0 constructed [reading25, blueReading] xs rfl hxs).1⟩

/-! ## The last step of the alignment of `sample06_20250909testForce` -/

theorem startOf_log_nCount (t : Tracer) :
    (startOf t).nCount = 0 ∧ powers (startOf t).log = [] ∧
    (∀ w, MotorCmd.stop w ∉ (startOf t).log) ∧
    (t.mIsInitialized = true → (startOf t).log = []) := by
  unfold startOf
  split <;> simp_all [init, emit, enter, powers]

theorem run_await_black (hw : Sensors) (fuel : Nat) (t : Tracer)
    (hc : t.mInitialSequenceCompleted = false) (hf : t.firstRun = false)
    (h5 : t.sequenceStep = 5) :
    run .testForce hw fuel t
      = if hw.reflection 0 < BLACK_THRESHOLD then
          some { self := { t with
                   mIsInitialized := true, mInitialSequenceCompleted := true,
                   sequenceStep := 0, timeCounter := 0, firstRun := true }
                 nReflection := 1, nCount := 0
                 log := (startOf t).log ++ [.stop .leftWheel, .stop .rightWheel] }
        else
          some { self := { t with
                   mIsInitialized := true,
                   timeCounter := (t.timeCounter + 1) % ULONG_MOD }
                 nReflection := 1, nCount := 0
                 log := (startOf t).log
                   ++ [.setPower .leftWheel SLOW_BASE_SPEED,
                       .setPower .rightWheel SLOW_BASE_SPEED] } := by
  have hst := startOf_self t
  have hn := startOf_nReflection t
  have hk := (startOf_log_nCount t).1
  have hrun : run .testForce hw fuel t
      = sequenceSwitch hw fuel (beginSequence (startOf t)) := by
    simp only [run, hst, hc, performInitialSequence]
    simp
  have hb : beginSequence (startOf t)
      = { self := { t with
            mIsInitialized := true, timeCounter := (t.timeCounter + 1) % ULONG_MOD }
          nReflection := 0, nCount := 0, log := (startOf t).log } := by
    have hfr : (startOf t).self.firstRun = false := by rw [hst]; exact hf
    simp only [beginSequence, hfr]
    simp [hn, hk, hst, hf]
  rw [hrun, hb]
  simp only [sequenceSwitch, h5, detectBlack, getReflection]
  by_cases hblack : hw.reflection 0 < BLACK_THRESHOLD
  · simp [hblack, stopBoth, emit]
  · simp [hblack, setPowers, emit]

theorem runTicks_await_black (fuel : Nat) (hws : List Sensors) :
    ∀ t : Tracer, t.mInitialSequenceCompleted = false → t.firstRun = false →
      t.sequenceStep = 5 → (∀ hw ∈ hws, hw.reflection 0 ≥ BLACK_THRESHOLD) →
      ∃ xs : List Exec, runTicks .testForce fuel t hws = some xs ∧ xs.length = hws.length ∧
        ∀ (i : Nat) (s : Tracer) (hw : Sensors) (x : Exec),
          (t :: xs.map Exec.self)[i]? = some s → hws[i]? = some hw → xs[i]? = some x →
          s.mInitialSequenceCompleted = false ∧ s.sequenceStep = 5 ∧
          run .testForce hw fuel s = some x ∧
          x.self.mInitialSequenceCompleted = false ∧ x.self.sequenceStep = 5 ∧
          powers x.log
            = [(Wheel.leftWheel, SLOW_BASE_SPEED), (Wheel.rightWheel, SLOW_BASE_SPEED)] ∧
          (∀ w, MotorCmd.stop w ∉ x.log) := by
  induction hws with
  | nil =>
    intro t _ _ _ _
    exact ⟨[], rfl, rfl, by intro i s hw x _ h; simp at h⟩
  | cons hw0 rest ih =>
    intro t hc hf h5 hr
    have hnb : ¬ hw0.reflection 0 < BLACK_THRESHOLD := not_lt.mpr (hr hw0 (by simp))
    have hrun := run_await_black hw0 fuel t hc hf h5
    rw [if_neg hnb] at hrun
    obtain ⟨_, hp, hs, _⟩ := startOf_log_nCount t
    obtain ⟨xs, hxs, hlen, hall⟩ := ih
      { t with mIsInitialized := true, timeCounter := (t.timeCounter + 1) % ULONG_MOD }
      hc hf h5 (fun hw hm => hr hw (by simp [hm]))
    refine ⟨_ :: xs, by simp only [runTicks, hrun]; rw [hxs], by simp [hlen], ?_⟩
    intro i s hw x h1 h2 h3
    cases i with
    | zero =>
      simp only [List.getElem?_cons_zero, Option.some.injEq] at h1 h2 h3
      subst h1 h2 h3
      refine ⟨hc, h5, hrun, hc, h5, ?_, ?_⟩
      · simp [powers_append, hp, powers]
      · intro w hmem
        simp only [List.mem_append, List.mem_cons, List.mem_singleton] at hmem
        rcases hmem with h | h | h | h
        · exact hs w h
        · cases h
        · cases h
        · cases h
    | succ j =>
      simp only [List.getElem?_cons_succ, List.map_cons] at h1 h2 h3
      exact hall j s hw x h1 h2 h3

/-! ## Invariants of the alignment -/

theorem beginSequence_firstRun (x : Exec) :
    (beginSequence x).self.firstRun = false ∧
    (beginSequence x).self.mInitialSequenceCompleted = x.self.mInitialSequenceCompleted ∧
    (beginSequence x).self.mLineTraceEnabled = x.self.mLineTraceEnabled ∧
    (beginSequence x).self.mBlueDetectionEnabled = x.self.mBlueDetectionEnabled ∧
    (beginSequence x).self.mIsInitialized = x.self.mIsInitialized := by
  unfold beginSequence
  split <;> simp_all

theorem sequenceSwitch_firstRun (hw : Sensors) (fuel : Nat) (x y : Exec)
    (hx : x.self.firstRun = false) (h : sequenceSwitch hw fuel x = some y) :
    (y.self.firstRun = true → y.self.sequenceStep = 0) ∧
    y.self.mLineTraceEnabled = x.self.mLineTraceEnabled ∧
    y.self.mBlueDetectionEnabled = x.self.mBlueDetectionEnabled ∧
    y.self.mIsInitialized = x.self.mIsInitialized := by
  unfold sequenceSwitch at h
  split_ifs at h <;>
    first
    | (simp only [Option.some.injEq] at h
       rw [← h]
       simp [enterStep, setPowers, stopBoth, emit, detectBlack, getReflection, hx])
    | (simp only [Option.map_eq_some'] at h
       obtain ⟨z, hz, hy⟩ := h
       have hs := moveForward_self _ _ _ _ _ _ _ z hz
       rw [← hy]
       simp [enterStep, hs, hx])

theorem run_completed (v : Variant) (hw : Sensors) (fuel : Nat) (t : Tracer)
    (hc : t.mInitialSequenceCompleted = true) :
    run v hw fuel t = steadyPath v hw fuel (startOf t) := by
  simp only [run, steadyPath, startOf_self, hc]
  simp

theorem blueEntry_statics (x : Exec) :
    (blueEntry x).self.mInitialSequenceCompleted = x.self.mInitialSequenceCompleted ∧
    (blueEntry x).self.firstRun = x.self.firstRun ∧
    (blueEntry x).self.sequenceStep = x.self.sequenceStep ∧
    (blueEntry x).self.mIsInitialized = x.self.mIsInitialized := by
  unfold blueEntry
  simp only [setLineTraceEnabled, setBlueDetectionEnabled, setSlowMode]
  split <;> simp

theorem blueExit_statics (x : Exec) :
    (blueExit x).self.mInitialSequenceCompleted = x.self.mInitialSequenceCompleted ∧
    (blueExit x).self.firstRun = x.self.firstRun ∧
    (blueExit x).self.sequenceStep = x.self.sequenceStep ∧
    (blueExit x).self.mIsInitialized = x.self.mIsInitialized := by
  unfold blueExit
  split <;> simp [setLineTraceEnabled, setBlueDetectionEnabled]

theorem steadyPath_statics (v : Variant) (hw : Sensors) (fuel : Nat) (x y : Exec)
    (h : steadyPath v hw fuel x = some y) :
    y.self.mInitialSequenceCompleted = x.self.mInitialSequenceCompleted ∧
    y.self.firstRun = x.self.firstRun ∧
    y.self.sequenceStep = x.self.sequenceStep ∧
    y.self.mIsInitialized = x.self.mIsInitialized := by
  unfold steadyPath at h
  split_ifs at h
  · simp only [Option.some.injEq] at h
    rw [← h]
    exact ⟨rfl, rfl, rfl, rfl⟩
  · rw [Option.map_eq_some'] at h
    obtain ⟨z, hz, hzy⟩ := h
    have hf := executeBlueAction_frame v hw fuel _ z hz
    obtain ⟨a, b, c, d⟩ := blueEntry_statics x
    obtain ⟨a', b', c', d'⟩ := blueExit_statics z
    unfold OnlyStopChanged at hf
    rw [← hzy, a', b', c', d', hf]
    exact ⟨a, b, c, d⟩
  · simp only [Option.some.injEq] at h
    rw [← h]
    exact ⟨rfl, rfl, rfl, rfl⟩
  · simp only [Option.some.injEq] at h
    rw [← h]
    simp [lineTrace, setPowers, emit, calDiffReflection, getReflection, calcPropValue]

theorem run_completed_stays (v : Variant) (hw : Sensors) (fuel : Nat) (t : Tracer) (x : Exec)
    (hc : t.mInitialSequenceCompleted = true) (h : run v hw fuel t = some x) :
    x.self.mInitialSequenceCompleted = true ∧ x.self.firstRun = t.firstRun ∧
    x.self.sequenceStep = t.sequenceStep ∧ x.self.mIsInitialized = true := by
  rw [run_completed v hw fuel t hc] at h
  obtain ⟨a, b, c, d⟩ := steadyPath_statics v hw fuel _ x h
  rw [a, b, c, d, startOf_self]
  exact ⟨hc, rfl, rfl, rfl⟩

theorem reachable_alignment (t : Tracer) (h : Reachable .testForce t) :
    (t.firstRun = true → t.sequenceStep = 0) ∧
    (t.mInitialSequenceCompleted = false →
      t.mPreviousError = 0 ∧ t.mLineTraceEnabled = true ∧ t.mBlueDetectionEnabled = true ∧
      t.mBlueDetectionCount = 0 ∧ t.mCurrentBaseSpeed = DEFAULT_BASE_SPEED ∧
      t.mIsStopped = false) := by
  induction h with
  | constructed => simp [constructed]
  | init t _ ih => simpa [init, emit, enter] using ih
  | tick t hw fuel x _ hrun ih =>
    obtain ⟨i1, i2⟩ := ih
    cases hc : t.mInitialSequenceCompleted with
    | true =>
      obtain ⟨a, b, c, _⟩ := run_completed_stays .testForce hw fuel t x hc hrun
      refine ⟨by rw [b, c]; exact i1, ?_⟩
      intro hx
      rw [a] at hx
      cases hx
    | false =>
      obtain ⟨p1, p2, p3, p4, p5, p6⟩ := i2 hc
      have hst := startOf_self t
      have hrun' : sequenceSwitch hw fuel (beginSequence (startOf t)) = some x := by
        rw [← hrun]
        simp only [run, hst, hc, performInitialSequence]
        simp
      obtain ⟨f1, _, f3, f4, _⟩ := beginSequence_firstRun (startOf t)
      obtain ⟨g1, g2, g3, _⟩ := sequenceSwitch_firstRun hw fuel _ x f1 hrun'
      obtain ⟨q1, q2, q3, q4⟩ := sequenceSwitch_frame hw fuel _ x hrun'
      obtain ⟨r1, r2, r3, r4⟩ := beginSequence_frame (startOf t)
      refine ⟨g1, ?_⟩
      intro _
      rw [q1, q2, q3, q4, r1, r2, r3, r4, g2, g3, f3, f4, hst]
      exact ⟨p1, p2, p3, p4, p5, p6⟩

theorem run_initialized (v : Variant) (hw : Sensors) (fuel : Nat) (t : Tracer) (x : Exec)
    (h : run v hw fuel t = some x) : x.self.mIsInitialized = true := by
  cases hc : t.mInitialSequenceCompleted with
  | true => exact (run_completed_stays v hw fuel t x hc h).2.2.2
  | false =>
    have hst := startOf_self t
    have hrun : performInitialSequence v hw fuel (startOf t) = some x := by
      rw [← h]
      simp only [run, hst, hc]
      simp
    cases v with
    | LTest =>
      simp only [performInitialSequence, Option.some.injEq] at hrun
      rw [← hrun]
      simp [setBlueDetectionEnabled, setLineTraceEnabled, hst]
    | testForce =>
      simp only [performInitialSequence] at hrun
      obtain ⟨f1, _, _, _, f5⟩ := beginSequence_firstRun (startOf t)
      obtain ⟨_, _, _, g4⟩ := sequenceSwitch_firstRun hw fuel _ x f1 hrun
      rw [g4, f5, hst]

theorem reachable_initialized (v : Variant) (t : Tracer) (h : Reachable v t) :
    t = constructed ∨ t.mIsInitialized = true := by
  induction h with
  | constructed => exact Or.inl rfl
  | init t _ _ => exact Or.inr rfl
  | tick t hw fuel x _ hrun _ => exact Or.inr (run_initialized v hw fuel t x hrun)

theorem runTicks_completed (v : Variant) (fuel : Nat) (hws : List Sensors) :
    ∀ (t : Tracer) (xs : List Exec), t.mInitialSequenceCompleted = true →
      runTicks v fuel t hws = some xs →
      ∀ (i : Nat) (s : Tracer) (hw : Sensors) (x : Exec),
        (t :: xs.map Exec.self)[i]? = some s → hws[i]? = some hw → xs[i]? = some x →
        s.mInitialSequenceCompleted = true ∧
        run v hw fuel s = steadyPath v hw fuel (startOf s) ∧
        steadyPath v hw fuel (startOf s) = some x ∧
        x.self.mInitialSequenceCompleted = true := by
  induction hws with
  | nil => intro t xs _ _ i s hw x _ h; simp at h
  | cons hw0 rest ih =>
    intro t xs hc hrun i s hw x h1 h2 h3
    simp only [runTicks] at hrun
    split at hrun
    · simp at hrun
    · rename_i x0 hx0
      split at hrun
      · simp at hrun
      · rename_i xs' hxs'
        simp only [Option.some.injEq] at hrun
        subst hrun
        have hx0c := (run_completed_stays v hw0 fuel t x0 hc hx0).1
        cases i with
        | zero =>
          simp only [List.getElem?_cons_zero, Option.some.injEq] at h1 h2 h3
          subst h1 h2 h3
          have e := run_completed v hw0 fuel t hc
          exact ⟨hc, e, by rw [← e]; exact hx0, hx0c⟩
        | succ j =>
          simp only [List.getElem?_cons_succ, List.map_cons] at h1 h2 h3
          exact ih x0.self xs' hx0c hxs' j s hw x h1 h2 h3

/-! ## The 32 ticks that bring the alignment to its last step -/

theorem reachable_of_run (v : Variant) (hw : Sensors) (fuel : Nat) (t s : Tracer)
    (hr : Reachable v t) (h : (run v hw fuel t).map Exec.self = some s) : Reachable v s := by
  rw [Option.map_eq_some'] at h
  obtain ⟨x, hx, hs⟩ := h
  rw [← hs]
  exact Reachable.tick t hw fuel x hr hx

theorem baseDegrees_6 : baseDegrees 6 = 127 := by
  unfold baseDegrees
  rw [floatToInt_of_nonneg (by norm_num [WHEEL_DIAMETER_CM]), Int.floor_eq_iff]
  norm_num [WHEEL_DIAMETER_CM]

theorem baseDegrees_20 : baseDegrees 20 = 424 := by
  unfold baseDegrees
  rw [floatToInt_of_nonneg (by norm_num [WHEEL_DIAMETER_CM]), Int.floor_eq_iff]
  norm_num [WHEEL_DIAMETER_CM]

theorem baseDegrees_7 : baseDegrees 7 = 148 := by
  unfold baseDegrees
  rw [floatToInt_of_nonneg (by norm_num [WHEEL_DIAMETER_CM]), Int.floor_eq_iff]
  norm_num [WHEEL_DIAMETER_CM]

theorem leftTargetDegrees_6_right_3 : leftTargetDegrees 6 .RIGHT 3 = 203 := by
  simp only [leftTargetDegrees, baseDegrees_6, distanceMultiplier]
  rw [floatToInt_of_nonneg (by norm_num), Int.floor_eq_iff]
  norm_num

theorem rightTargetDegrees_7_left_3 : rightTargetDegrees 7 .LEFT 3 = 236 := by
  simp only [rightTargetDegrees, baseDegrees_7, distanceMultiplier]
  rw [floatToInt_of_nonneg (by norm_num), Int.floor_eq_iff]
  norm_num

theorem run_aligning_forward (k : Nat) (hk : k < 19) :
    (run .testForce blueReading 1 (aligning 1 1 (k + 1))).map Exec.self
      = some (aligning 1 1 (k + 2)) := by
  interval_cases k <;> rfl

theorem run_aligning_settle (k : Nat) (hk : k < 4) :
    (run .testForce blueReading 1 (aligning 2 21 (k + 21))).map Exec.self
      = some (aligning 2 21 (k + 22)) := by
  interval_cases k <;> rfl

theorem run_aligning_settle_again (k : Nat) (hk : k < 4) :
    (run .testForce blueReading 1 (aligning 4 27 (k + 27))).map Exec.self
      = some (aligning 4 27 (k + 28)) := by
  interval_cases k <;> rfl

theorem reachable_forward (k : Nat) (hk : k < 20) :
    Reachable .testForce (aligning 1 1 (k + 1)) := by
  induction k with
  | zero =>
    exact reachable_of_run .testForce blueReading 1 constructed _ Reachable.constructed rfl
  | succ n ih =>
    exact reachable_of_run .testForce blueReading 1 _ _ (ih (by omega))
      (run_aligning_forward n (by omega))

theorem reachable_settle (k : Nat) (hk : k < 5) :
    Reachable .testForce (aligning 2 21 (k + 21)) := by
  induction k with
  | zero =>
    exact reachable_of_run .testForce blueReading 1 (aligning 1 1 20) _
      (reachable_forward 19 (by omega)) rfl
  | succ n ih =>
    exact reachable_of_run .testForce blueReading 1 _ _ (ih (by omega))
      (run_aligning_settle n (by omega))

theorem run_aligning_curve_right :
    (run .testForce blueReading 1 (aligning 2 21 25)).map Exec.self
      = some (aligning 3 26 26) := by
  have hrun : run .testForce blueReading 1 (aligning 2 21 25)
      = (moveForward .testForce blueReading 1 6 .RIGHT 3
          { self := aligning 2 21 26, nReflection := 0, nCount := 0, log := [] }).map
          (enterStep 3) := by
    rfl
  have hbase : rightTargetDegrees 6 .RIGHT 3 = 127 := baseDegrees_6
  rw [hrun, moveForward_first_poll blueReading 0 6 .RIGHT 3 _ (by
    simp only [averageTarget, leftTargetDegrees_6_right_3, hbase, reached, blueReading]
    decide)]
  rfl

theorem run_aligning_straight :
    (run .testForce blueReading 1 (aligning 3 26 26)).map Exec.self
      = some (aligning 4 27 27) := by
  have hrun : run .testForce blueReading 1 (aligning 3 26 26)
      = (moveForward .testForce blueReading 1 20 .STRAIGHT 0
          { self := aligning 3 26 27, nReflection := 0, nCount := 0, log := [] }).map
          (enterStep 4) := by
    rfl
  have hl : leftTargetDegrees 20 .STRAIGHT 0 = 424 := baseDegrees_20
  have hr : rightTargetDegrees 20 .STRAIGHT 0 = 424 := baseDegrees_20
  rw [hrun, moveForward_first_poll blueReading 0 20 .STRAIGHT 0 _ (by
    simp only [averageTarget, hl, hr, reached, blueReading]
    decide)]
  rfl

theorem run_aligning_curve_left :
    (run .testForce blueReading 1 (aligning 4 27 31)).map Exec.self = some awaitingBlack := by
  have hrun : run .testForce blueReading 1 (aligning 4 27 31)
      = (moveForward .testForce blueReading 1 7 .LEFT 3
          { self := aligning 4 27 32, nReflection := 0, nCount := 0, log := [] }).map
          (fun y => { y with self := { y.self with sequenceStep := 5 } }) := by
    rfl
  have hbase : leftTargetDegrees 7 .LEFT 3 = 148 := baseDegrees_7
  rw [hrun, moveForward_first_poll blueReading 0 7 .LEFT 3 _ (by
    simp only [averageTarget, rightTargetDegrees_7_left_3, hbase, reached, blueReading]
    decide)]
  rfl

theorem reachable_settle_again (k : Nat) (hk : k < 5) :
    Reachable .testForce (aligning 4 27 (k + 27)) := by
  induction k with
  | zero =>
    exact reachable_of_run .testForce blueReading 1 (aligning 3 26 26) _
      (reachable_of_run .testForce blueReading 1 (aligning 2 21 25) _
        (reachable_settle 4 (by omega)) run_aligning_curve_right)
      run_aligning_straight
  | succ n ih =>
    exact reachable_of_run .testForce blueReading 1 _ _ (ih (by omega))
      (run_aligning_settle_again n (by omega))

theorem reachable_awaitingBlack : Reachable .testForce awaitingBlack :=
  reachable_of_run .testForce blueReading 1 (aligning 4 27 31) _
    (reachable_settle_again 4 (by omega)) run_aligning_curve_left

/-! ## Waiting for black, and leaving the alignment -/

theorem reachable_step_five (t : Tracer) (hr : Reachable .testForce t)
    (h5 : t.sequenceStep = 5) : t.firstRun = false ∧ t.mIsInitialized = true := by
  constructor
  · cases hf : t.firstRun with
    | false => rfl
    | true =>
      have h0 := (reachable_alignment t hr).1 hf
      rw [h5] at h0
      cases h0
  · rcases reachable_initialized .testForce t hr with h | h
    · rw [h] at h5
      cases h5
    · exact h

/-- C19. In `sample06_20250909testForce`, once the alignment is in its last step
(`sequenceStep = 5`, alignment not complete), every tick whose reflectance
reading is at least `BLACK_THRESHOLD = 15` returns with the alignment still
not complete and the step still 5, after commanding `SLOW_BASE_SPEED` to both
wheels and no stop; each of those ticks is entered with the alignment not
complete, so `run` leaves through `performInitialSequence`, for any number
of such ticks. -/
theorem await_black_holds (fuel : Nat) (t : Tracer) (hws : List Sensors)
    (hr : Reachable .testForce t) (hc : t.mInitialSequenceCompleted = false)
    (h5 : t.sequenceStep = 5) (hrefl : ∀ hw ∈ hws, hw.reflection 0 ≥ 15) :
    BLACK_THRESHOLD = 15 ∧
    ∃ xs : List Exec, runTicks .testForce fuel t hws = some xs ∧ xs.length = hws.length ∧
      ∀ (i : Nat) (s : Tracer) (hw : Sensors) (x : Exec),
        (t :: xs.map Exec.self)[i]? = some s → hws[i]? = some hw → xs[i]? = some x →
        s.mInitialSequenceCompleted = false ∧ s.sequenceStep = 5 ∧
        run .testForce hw fuel s = some x ∧
        run .testForce hw fuel s = performInitialSequence .testForce hw fuel (startOf s) ∧
        x.self.mInitialSequenceCompleted = false ∧ x.self.sequenceStep = 5 ∧
        powers x.log
          = [(Wheel.leftWheel, SLOW_BASE_SPEED), (Wheel.rightWheel, SLOW_BASE_SPEED)] ∧
        (∀ w, MotorCmd.stop w ∉ x.log) := by
  obtain ⟨hf, _⟩ := reachable_step_five t hr h5
  obtain ⟨xs, h1, h2, h3⟩ := runTicks_await_black fuel hws t hc hf h5 hrefl
  refine ⟨rfl, xs, h1, h2, ?_⟩
  intro i s hw x a b c
  obtain ⟨p1, p2, p3, p4, p5, p6, p7⟩ := h3 i s hw x a b c
  refine ⟨p1, p2, p3, ?_, p4, p5, p6, p7⟩
  simp only [run, startOf_self, p1]
  simp

/-- Witness of C19: five ticks at reflectance 25 from `awaitingBlack`, the state
the alignment reaches after 32 ticks. -/
theorem await_black_holds_witness :
    Reachable .testForce awaitingBlack ∧ awaitingBlack.mInitialSequenceCompleted = false ∧
    awaitingBlack.sequenceStep = 5 ∧
    (∀ hw ∈ List.replicate 5 reading25, hw.reflection 0 ≥ 15) ∧
    ∃ xs : List Exec,
      runTicks .testForce 0 awaitingBlack (List.replicate 5 reading25) = some xs ∧
      xs.length = (List.replicate 5 reading25).length ∧
      ∀ (i : Nat) (s : Tracer) (hw : Sensors) (x : Exec),
        (awaitingBlack :: xs.map Exec.self)[i]? = some s →
        (List.replicate 5 reading25)[i]? = some hw → xs[i]? = some x →
        s.mInitialSequenceCompleted = false ∧ s.sequenceStep = 5 ∧
        run .testForce hw 0 s = some x ∧
        run .testForce hw 0 s = performInitialSequence .testForce hw 0 (startOf s) ∧
        x.self.mInitialSequenceCompleted = false ∧ x.self.sequenceStep = 5 ∧
        powers x.log
          = [(Wheel.leftWheel, SLOW_BASE_SPEED), (Wheel.rightWheel, SLOW_BASE_SPEED)] ∧
        (∀ w, MotorCmd.stop w ∉ x.log) :=
  have hrefl : ∀ hw ∈ List.replicate 5 reading25, hw.reflection 0 ≥ 15 := by
    intro hw h
    rw [List.eq_of_mem_replicate h]
    decide
  ⟨reachable_awaitingBlack, rfl, rfl, hrefl,
    (await_black_holds 0 awaitingBlack (List.replicate 5 reading25) reachable_awaitingBlack
      rfl rfl hrefl).2⟩

/-- C20. In `sample06_20250909testForce`, on the tick that finds the alignment in
its last step (`sequenceStep = 5`) and reads a reflectance below 15, `run`
commands `stop` to the left and to the right wheel and nothing else, and sets
`mInitialSequenceCompleted`; every other data member keeps its value (both
flags true, count 0, base speed 50, `mPreviousError` 0, not stopped), and of
the statics of `performInitialSequence` the step and `timeCounter` go back to 0
and `firstRun` to true.  Every later tick is entered with the alignment
complete and is the steady-state path of `run`. -/
theorem black_ends_alignment (hw : Sensors) (fuel : Nat) (t : Tracer)
    (hr : Reachable .testForce t) (hc : t.mInitialSequenceCompleted = false)
    (h5 : t.sequenceStep = 5) (hb : hw.reflection 0 < 15) :
    ∃ x : Exec, run .testForce hw fuel t = some x ∧
      x.log = [.stop .leftWheel, .stop .rightWheel] ∧
      x.self.mInitialSequenceCompleted = true ∧
      x.self = { t with
        mInitialSequenceCompleted := true, sequenceStep := 0, timeCounter := 0,
        firstRun := true } ∧
      (x.self.mLineTraceEnabled = true ∧ x.self.mBlueDetectionEnabled = true ∧
        x.self.mBlueDetectionCount = 0 ∧ x.self.mCurrentBaseSpeed = 50 ∧
        x.self.mPreviousError = 0 ∧ x.self.mIsStopped = false) ∧
      ∀ (fuel' : Nat) (hws : List Sensors) (xs : List Exec),
        runTicks .testForce fuel' x.self hws = some xs →
        ∀ (i : Nat) (s : Tracer) (hw' : Sensors) (y : Exec),
          (x.self :: xs.map Exec.self)[i]? = some s → hws[i]? = some hw' →
          xs[i]? = some y →
          s.mInitialSequenceCompleted = true ∧
          run .testForce hw' fuel' s = steadyPath .testForce hw' fuel' (startOf s) ∧
          steadyPath .testForce hw' fuel' (startOf s) = some y ∧
          y.self.mInitialSequenceCompleted = true := by
  obtain ⟨hf, hi⟩ := reachable_step_five t hr h5
  obtain ⟨p1, p2, p3, p4, p5, p6⟩ := (reachable_alignment t hr).2 hc
  have hrun := run_await_black hw fuel t hc hf h5
  rw [if_pos (show hw.reflection 0 < BLACK_THRESHOLD from hb),
    (startOf_log_nCount t).2.2.2 hi] at hrun
  have hself : ({ t with
      mIsInitialized := true, mInitialSequenceCompleted := true, sequenceStep := 0,
      timeCounter := 0, firstRun := true } : Tracer)
      = { t with
        mInitialSequenceCompleted := true, sequenceStep := 0, timeCounter := 0,
        firstRun := true } := by
    cases t
    simp_all
  refine ⟨_, hrun, rfl, rfl, hself, ⟨p2, p3, p4, p5, p1, p6⟩, ?_⟩
  intro fuel' hws xs hxs
  exact runTicks_completed .testForce fuel' hws _ xs rfl hxs

/-- Witness of C20: the tick at reflectance 10 from `awaitingBlack`. -/
theorem black_ends_alignment_witness :
    Reachable .testForce awaitingBlack ∧ awaitingBlack.mInitialSequenceCompleted = false ∧
    awaitingBlack.sequenceStep = 5 ∧ blackReading.reflection 0 < 15 ∧
    ∃ x : Exec, run .testForce blackReading 0 awaitingBlack = some x ∧
      x.log = [.stop .leftWheel, .stop .rightWheel] ∧
      x.self.mInitialSequenceCompleted = true ∧
      x.self = { awaitingBlack with
        mInitialSequenceCompleted := true, sequenceStep := 0, timeCounter := 0,
        firstRun := true } :=
  match black_ends_alignment blackReading 0 awaitingBlack reachable_awaitingBlack rfl rfl
    (by decide) with
  | ⟨x, a, b, c, d, _⟩ => ⟨reachable_awaitingBlack, rfl, rfl, by decide, x, a, b, c, d⟩

/-! ## The alignment of `sample06_20250909testForce`, tick by tick -/

theorem run_incomplete (v : Variant) (hw : Sensors) (fuel : Nat) (t : Tracer)
    (hc : t.mInitialSequenceCompleted = false) :
    run v hw fuel t = performInitialSequence v hw fuel (startOf t) := by
  simp only [run, startOf_self, hc]
  simp

theorem beginSequence_self (x : Exec) :
    (beginSequence x).self
      = (if x.self.firstRun = true then
          { x.self with
            mInitialStartTime := 0, sequenceStep := 0, stepStartTime := 0, firstRun := false,
            timeCounter := (x.self.timeCounter + 1) % ULONG_MOD }
        else { x.self with timeCounter := (x.self.timeCounter + 1) % ULONG_MOD }) ∧
    (beginSequence x).nReflection = x.nReflection ∧
    (beginSequence x).nCount = x.nCount ∧
    (beginSequence x).log = x.log := by
  unfold beginSequence
  split <;> simp_all

theorem sequenceSwitch_self (hw : Sensors) (fuel : Nat) (x y : Exec)
    (h : sequenceSwitch hw fuel x = some y) :
    y.self
      = if x.self.sequenceStep = 0 then
          { x.self with sequenceStep := 1, stepStartTime := x.self.timeCounter }
        else if x.self.sequenceStep = 1 then
          if elapsed x.self ≥ 20 then
            { x.self with sequenceStep := 2, stepStartTime := x.self.timeCounter }
          else x.self
        else if x.self.sequenceStep = 2 then
          if elapsed x.self ≥ 5 then
            { x.self with sequenceStep := 3, stepStartTime := x.self.timeCounter }
          else x.self
        else if x.self.sequenceStep = 3 then
          { x.self with sequenceStep := 4, stepStartTime := x.self.timeCounter }
        else if x.self.sequenceStep = 4 then
          if elapsed x.self ≥ 5 then { x.self with sequenceStep := 5 } else x.self
        else if x.self.sequenceStep = 5 then
          if hw.reflection x.nReflection < BLACK_THRESHOLD then
            { x.self with
              mInitialSequenceCompleted := true, sequenceStep := 0, timeCounter := 0,
              firstRun := true }
          else x.self
        else x.self := by
  unfold sequenceSwitch at h
  simp only [detectBlack, getReflection, decide_eq_true_eq] at h
  split_ifs at h with h0 h1 h2 h3 h4 h5 h6 h7 h8 h9 <;>
    first
    | (simp only [Option.some.injEq] at h
       subst h
       simp [*, enterStep, setPowers, stopBoth, emit, detectBlack, getReflection])
    | (simp only [Option.map_eq_some'] at h
       obtain ⟨z, hz, hy⟩ := h
       have hs := moveForward_self _ _ _ _ _ _ _ z hz
       subst hy
       simp [*, enterStep])

theorem run_alignment_self (hw : Sensors) (fuel : Nat) (t : Tracer) (x : Exec)
    (hc : t.mInitialSequenceCompleted = false) (hrun : run .testForce hw fuel t = some x) :
    sequenceSwitch hw fuel (beginSequence (startOf t)) = some x ∧
    (beginSequence (startOf t)).nReflection = 0 ∧
    (beginSequence (startOf t)).self
      = (if t.firstRun = true then
          { t with
            mIsInitialized := true, mInitialStartTime := 0, sequenceStep := 0,
            stepStartTime := 0, firstRun := false,
            timeCounter := (t.timeCounter + 1) % ULONG_MOD }
        else { t with
          mIsInitialized := true, timeCounter := (t.timeCounter + 1) % ULONG_MOD }) := by
  rw [run_incomplete .testForce hw fuel t hc] at hrun
  obtain ⟨a, b, _, _⟩ := beginSequence_self (startOf t)
  refine ⟨hrun, by rw [b, startOf_nReflection], ?_⟩
  rw [a, startOf_self]

theorem run_alignment_step (hw : Sensors) (fuel : Nat) (t : Tracer) (x : Exec)
    (hc : t.mInitialSequenceCompleted = false) (hf : t.firstRun = true → t.sequenceStep = 0)
    (hrun : run .testForce hw fuel t = some x) :
    (x.self.mInitialSequenceCompleted = false →
      (x.self.sequenceStep = t.sequenceStep ∨ x.self.sequenceStep = t.sequenceStep + 1) ∧
      (t.sequenceStep = 5 → hw.reflection 0 ≥ BLACK_THRESHOLD)) ∧
    (x.self.mInitialSequenceCompleted = true →
      t.sequenceStep = 5 ∧ hw.reflection 0 < BLACK_THRESHOLD ∧ x.self.sequenceStep = 0) ∧
    (0 ≤ t.sequenceStep → t.sequenceStep ≤ 5 →
      0 ≤ x.self.sequenceStep ∧ x.self.sequenceStep ≤ 5) := by
  obtain ⟨h1, h2, h3⟩ := run_alignment_self hw fuel t x hc hrun
  have h4 := sequenceSwitch_self hw fuel _ x h1
  rw [h2] at h4
  rw [h4, h3]
  cases hfr : t.firstRun with
  | true =>
    have h0 := hf hfr
    simp [h0, hc]
  | false =>
    simp only [Bool.false_eq_true, if_false]
    split_ifs <;> simp_all

theorem reachable_step_range (t : Tracer) (hr : Reachable .testForce t) :
    0 ≤ t.sequenceStep ∧ t.sequenceStep ≤ 5 := by
  induction hr with
  | constructed => simp [constructed]
  | init t _ ih => simpa [init, emit, enter] using ih
  | tick t hw fuel x hr hrun ih =>
    cases hc : t.mInitialSequenceCompleted with
    | true =>
      obtain ⟨_, _, c, _⟩ := run_completed_stays .testForce hw fuel t x hc hrun
      rw [c]
      exact ih
    | false =>
      exact (run_alignment_step hw fuel t x hc (reachable_alignment t hr).1 hrun).2.2 ih.1 ih.2

/-- C21. In `sample06_20250909testForce`, on a tick of `run` entered from a
reachable state with the alignment not complete, `sequenceStep` is one of 0 to
5; if the tick returns with the alignment still not complete, `sequenceStep`
is unchanged or larger by exactly 1, and again one of 0 to 5; if the tick
returns with the alignment complete, it was entered in step 5 and its
reflectance reading is below 15. -/
theorem alignment_steps_linear (hw : Sensors) (fuel : Nat) (t : Tracer) (x : Exec)
    (hr : Reachable .testForce t) (hc : t.mInitialSequenceCompleted = false)
    (hrun : run .testForce hw fuel t = some x) :
    (0 ≤ t.sequenceStep ∧ t.sequenceStep ≤ 5) ∧
    (x.self.mInitialSequenceCompleted = false →
      (x.self.sequenceStep = t.sequenceStep ∨ x.self.sequenceStep = t.sequenceStep + 1) ∧
      0 ≤ x.self.sequenceStep ∧ x.self.sequenceStep ≤ 5) ∧
    (x.self.mInitialSequenceCompleted = true →
      t.sequenceStep = 5 ∧ hw.reflection 0 < 15) := by
  obtain ⟨r1, r2⟩ := reachable_step_range t hr
  obtain ⟨a, b, c⟩ := run_alignment_step hw fuel t x hc (reachable_alignment t hr).1 hrun
  refine ⟨⟨r1, r2⟩, ?_, ?_⟩
  · intro h
    exact ⟨(a h).1, c r1 r2⟩
  · intro h
    exact ⟨(b h).1, (b h).2.1⟩

/-- Witness of C21: the first tick from the constructed controller, over a blue
marker, takes the alignment from step 0 to step 1. -/
theorem alignment_steps_linear_witness :
    Reachable .testForce constructed ∧ constructed.mInitialSequenceCompleted = false ∧
    run .testForce blueReading 0 constructed = some afterFirstTick ∧
    constructed.sequenceStep = 0 ∧ afterFirstTick.self.sequenceStep = 1 ∧
    (afterFirstTick.self.mInitialSequenceCompleted = false →
      (afterFirstTick.self.sequenceStep = constructed.sequenceStep ∨
        afterFirstTick.self.sequenceStep = constructed.sequenceStep + 1) ∧
      0 ≤ afterFirstTick.self.sequenceStep ∧ afterFirstTick.self.sequenceStep ≤ 5) :=
  ⟨Reachable.constructed, rfl, rfl, rfl, rfl,
    (alignment_steps_linear blueReading 0 constructed afterFirstTick Reachable.constructed
      rfl rfl).2.1⟩

/-! ## What a tick of the alignment leaves alone -/

theorem pollLoop_log (hw : Sensors) (goal : Int) : ∀ (fuel : Nat) (x y : Exec),
    pollLoop hw goal fuel x = some y → y.log = x.log := by
  intro fuel
  induction fuel with
  | zero => intro x y h; simp [pollLoop] at h
  | succ n ih =>
    intro x y h
    simp only [pollLoop] at h
    split at h
    · simp only [Option.some.injEq] at h
      rw [← h]; rfl
    · rw [ih _ _ h]; rfl

theorem moveForward_powers (hw : Sensors) (fuel : Nat) (distanceCm : ℚ)
    (direction : TurnDirection) (turnIntensity : ℚ) (x y : Exec)
    (h : moveForward .testForce hw fuel distanceCm direction turnIntensity x = some y) :
    powers y.log
      = powers x.log ++ [(Wheel.leftWheel, leftPower x.self direction turnIntensity),
          (Wheel.rightWheel, rightPower x.self direction turnIntensity)] := by
  simp only [moveForward, Option.map_eq_some'] at h
  obtain ⟨z, hz, hy⟩ := h
  rw [← hy]
  have hl := pollLoop_log hw _ fuel _ z hz
  simp only [stopBoth, emit, hl, setPowers, getCounts, powers_append, powers]
  simp

theorem pollLoop_rgb (hw : Sensors) (rgb : RGB) (goal : Int) : ∀ (fuel : Nat) (x : Exec),
    pollLoop { hw with rgb := rgb } goal fuel x = pollLoop hw goal fuel x := by
  intro fuel
  induction fuel with
  | zero => intro x; rfl
  | succ n ih =>
    intro x
    simp only [pollLoop]
    rw [ih]
    rfl

theorem sequenceSwitch_rgb (hw : Sensors) (rgb : RGB) (fuel : Nat) (x : Exec) :
    sequenceSwitch { hw with rgb := rgb } fuel x = sequenceSwitch hw fuel x := by
  simp only [sequenceSwitch, moveForward, pollLoop_rgb]
  rfl

theorem sequenceSwitch_powers (hw : Sensors) (fuel : Nat) (x y : Exec)
    (h : sequenceSwitch hw fuel x = some y) :
    powers y.log = powers x.log ∨
    powers y.log = powers x.log ++
      [(Wheel.leftWheel, x.self.mCurrentBaseSpeed), (Wheel.rightWheel, x.self.mCurrentBaseSpeed)] ∨
    powers y.log = powers x.log ++
      [(Wheel.leftWheel, x.self.mCurrentBaseSpeed),
        (Wheel.rightWheel, reducedPower x.self.mCurrentBaseSpeed 3)] ∨
    powers y.log = powers x.log ++
      [(Wheel.leftWheel, reducedPower x.self.mCurrentBaseSpeed 3),
        (Wheel.rightWheel, x.self.mCurrentBaseSpeed)] ∨
    powers y.log = powers x.log ++
      [(Wheel.leftWheel, SLOW_BASE_SPEED), (Wheel.rightWheel, SLOW_BASE_SPEED)] := by
  unfold sequenceSwitch at h
  simp only [detectBlack, getReflection, decide_eq_true_eq] at h
  split_ifs at h <;>
    first
    | (simp only [Option.some.injEq] at h
       subst h
       simp [enterStep, setPowers, stopBoth, emit, powers_append, powers])
    | (simp only [Option.map_eq_some'] at h
       obtain ⟨z, hz, hy⟩ := h
       have hp := moveForward_powers _ _ _ _ _ _ z hz
       subst hy
       simp [enterStep, hp, leftPower, rightPower])

/-- C22. In `sample06_20250909testForce`, a tick of `run` entered with the
alignment not complete is the call of `performInitialSequence` and nothing
else, whatever the readings: the tick returns the same machine for every RGB
reading in place of the one it was given; the detection count, the base speed,
`mPreviousError`, the stop flag and both enable flags keep their values; and
the wheel powers commanded are those of an alignment step (none, the base
speed on both wheels, the base speed and the reduced power of a curve of
intensity 3, or `SLOW_BASE_SPEED` on both wheels), not a PD pair. -/
theorem alignment_tick_only (hw : Sensors) (fuel : Nat) (t : Tracer) (x : Exec)
    (hc : t.mInitialSequenceCompleted = false) (hrun : run .testForce hw fuel t = some x) :
    run .testForce hw fuel t = performInitialSequence .testForce hw fuel (startOf t) ∧
    (∀ rgb : RGB, run .testForce { hw with rgb := rgb } fuel t = some x) ∧
    x.self.mBlueDetectionCount = t.mBlueDetectionCount ∧
    x.self.mCurrentBaseSpeed = t.mCurrentBaseSpeed ∧
    x.self.mPreviousError = t.mPreviousError ∧
    x.self.mIsStopped = t.mIsStopped ∧
    x.self.mLineTraceEnabled = t.mLineTraceEnabled ∧
    x.self.mBlueDetectionEnabled = t.mBlueDetectionEnabled ∧
    (powers x.log = [] ∨
      powers x.log
        = [(Wheel.leftWheel, t.mCurrentBaseSpeed), (Wheel.rightWheel, t.mCurrentBaseSpeed)] ∨
      powers x.log
        = [(Wheel.leftWheel, t.mCurrentBaseSpeed),
            (Wheel.rightWheel, reducedPower t.mCurrentBaseSpeed 3)] ∨
      powers x.log
        = [(Wheel.leftWheel, reducedPower t.mCurrentBaseSpeed 3),
            (Wheel.rightWheel, t.mCurrentBaseSpeed)] ∨
      powers x.log = [(Wheel.leftWheel, SLOW_BASE_SPEED), (Wheel.rightWheel, SLOW_BASE_SPEED)]) := by
  have hst := startOf_self t
  obtain ⟨h1, _, _⟩ := run_alignment_self hw fuel t x hc hrun
  obtain ⟨f1, _, f3, f4, _⟩ := beginSequence_firstRun (startOf t)
  obtain ⟨_, g2, g3, _⟩ := sequenceSwitch_firstRun hw fuel _ x f1 h1
  obtain ⟨q1, q2, q3, q4⟩ := sequenceSwitch_frame hw fuel _ x h1
  obtain ⟨r1, r2, r3, r4⟩ := beginSequence_frame (startOf t)
  obtain ⟨_, _, _, b4⟩ := beginSequence_self (startOf t)
  have hp := sequenceSwitch_powers hw fuel _ x h1
  rw [b4, powers_startOf, r2, hst] at hp
  refine ⟨run_incomplete .testForce hw fuel t hc, ?_, ?_, ?_, ?_, ?_, ?_, ?_, ?_⟩
  · intro rgb
    rw [run_incomplete .testForce _ fuel t hc]
    simp only [performInitialSequence, sequenceSwitch_rgb]
    exact h1
  · rw [q1, r1, hst]
  · rw [q2, r2, hst]
  · rw [q3, r3, hst]
  · rw [q4, r4, hst]
  · rw [g2, f3, hst]
  · rw [g3, f4, hst]
  · simpa using hp

/-- Witness of C22: the first tick from the constructed controller with a reading
that satisfies the blue predicate. -/
theorem alignment_tick_only_witness :
    detectBlue blueReading.rgb = true ∧ constructed.mInitialSequenceCompleted = false ∧
    run .testForce blueReading 0 constructed = some afterFirstTick ∧
    afterFirstTick.self.mBlueDetectionCount = constructed.mBlueDetectionCount ∧
    afterFirstTick.self.mCurrentBaseSpeed = constructed.mCurrentBaseSpeed ∧
    afterFirstTick.self.mPreviousError = constructed.mPreviousError ∧
    afterFirstTick.self.mIsStopped = constructed.mIsStopped ∧
    afterFirstTick.self.mLineTraceEnabled = constructed.mLineTraceEnabled ∧
    afterFirstTick.self.mBlueDetectionEnabled = constructed.mBlueDetectionEnabled ∧
    powers afterFirstTick.log = [(Wheel.leftWheel, 50), (Wheel.rightWheel, 50)] :=
  match alignment_tick_only blueReading 0 constructed afterFirstTick rfl rfl with
  | ⟨_, _, a, b, c, d, e, f, _⟩ => ⟨by decide, rfl, rfl, a, b, c, d, e, f, rfl⟩

/-! ## Two blue detections after the alignment -/

theorem leftTargetDegrees_10_right_13 : leftTargetDegrees 10 .RIGHT (13 / 10) = 267 := by
  simp only [leftTargetDegrees, baseDegrees_10, distanceMultiplier]
  rw [floatToInt_of_nonneg (by norm_num), Int.floor_eq_iff]
  norm_num

theorem run_alignmentDone :
    (run .testForce blackReading 0 awaitingBlack).map Exec.self = some alignmentDone := rfl

theorem run_firstBlueDone :
    (run .testForce blueReading 1 alignmentDone).map Exec.self = some firstBlueDone := by
  rw [run_blue .testForce blueReading 1 alignmentDone rfl rfl rfl (by decide)]
  have hentry : blueEntry (startOf alignmentDone)
      = { self := { firstBlueDone with
            mBlueDetectionEnabled := false, mLineTraceEnabled := false }
          nReflection := 0, nCount := 0, log := [] } := by
    rfl
  have hbody : executeBlueActionBody .testForce 1
      = [.moveForward 13 .STRAIGHT 0, .moveForward 10 .RIGHT (13 / 10)] := by
    rfl
  have hl13 : leftTargetDegrees 13 .STRAIGHT 0 = 275 := baseDegrees_13
  have hr13 : rightTargetDegrees 13 .STRAIGHT 0 = 275 := baseDegrees_13
  have hbase10 : rightTargetDegrees 10 .RIGHT (13 / 10) = 212 := baseDegrees_10
  rw [hentry]
  simp only [executeBlueAction, hbody, execStmts, execStmt]
  rw [moveForward_first_poll blueReading 0 13 .STRAIGHT 0 _ (by
    simp only [averageTarget, hl13, hr13, reached, blueReading]
    decide)]
  simp only
  rw [moveForward_first_poll blueReading 0 10 .RIGHT (13 / 10) _ (by
    simp only [averageTarget, leftTargetDegrees_10_right_13, hbase10, reached, blueReading]
    decide)]
  rfl

theorem run_secondBlueDone :
    (run .testForce blueReading 1 firstBlueDone).map Exec.self = some secondBlueDone := by
  rw [run_blue .testForce blueReading 1 firstBlueDone rfl rfl rfl (by decide)]
  have hentry : blueEntry (startOf firstBlueDone)
      = { self := { firstBlueDone with
            mBlueDetectionCount := 2, mBlueDetectionEnabled := false,
            mLineTraceEnabled := false }
          nReflection := 0, nCount := 0, log := [] } := by
    rfl
  have hbody : executeBlueActionBody .testForce 2
      = [.moveForward 10 .RIGHT 2, .setCompleteStop true, .moveForward 3 .LEFT 10,
          .setCompleteStop true] := by
    rfl
  have hbase10 : rightTargetDegrees 10 .RIGHT 2 = 212 := baseDegrees_10
  have hbase3 : leftTargetDegrees 3 .LEFT 10 = 63 := baseDegrees_3
  rw [hentry]
  simp only [executeBlueAction, hbody, execStmts, execStmt]
  rw [moveForward_first_poll blueReading 0 10 .RIGHT 2 _ (by
    simp only [averageTarget, leftTargetDegrees_10_right_2, hbase10, reached, blueReading]
    decide)]
  simp only [setCompleteStop, stopBoth, emit, if_true]
  rw [moveForward_first_poll blueReading 0 3 .LEFT 10 _ (by
    simp only [averageTarget, rightTargetDegrees_3_left_10, hbase3, reached, blueReading]
    decide)]
  simp only [Option.map_some', blueExit, secondBlueDone]
  simp

theorem reachable_alignmentDone : Reachable .testForce alignmentDone :=
  reachable_of_run .testForce blackReading 0 awaitingBlack _ reachable_awaitingBlack
    run_alignmentDone

theorem reachable_firstBlueDone : Reachable .testForce firstBlueDone :=
  reachable_of_run .testForce blueReading 1 alignmentDone _ reachable_alignmentDone
    run_firstBlueDone

theorem reachable_secondBlueDone : Reachable .testForce secondBlueDone :=
  reachable_of_run .testForce blueReading 1 firstBlueDone _ reachable_firstBlueDone
    run_secondBlueDone

/-! ## The enable flags and the stop flag -/

theorem steadyPath_flags (v : Variant) (hw : Sensors) (fuel : Nat) (x y : Exec)
    (h : steadyPath v hw fuel x = some y)
    (h1 : x.self.mLineTraceEnabled = x.self.mBlueDetectionEnabled)
    (h2 : x.self.mLineTraceEnabled = !x.self.mIsStopped) :
    y.self.mLineTraceEnabled = y.self.mBlueDetectionEnabled ∧
    y.self.mLineTraceEnabled = !y.self.mIsStopped := by
  unfold steadyPath at h
  split_ifs at h
  · simp only [Option.some.injEq] at h
    rw [← h]
    exact ⟨h1, h2⟩
  · rw [Option.map_eq_some'] at h
    obtain ⟨z, hz, hzy⟩ := h
    have hf := executeBlueAction_frame v hw fuel _ z hz
    obtain ⟨a, b, _⟩ := blueEntry_flags x
    unfold OnlyStopChanged at hf
    have hz1 : z.self.mBlueDetectionEnabled = false := by rw [hf]; exact a
    have hz2 : z.self.mLineTraceEnabled = false := by rw [hf]; exact b
    rw [← hzy]
    unfold blueExit
    cases hs : z.self.mIsStopped <;>
      simp [hs, hz1, hz2, setLineTraceEnabled, setBlueDetectionEnabled]
  · simp only [Option.some.injEq] at h
    rw [← h]
    exact ⟨h1, h2⟩
  · simp only [Option.some.injEq] at h
    rw [← h]
    simpa [lineTrace, setPowers, emit, calDiffReflection, getReflection, calcPropValue]
      using ⟨h1, h2⟩

theorem reachable_flags (v : Variant) (t : Tracer) (hr : Reachable v t) :
    t.mLineTraceEnabled = t.mBlueDetectionEnabled ∧
    t.mLineTraceEnabled = (!t.mIsStopped) ∧
    (t.mInitialSequenceCompleted = false → t.mIsStopped = false) := by
  induction hr with
  | constructed => simp [constructed]
  | init t _ ih => simpa [init, emit, enter] using ih
  | tick t hw fuel x hr hrun ih =>
    obtain ⟨i1, i2, i3⟩ := ih
    have hst := startOf_self t
    cases hc : t.mInitialSequenceCompleted with
    | true =>
      obtain ⟨a, _, _, _⟩ := run_completed_stays v hw fuel t x hc hrun
      rw [run_completed v hw fuel t hc] at hrun
      obtain ⟨b, c⟩ := steadyPath_flags v hw fuel _ x hrun (by rw [hst]; exact i1)
        (by rw [hst]; exact i2)
      exact ⟨b, c, by rw [a]; intro h; cases h⟩
    | false =>
      have hs := i3 hc
      rw [run_incomplete v hw fuel t hc] at hrun
      obtain ⟨_, _, _, q4⟩ := performInitialSequence_frame v hw fuel _ x hrun
      rw [hst] at q4
      simp only at q4
      cases v with
      | LTest =>
        simp only [performInitialSequence, Option.some.injEq] at hrun
        rw [← hrun]
        simp [setBlueDetectionEnabled, setLineTraceEnabled, hst, hs]
      | testForce =>
        simp only [performInitialSequence] at hrun
        obtain ⟨f1, _, f3, f4, _⟩ := beginSequence_firstRun (startOf t)
        obtain ⟨_, g2, g3, _⟩ := sequenceSwitch_firstRun hw fuel _ x f1 hrun
        rw [g2, g3, f3, f4, q4, hst]
        exact ⟨i1, i2, fun _ => hs⟩

theorem run_skips (v : Variant) (hw : Sensors) (fuel : Nat) (t : Tracer)
    (h : skipsLineTrace t hw = true) : run v hw fuel t = some (startOf t) := by
  simp only [skipsLineTrace, Bool.and_eq_true, Bool.not_eq_true', Bool.and_eq_false_iff] at h
  obtain ⟨⟨⟨hc, hs⟩, hd⟩, hl⟩ := h
  simp only [run, startOf_self, hc, hs, hl]
  rcases hd with hd | hd <;> simp [hd]

/-- C23. In every state reachable at a tick boundary, in either copy,
`mLineTraceEnabled = mBlueDetectionEnabled = !mIsStopped`: the two flags are
equal and are false exactly when the stop flag is set.  So no tick from such a
state takes the early return "line trace disabled" of `run`, and a tick entered
with the alignment complete, not stopped and without a detection runs the PD
part. -/
theorem flags_follow_stop (v : Variant) (t : Tracer) (hr : Reachable v t) :
    t.mLineTraceEnabled = t.mBlueDetectionEnabled ∧
    t.mBlueDetectionEnabled = (!t.mIsStopped) ∧
    (t.mLineTraceEnabled = false ↔ t.mIsStopped = true) ∧
    ∀ (hw : Sensors) (fuel : Nat), skipsLineTrace t hw = false ∧
      (t.mInitialSequenceCompleted = true → t.mIsStopped = false → detects t hw = false →
        run v hw fuel t = some (lineTrace hw (startOf t))) := by
  obtain ⟨h1, h2, _⟩ := reachable_flags v t hr
  refine ⟨h1, by rw [← h1]; exact h2, by rw [h2]; simp, ?_⟩
  intro hw fuel
  constructor
  · simp only [skipsLineTrace]
    rw [h2]
    cases t.mIsStopped <;> simp
  · intro hc hs hd
    have hl : t.mLineTraceEnabled = true := by rw [h2, hs]; rfl
    have hb : t.mBlueDetectionEnabled = true := by rw [← h1]; exact hl
    simp only [detects, hc, hs, hb] at hd
    simp at hd
    simp only [run, startOf_self, hc, hs, hl, hb, hd]
    simp

/-- Witness of C23: `secondBlueDone`, the state of `sample06_20250909testForce`
after its alignment and two blue detections, is stopped and has both flags
false. -/
theorem flags_follow_stop_witness :
    Reachable .testForce secondBlueDone ∧ secondBlueDone.mIsStopped = true ∧
    secondBlueDone.mLineTraceEnabled = false ∧ secondBlueDone.mBlueDetectionEnabled = false ∧
    (secondBlueDone.mLineTraceEnabled = false ↔ secondBlueDone.mIsStopped = true) ∧
    ∀ (hw : Sensors), skipsLineTrace secondBlueDone hw = false :=
  ⟨reachable_secondBlueDone, rfl, rfl, rfl,
    (flags_follow_stop .testForce secondBlueDone reachable_secondBlueDone).2.2.1,
    fun hw => ((flags_follow_stop .testForce secondBlueDone reachable_secondBlueDone).2.2.2
      hw 0).1⟩

/-! ## At most two detections in `sample06_20250909testForce` -/

theorem executeBlueAction_second_stops (hw : Sensors) (fuel : Nat) (x y : Exec)
    (h2 : x.self.mBlueDetectionCount = 2)
    (h : executeBlueAction .testForce hw fuel x = some y) : y.self.mIsStopped = true := by
  have hbody : executeBlueActionBody .testForce 2
      = [.moveForward 10 .RIGHT 2, .setCompleteStop true, .moveForward 3 .LEFT 10,
          .setCompleteStop true] := rfl
  simp only [executeBlueAction, h2, hbody, execStmts, execStmt] at h
  split at h
  · cases h
  · split at h
    · cases h
    · simp only [Option.some.injEq] at h
      rw [← h]
      rfl

theorem run_no_detect_stop (v : Variant) (hw : Sensors) (fuel : Nat) (t : Tracer) (x : Exec)
    (hd : detects t hw = false) (h : run v hw fuel t = some x) :
    x.self.mIsStopped = t.mIsStopped := by
  have hst := startOf_self t
  cases hc : t.mInitialSequenceCompleted with
  | false =>
    rw [run_incomplete v hw fuel t hc] at h
    rw [(performInitialSequence_frame v hw fuel _ x h).2.2.2, hst]
  | true =>
    simp only [run, hst, hc] at h
    simp only [detects, hc] at hd
    cases hs : t.mIsStopped with
    | true =>
      simp only [hs] at h
      simp only [Bool.not_true, Bool.false_eq_true, if_false, if_true, Option.some.injEq] at h
      rw [← h, stopBoth_self, hst]
      exact hs
    | false =>
      simp only [hs] at h hd
      simp only [Bool.true_and, Bool.not_false] at hd
      simp only [hd] at h
      simp only [Bool.not_true, Bool.false_eq_true, if_false] at h
      split_ifs at h
      · simp only [Option.some.injEq] at h
        rw [← h, hst]
        exact hs
      · simp only [Option.some.injEq] at h
        rw [← h, lineTrace_self]
        exact hs

theorem run_count_bound (hw : Sensors) (fuel : Nat) (t : Tracer) (x : Exec)
    (h : run .testForce hw fuel t = some x) (h2 : t.mBlueDetectionCount ≤ 2)
    (hs : t.mBlueDetectionCount = 2 → t.mIsStopped = true) :
    x.self.mBlueDetectionCount ≤ 2 ∧ (x.self.mBlueDetectionCount = 2 → x.self.mIsStopped = true) ∧
    (detects t hw = true → t.mBlueDetectionCount ≤ 1) := by
  have hcount := run_count .testForce hw fuel t x h
  cases hd : detects t hw with
  | false =>
    rw [hd] at hcount
    simp only [Bool.false_eq_true, if_false, add_zero] at hcount
    rw [hcount, run_no_detect_stop .testForce hw fuel t x hd h]
    exact ⟨h2, hs, by intro h; cases h⟩
  | true =>
    rw [hd] at hcount
    simp only [if_true] at hcount
    have hns : t.mIsStopped = false := by
      simp only [detects, Bool.and_eq_true, Bool.not_eq_true'] at hd
      exact hd.1.1.2
    have h1 : t.mBlueDetectionCount ≤ 1 := by
      by_contra hcon
      have : t.mBlueDetectionCount = 2 := by omega
      rw [hs this] at hns
      cases hns
    refine ⟨by omega, ?_, fun _ => h1⟩
    intro hx
    rw [run_detects_eq .testForce hw fuel t hd, Option.map_eq_some'] at h
    obtain ⟨y, hy, hxy⟩ := h
    have he : (blueEntry (startOf t)).self.mBlueDetectionCount = 2 := by
      rw [(blueEntry_count (startOf t)).1, startOf_self]
      simp only
      omega
    have hys := executeBlueAction_second_stops hw fuel _ y he hy
    rw [← hxy]
    simp [blueExit, hys]

theorem reachable_count_bound (t : Tracer) (hr : Reachable .testForce t) :
    t.mBlueDetectionCount ≤ 2 ∧ (t.mBlueDetectionCount = 2 → t.mIsStopped = true) := by
  induction hr with
  | constructed => simp [constructed]
  | init t _ ih => simpa [init, emit, enter] using ih
  | tick t hw fuel x _ hrun ih =>
    obtain ⟨a, b, _⟩ := run_count_bound hw fuel t x hrun ih.1 ih.2
    exact ⟨a, b⟩

/-- C24. In `sample06_20250909testForce`, in every state reachable by ticks of
`run` the detection count is between 0 and 2, and a count of 2 comes with the
stop flag set, so that no tick from such a state detects blue again.  A tick
that does detect blue is entered with the count 0 or 1 and runs the `case` of
`executeBlueAction` for 1 or 2: the cases 3 and 4 are never selected. -/
theorem blue_count_at_most_two (t : Tracer) (hr : Reachable .testForce t) :
    0 ≤ t.mBlueDetectionCount ∧ t.mBlueDetectionCount ≤ 2 ∧
    (t.mBlueDetectionCount = 2 → t.mIsStopped = true) ∧
    (t.mBlueDetectionCount = 2 → ∀ hw : Sensors, detects t hw = false) ∧
    ∀ hw : Sensors, detects t hw = true →
      (t.mBlueDetectionCount = 0 ∨ t.mBlueDetectionCount = 1) ∧
      ((blueEntry (startOf t)).self.mBlueDetectionCount = 1 ∨
        (blueEntry (startOf t)).self.mBlueDetectionCount = 2) ∧
      ∀ fuel : Nat, run .testForce hw fuel t
        = (execStmts .testForce hw fuel
            (executeBlueActionBody .testForce (t.mBlueDetectionCount + 1))
            (blueEntry (startOf t))).map blueExit := by
  obtain ⟨h2, hs⟩ := reachable_count_bound t hr
  have h0 := (reachable_inv .testForce t hr).1
  have hnd : t.mBlueDetectionCount = 2 → ∀ hw : Sensors, detects t hw = false := by
    intro h hw
    simp [detects, hs h]
  refine ⟨h0, h2, hs, hnd, ?_⟩
  intro hw hd
  have h1 : t.mBlueDetectionCount ≤ 1 := by
    by_contra hcon
    have h := hnd (by omega) hw
    rw [hd] at h
    cases h
  have he : (blueEntry (startOf t)).self.mBlueDetectionCount = t.mBlueDetectionCount + 1 := by
    rw [(blueEntry_count (startOf t)).1, startOf_self]
  refine ⟨by omega, by rw [he]; omega, ?_⟩
  intro fuel
  rw [run_detects_eq .testForce hw fuel t hd, executeBlueAction, he]

/-- Witness of C24: `secondBlueDone`, reached by the alignment and two ticks over a
blue marker, has the count 2 and is stopped. -/
theorem blue_count_at_most_two_witness :
    Reachable .testForce secondBlueDone ∧ secondBlueDone.mBlueDetectionCount = 2 ∧
    (secondBlueDone.mBlueDetectionCount = 2 → secondBlueDone.mIsStopped = true) ∧
    (secondBlueDone.mBlueDetectionCount = 2 → ∀ hw : Sensors, detects secondBlueDone hw = false) :=
  ⟨reachable_secondBlueDone, rfl,
    (blue_count_at_most_two secondBlueDone reachable_secondBlueDone).2.2.1,
    (blue_count_at_most_two secondBlueDone reachable_secondBlueDone).2.2.2.1⟩

/-! ## The 33 ticks of the alignment -/

theorem alignmentAfter_incomplete (n : Nat) :
    (alignmentAfter n).mInitialSequenceCompleted = false := by
  unfold alignmentAfter
  split_ifs <;> rfl

theorem run_alignmentAfter (hw : Sensors) (fuel : Nat) (n : Nat) (x : Exec) (hn : n < 32)
    (h : run .testForce hw fuel (alignmentAfter n) = some x) :
    x.self = alignmentAfter (n + 1) := by
  obtain ⟨h1, h2, h3⟩ := run_alignment_self hw fuel _ x (alignmentAfter_incomplete n) h
  have h4 := sequenceSwitch_self hw fuel _ x h1
  rw [h2, h3] at h4
  rw [h4]
  clear h h1 h2 h3 h4
  interval_cases n <;> rfl

theorem runTicks_alignment (fuel : Nat) (hws : List Sensors) :
    ∀ (n : Nat) (xs : List Exec), n ≤ 32 →
      runTicks .testForce fuel (alignmentAfter n) hws = some xs →
      (∀ (i : Nat) (x : Exec), n + i < 32 → xs[i]? = some x →
        x.self = alignmentAfter (n + i + 1)) ∧
      (∀ (i : Nat) (hw : Sensors) (x : Exec), n + i = 32 → hws[i]? = some hw →
        xs[i]? = some x →
        (hw.reflection 0 < BLACK_THRESHOLD → x.self.mInitialSequenceCompleted = true) ∧
        (hw.reflection 0 ≥ BLACK_THRESHOLD → x.self.mInitialSequenceCompleted = false)) := by
  induction hws with
  | nil =>
    intro n xs _ h
    simp only [runTicks, Option.some.injEq] at h
    subst h
    exact ⟨by intro i x _ h; simp at h, by intro i hw x _ h; simp at h⟩
  | cons hw0 rest ih =>
    intro n xs hn hrun
    simp only [runTicks] at hrun
    split at hrun
    · simp at hrun
    · rename_i x0 hx0
      split at hrun
      · simp at hrun
      · rename_i xs' hxs'
        simp only [Option.some.injEq] at hrun
        subst hrun
        rcases Nat.lt_or_ge n 32 with hlt | hge
        · have hself := run_alignmentAfter hw0 fuel n x0 hlt hx0
          rw [hself] at hxs'
          obtain ⟨a, b⟩ := ih (n + 1) xs' (by omega) hxs'
          constructor
          · intro i x hi hx
            cases i with
            | zero =>
              simp only [List.getElem?_cons_zero, Option.some.injEq] at hx
              rw [← hx]
              exact hself
            | succ j =>
              simp only [List.getElem?_cons_succ] at hx
              have := a j x (by omega) hx
              rw [this]
              congr 1
              omega
          · intro i hw x hi h1 h2
            cases i with
            | zero => omega
            | succ j =>
              simp only [List.getElem?_cons_succ] at h1 h2
              exact b j hw x (by omega) h1 h2
        · have h32 : n = 32 := by omega
          subst h32
          constructor
          · intro i x hi _
            omega
          · intro i hw x hi h1 h2
            have hi0 : i = 0 := by omega
            subst hi0
            simp only [List.getElem?_cons_zero, Option.some.injEq] at h1 h2
            subst h1 h2
            have hr := run_await_black hw0 fuel (alignmentAfter 32) rfl rfl rfl
            rw [hx0] at hr
            constructor
            · intro hb
              rw [if_pos hb, Option.some.injEq] at hr
              rw [hr]
            · intro hb
              rw [if_neg (not_lt.mpr hb), Option.some.injEq] at hr
              rw [hr]
              rfl

/-- C25. In `sample06_20250909testForce`, for any readings and any run of ticks of
`run` from the constructed controller in which every tick returns, the
alignment is not complete after each of the first 32 ticks, the controller
after tick `i + 1` being `alignmentAfter (i + 1)` (1 start tick, 20 ticks of
timed forward, 5 ticks of settling, 1 straight tick, 5 ticks of settling); and
if the reflectance reading of the 33rd tick is below 15 the alignment is
complete when that tick returns. -/
theorem alignment_completes_on_tick_33 (fuel : Nat) (hws : List Sensors) (xs : List Exec)
    (hrun : runTicks .testForce fuel constructed hws = some xs) :
    (∀ (i : Nat) (x : Exec), i < 32 → xs[i]? = some x →
      x.self.mInitialSequenceCompleted = false ∧ x.self = alignmentAfter (i + 1)) ∧
    (∀ (hw : Sensors) (x : Exec), hws[32]? = some hw → xs[32]? = some x →
      hw.reflection 0 < 15 → x.self.mInitialSequenceCompleted = true) := by
  obtain ⟨a, b⟩ := runTicks_alignment fuel hws 0 xs (by omega) hrun
  constructor
  · intro i x hi hx
    have h := a i x (by omega) hx
    rw [Nat.zero_add] at h
    rw [h]
    exact ⟨alignmentAfter_incomplete _, rfl⟩
  · intro hw x h1 h2 hb
    exact (b 32 hw x rfl h1 h2).1 hb

theorem run_blueReading_alignmentAfter (n : Nat) (hn : n < 32) :
    (run .testForce blueReading 1 (alignmentAfter n)).map Exec.self
      = some (alignmentAfter (n + 1)) := by
  rcases (by omega : n = 25 ∨ n = 26 ∨ n = 31 ∨ (n ≠ 25 ∧ n ≠ 26 ∧ n ≠ 31)) with h | h | h | h
  · subst h
    exact run_aligning_curve_right
  · subst h
    exact run_aligning_straight
  · subst h
    exact run_aligning_curve_left
  · obtain ⟨h1, h2, h3⟩ := h
    interval_cases n <;> first | rfl | omega

theorem runTicks_cons_of_run (v : Variant) (fuel : Nat) (t s : Tracer) (hw : Sensors)
    (rest : List Sensors) (h : (run v hw fuel t).map Exec.self = some s)
    (h2 : ∃ xs : List Exec, runTicks v fuel s rest = some xs) :
    ∃ xs : List Exec, runTicks v fuel t (hw :: rest) = some xs := by
  rw [Option.map_eq_some'] at h
  obtain ⟨x, hx, hs⟩ := h
  obtain ⟨xs, hxs⟩ := h2
  refine ⟨x :: xs, ?_⟩
  simp only [runTicks, hx, hs, hxs]

theorem runTicks_alignmentReadings_from (k : Nat) : ∀ n : Nat, n + k = 32 →
    ∃ xs : List Exec,
      runTicks .testForce 1 (alignmentAfter n) (List.replicate k blueReading ++ [blackReading])
        = some xs := by
  induction k with
  | zero =>
    intro n hn
    have h32 : n = 32 := by omega
    subst h32
    exact runTicks_cons_of_run .testForce 1 _ alignmentDone blackReading [] rfl ⟨[], rfl⟩
  | succ k ih =>
    intro n hn
    exact runTicks_cons_of_run .testForce 1 _ _ blueReading _
      (run_blueReading_alignmentAfter n (by omega)) (ih (n + 1) (by omega))

theorem runTicks_alignmentReadings :
    ∃ xs : List Exec, runTicks .testForce 1 constructed alignmentReadings = some xs :=
  runTicks_alignmentReadings_from 32 0 rfl

theorem runTicks_length (v : Variant) (fuel : Nat) (hws : List Sensors) :
    ∀ (t : Tracer) (xs : List Exec), runTicks v fuel t hws = some xs →
      xs.length = hws.length := by
  induction hws with
  | nil =>
    intro t xs h
    simp only [runTicks, Option.some.injEq] at h
    subst h
    rfl
  | cons hw0 rest ih =>
    intro t xs h
    simp only [runTicks] at h
    split at h
    · simp at h
    · rename_i x0 hx0
      split at h
      · simp at h
      · rename_i xs' hxs'
        simp only [Option.some.injEq] at h
        rw [← h, List.length_cons, List.length_cons, ih x0.self xs' hxs']

/-- Witness of C25: 32 ticks whose encoder readings let every scripted move
return, then a tick over black; the run returns 33 machines, the alignment is
not complete in the first 32 and complete in the last. -/
theorem alignment_completes_on_tick_33_witness :
    ∃ xs : List Exec, runTicks .testForce 1 constructed alignmentReadings = some xs ∧
      xs.length = 33 ∧
      (∀ (i : Nat) (x : Exec), i < 32 → xs[i]? = some x →
        x.self.mInitialSequenceCompleted = false ∧ x.self = alignmentAfter (i + 1)) ∧
      (∀ x : Exec, xs[32]? = some x → x.self.mInitialSequenceCompleted = true) :=
  match runTicks_alignmentReadings with
  | ⟨xs, hxs⟩ =>
    ⟨xs, hxs, runTicks_length .testForce 1 alignmentReadings constructed xs hxs,
      (alignment_completes_on_tick_33 1 alignmentReadings xs hxs).1,
      fun x hx =>
        (alignment_completes_on_tick_33 1 alignmentReadings xs hxs).2 blackReading x rfl hx
          (by decide)⟩

/-! ## The tick counters of the alignment -/

theorem init_of_initialized (t : Tracer) (h : t.mIsInitialized = true) :
    (init (enter t)).self = t := by
  cases t
  simp_all [init, emit, enter]

theorem alignmentAfter_initialized (n : Nat) (hn : 1 ≤ n) :
    (alignmentAfter n).mIsInitialized = true := by
  unfold alignmentAfter
  split_ifs <;> first | rfl | omega

theorem reachable_timeline (t : Tracer) (hr : Reachable .testForce t) :
    t.mInitialSequenceCompleted = true ∨ t = constructed ∨
    t = (init (enter constructed)).self ∨
    (∃ n : Nat, 1 ≤ n ∧ n ≤ 31 ∧ t = alignmentAfter n) ∨
    ∃ tc : Nat, t = aligning 5 27 tc := by
  induction hr with
  | constructed => exact Or.inr (Or.inl rfl)
  | init t _ ih =>
    rcases ih with h | h | h | ⟨n, h1, h2, h⟩ | ⟨tc, h⟩
    · exact Or.inl h
    · rw [h]
      exact Or.inr (Or.inr (Or.inl rfl))
    · rw [h]
      exact Or.inr (Or.inr (Or.inl rfl))
    · rw [h, init_of_initialized _ (alignmentAfter_initialized n h1)]
      exact Or.inr (Or.inr (Or.inr (Or.inl ⟨n, h1, h2, rfl⟩)))
    · rw [h]
      exact Or.inr (Or.inr (Or.inr (Or.inr ⟨tc, rfl⟩)))
  | tick t hw fuel x _ hrun ih =>
    have hnext : ∀ n : Nat, n ≤ 31 → x.self = alignmentAfter (n + 1) →
        (∃ m : Nat, 1 ≤ m ∧ m ≤ 31 ∧ x.self = alignmentAfter m) ∨
          ∃ tc : Nat, x.self = aligning 5 27 tc := by
      intro n hn hx
      rcases Nat.lt_or_ge n 31 with h | h
      · exact Or.inl ⟨n + 1, by omega, by omega, hx⟩
      · have h31 : n = 31 := by omega
        subst h31
        exact Or.inr ⟨32, hx⟩
    rcases ih with h | h | h | ⟨n, h1, h2, h⟩ | ⟨tc, h⟩
    · exact Or.inl (run_completed_stays .testForce hw fuel t x h hrun).1
    · subst h
      exact Or.inr (Or.inr (Or.inr
        (hnext 0 (by omega) (run_alignmentAfter hw fuel 0 x (by omega) hrun))))
    · subst h
      obtain ⟨a, b, c⟩ := run_alignment_self hw fuel _ x rfl hrun
      have d := sequenceSwitch_self hw fuel _ x a
      rw [b, c] at d
      exact Or.inr (Or.inr (Or.inr (hnext 0 (by omega) (by rw [d]; rfl))))
    · subst h
      exact Or.inr (Or.inr (Or.inr
        (hnext n h2 (run_alignmentAfter hw fuel n x (by omega) hrun))))
    · subst h
      have hr := run_await_black hw fuel (aligning 5 27 tc) rfl rfl rfl
      rw [hrun] at hr
      by_cases hb : hw.reflection 0 < BLACK_THRESHOLD
      · rw [if_pos hb, Option.some.injEq] at hr
        rw [hr]
        exact Or.inl rfl
      · rw [if_neg hb, Option.some.injEq] at hr
        rw [hr]
        exact Or.inr (Or.inr (Or.inr (Or.inr ⟨(tc + 1) % ULONG_MOD, rfl⟩)))

/-- C26. In `sample06_20250909testForce`, on every tick from a reachable state in
which `performInitialSequence` evaluates `timeCounter - stepStartTime` (the
step after the statements before the `switch` is 1, 2 or 4):
`stepStartTime ≤ timeCounter`, the increment of `timeCounter` has not wrapped,
and the `unsigned long` difference is the difference of the two numbers.
The tick is tick `n + 1` of the alignment for some `n` between 1 and 31,
`timeCounter` is `n + 1`, and `stepStartTime` is the number of the tick that
entered the step: the difference is the number of ticks since then. -/
theorem elapsed_never_wraps (t : Tracer) (hr : Reachable .testForce t)
    (hc : t.mInitialSequenceCompleted = false)
    (hstep : (beginSequence (startOf t)).self.sequenceStep = 1 ∨
      (beginSequence (startOf t)).self.sequenceStep = 2 ∨
      (beginSequence (startOf t)).self.sequenceStep = 4) :
    (beginSequence (startOf t)).self.stepStartTime
      ≤ (beginSequence (startOf t)).self.timeCounter ∧
    (beginSequence (startOf t)).self.timeCounter = t.timeCounter + 1 ∧
    ((elapsed (beginSequence (startOf t)).self : Nat) : Int)
      = ((beginSequence (startOf t)).self.timeCounter : Int)
        - ((beginSequence (startOf t)).self.stepStartTime : Int) ∧
    ∃ n : Nat, 1 ≤ n ∧ n ≤ 31 ∧ t = alignmentAfter n ∧
      (beginSequence (startOf t)).self.timeCounter = n + 1 ∧
      (alignmentAfter (beginSequence (startOf t)).self.stepStartTime).sequenceStep
        = (beginSequence (startOf t)).self.sequenceStep ∧
      (alignmentAfter ((beginSequence (startOf t)).self.stepStartTime - 1)).sequenceStep
        ≠ (beginSequence (startOf t)).self.sequenceStep := by
  rcases reachable_timeline t hr with h | h | h | ⟨n, h1, h2, h⟩ | ⟨tc, h⟩
  · rw [h] at hc
    cases hc
  · subst h
    exfalso
    revert hstep
    decide
  · subst h
    exfalso
    revert hstep
    decide
  · subst h
    refine ⟨?_, ?_, ?_, n, h1, h2, rfl, ?_⟩ <;>
      (revert hstep; interval_cases n <;> decide)
  · subst h
    have h5 : (beginSequence (startOf (aligning 5 27 tc))).self.sequenceStep = 5 := rfl
    rw [h5] at hstep
    exfalso
    revert hstep
    decide

/-- Witness of C26: the tick entered in `aligning 1 1 20`, tick 21 of the
alignment, evaluates `21 - 1` in step 1. -/
theorem elapsed_never_wraps_witness :
    Reachable .testForce (aligning 1 1 20) ∧
    (beginSequence (startOf (aligning 1 1 20))).self.sequenceStep = 1 ∧
    (beginSequence (startOf (aligning 1 1 20))).self.stepStartTime = 1 ∧
    (beginSequence (startOf (aligning 1 1 20))).self.timeCounter = 21 ∧
    elapsed (beginSequence (startOf (aligning 1 1 20))).self = 20 ∧
    (beginSequence (startOf (aligning 1 1 20))).self.stepStartTime
      ≤ (beginSequence (startOf (aligning 1 1 20))).self.timeCounter :=
  ⟨reachable_forward 19 (by omega), rfl, rfl, rfl, rfl,
    (elapsed_never_wraps (aligning 1 1 20) (reachable_forward 19 (by omega)) rfl
      (Or.inl rfl)).1⟩

/-! ## Left and right in `moveForward` -/

/-- C27. The locals of `moveForward` are mirror images for `LEFT` and `RIGHT`: for
every distance, intensity and base speed, the left and right target degrees
and powers for `LEFT` are the right and left ones for `RIGHT`; with the two
start counts exchanged the same holds for the target counts, and
`averageTarget` is the same. -/
theorem moveForward_mirror (t : Tracer) (start : Int × Int) (distanceCm turnIntensity : ℚ) :
    leftTargetDegrees distanceCm .LEFT turnIntensity
      = rightTargetDegrees distanceCm .RIGHT turnIntensity ∧
    rightTargetDegrees distanceCm .LEFT turnIntensity
      = leftTargetDegrees distanceCm .RIGHT turnIntensity ∧
    leftPower t .LEFT turnIntensity = rightPower t .RIGHT turnIntensity ∧
    rightPower t .LEFT turnIntensity = leftPower t .RIGHT turnIntensity ∧
    leftTargetCount start distanceCm .LEFT turnIntensity
      = rightTargetCount (start.2, start.1) distanceCm .RIGHT turnIntensity ∧
    rightTargetCount start distanceCm .LEFT turnIntensity
      = leftTargetCount (start.2, start.1) distanceCm .RIGHT turnIntensity ∧
    averageTarget start distanceCm .LEFT turnIntensity
      = averageTarget (start.2, start.1) distanceCm .RIGHT turnIntensity := by
  refine ⟨rfl, rfl, rfl, rfl, rfl, rfl, ?_⟩
  simp only [averageTarget, leftTargetDegrees, rightTargetDegrees]
  congr 1
  ring

/-! ## Past the table of `executeBlueAction`, from reachable states -/

end Tracer

/-! ## Rounding to binary32 -/

theorem roundEven_bounds (q : ℚ) : ⌊q⌋ ≤ roundEven q ∧ roundEven q ≤ ⌊q⌋ + 1 := by
  unfold roundEven
  split_ifs <;> omega

theorem roundEven_sub_le (q : ℚ) : |(roundEven q : ℚ) - q| ≤ 1 / 2 := by
  have h1 := Int.floor_le q
  have h2 := Int.lt_floor_add_one q
  unfold roundEven
  rw [abs_le]
  split_ifs <;> push_cast <;> constructor <;> linarith

theorem roundEven_intCast (n : Int) : roundEven (n : ℚ) = n := by
  unfold roundEven
  simp

theorem roundEven_eq_of_lt (q : ℚ) (m : Int) (h : |q - m| < 1 / 2) : roundEven q = m := by
  have h1 := roundEven_sub_le q
  have h2 : |((roundEven q - m : Int) : ℚ)| < 1 := by
    push_cast
    calc |(roundEven q : ℚ) - m| = |((roundEven q : ℚ) - q) + (q - m)| := by ring_nf
      _ ≤ |(roundEven q : ℚ) - q| + |q - m| := abs_add _ _
      _ < 1 := by linarith
  have h3 : |roundEven q - m| < 1 := by exact_mod_cast h2
  have h4 := Int.abs_lt_one_iff.mp h3
  omega

theorem roundEven_mono {q r : ℚ} (h : q ≤ r) : roundEven q ≤ roundEven r := by
  rcases lt_or_eq_of_le (Int.floor_mono h) with hlt | heq
  · have h1 := (roundEven_bounds q).2
    have h2 := (roundEven_bounds r).1
    omega
  · unfold roundEven
    rw [← heq]
    split_ifs <;> first | omega | (exfalso; linarith)

theorem roundEven_neg (q : ℚ) : roundEven (-q) = -roundEven q := by
  by_cases hq : (⌊q⌋ : ℚ) = q
  · rw [← hq, ← Int.cast_neg, roundEven_intCast, roundEven_intCast]
  · have h1 := Int.floor_le q
    have h2 := Int.lt_floor_add_one q
    have h3 : (⌊q⌋ : ℚ) < q := lt_of_le_of_ne h1 hq
    have hf : ⌊-q⌋ = -⌊q⌋ - 1 := by
      rw [Int.floor_eq_iff]
      push_cast
      constructor <;> linarith
    unfold roundEven
    rw [hf]
    push_cast
    split_ifs <;> first | omega | (exfalso; linarith)

theorem f32_zero : f32 0 = 0 := by
  simp [f32, roundEven_intCast, roundEven]

theorem two_zpow_pos (k : Int) : (0 : ℚ) < 2 ^ k := zpow_pos (by norm_num) k

theorem log_two_eq (x : ℚ) (e : Int) (h1 : 2 ^ e ≤ |x|) (h2 : |x| < 2 ^ (e + 1)) :
    Int.log 2 |x| = e := by
  have hpos : 0 < |x| := lt_of_lt_of_le (two_zpow_pos e) h1
  have a : e ≤ Int.log 2 |x| :=
    (Int.zpow_le_iff_le_log (by norm_num) hpos).mp (by exact_mod_cast h1)
  have b : Int.log 2 |x| < e + 1 :=
    (Int.lt_zpow_iff_log_lt (by norm_num) hpos).mp (by exact_mod_cast h2)
  omega

theorem ulpExp_eq (x : ℚ) (e : Int) (he : -126 ≤ e) (h1 : 2 ^ e ≤ |x|)
    (h2 : |x| < 2 ^ (e + 1)) : ulpExp x = e - 23 := by
  unfold ulpExp
  rw [log_two_eq x e h1 h2, max_eq_left he]

theorem f32_grid (x : ℚ) (k m : Int) (hk : ulpExp x = k) (hm : |x - m * 2 ^ k| < 2 ^ k / 2) :
    f32 x = m * 2 ^ k := by
  unfold f32
  rw [hk]
  have hp := two_zpow_pos k
  have : roundEven (x / 2 ^ k) = m := by
    apply roundEven_eq_of_lt
    have e : x / 2 ^ k - m = (x - m * 2 ^ k) / 2 ^ k := by
      field_simp
      ring
    rw [e, abs_div, abs_of_pos hp, div_lt_iff₀ hp]
    linarith
  rw [this]

theorem f32_eq_of_near (x : ℚ) (e m : Int) (he : -126 ≤ e) (h1 : 2 ^ e ≤ |x|)
    (h2 : |x| < 2 ^ (e + 1)) (hm : |x - m * 2 ^ (e - 23)| < 2 ^ (e - 23) / 2) :
    f32 x = m * 2 ^ (e - 23) :=
  f32_grid x (e - 23) m (ulpExp_eq x e he h1 h2) hm

theorem f32_sub_le (x : ℚ) : |f32 x - x| ≤ 2 ^ ulpExp x / 2 := by
  have hp := two_zpow_pos (ulpExp x)
  have h := roundEven_sub_le (x / 2 ^ ulpExp x)
  have e : f32 x - x = ((roundEven (x / 2 ^ ulpExp x) : ℚ) - x / 2 ^ ulpExp x) * 2 ^ ulpExp x := by
    unfold f32
    field_simp
  rw [e, abs_mul, abs_of_pos hp]
  calc |(roundEven (x / 2 ^ ulpExp x) : ℚ) - x / 2 ^ ulpExp x| * 2 ^ ulpExp x
      ≤ 1 / 2 * 2 ^ ulpExp x := mul_le_mul_of_nonneg_right h hp.le
    _ = 2 ^ ulpExp x / 2 := by ring

theorem ulpExp_le (x : ℚ) (e : Int) (hx : x ≠ 0) (he : -126 ≤ e) (h : |x| < 2 ^ (e + 1)) :
    ulpExp x ≤ e - 23 := by
  have hpos : 0 < |x| := abs_pos.mpr hx
  have b : Int.log 2 |x| < e + 1 :=
    (Int.lt_zpow_iff_log_lt (by norm_num) hpos).mp (by exact_mod_cast h)
  unfold ulpExp
  have := max_le (show Int.log 2 |x| ≤ e by omega) he
  omega

theorem f32_sub_le_of_lt (x : ℚ) (e : Int) (he : -126 ≤ e) (h : |x| < 2 ^ (e + 1)) :
    |f32 x - x| ≤ 2 ^ (e - 24) := by
  by_cases hx : x = 0
  · rw [hx, f32_zero]
    simp
    exact (two_zpow_pos _).le
  · have h1 := f32_sub_le x
    have h2 := ulpExp_le x e hx he h
    have h3 : (2 : ℚ) ^ ulpExp x ≤ 2 ^ (e - 23) := zpow_le_zpow_right₀ (by norm_num) h2
    have h4 : (2 : ℚ) ^ (e - 23) = 2 * 2 ^ (e - 24) := by
      rw [show e - 23 = (e - 24) + 1 by ring, zpow_add_one₀ (by norm_num)]
      ring
    linarith

theorem f32_rel (x : ℚ) : |f32 x - x| ≤ 2 ^ (-24 : Int) * |x| + 2 ^ (-150 : Int) := by
  by_cases hx : x = 0
  · rw [hx, f32_zero]
    simp
    positivity
  · have hpos : 0 < |x| := abs_pos.mpr hx
    have h1 := f32_sub_le x
    have h0 : (0 : ℚ) ≤ 2 ^ (-24 : Int) * |x| := by positivity
    have h00 : (0 : ℚ) ≤ 2 ^ (-150 : Int) := by positivity
    rcases le_total (Int.log 2 |x|) (-126) with hl | hl
    · have hk : ulpExp x = -149 := by
        unfold ulpExp
        rw [max_eq_right hl]
        norm_num
      rw [hk] at h1
      have : (2 : ℚ) ^ (-149 : Int) / 2 = 2 ^ (-150 : Int) := by
        rw [show (-149 : Int) = -150 + 1 by norm_num, zpow_add_one₀ (by norm_num)]
        ring
      rw [this] at h1
      exact le_trans h1 (le_add_of_nonneg_left h0)
    · have hk : ulpExp x = Int.log 2 |x| - 23 := by
        unfold ulpExp
        rw [max_eq_left hl]
      have h2 : ((2 : ℕ) : ℚ) ^ Int.log 2 |x| ≤ |x| := Int.zpow_log_le_self (by norm_num) hpos
      rw [hk] at h1
      have h3 : (2 : ℚ) ^ (Int.log 2 |x| - 23) / 2 = 2 ^ (-24 : Int) * 2 ^ Int.log 2 |x| := by
        rw [show Int.log 2 |x| - 23 = Int.log 2 |x| + (-24) + 1 by ring,
          zpow_add_one₀ (by norm_num), zpow_add₀ (by norm_num)]
        ring
      have h4 : (2 : ℚ) ^ (-24 : Int) * 2 ^ Int.log 2 |x| ≤ 2 ^ (-24 : Int) * |x| :=
        mul_le_mul_of_nonneg_left (by exact_mod_cast h2) (by positivity)
      rw [h3] at h1
      exact le_trans (le_trans h1 h4) (le_add_of_nonneg_right h00)

theorem intCast_mul_zpow (n : Int) (j : Int) (hj : 0 ≤ j) :
    ∃ M : Int, (M : ℚ) = n * 2 ^ j := by
  refine ⟨n * 2 ^ j.toNat, ?_⟩
  push_cast
  congr 1
  rw [← zpow_natCast]
  congr 1
  omega

theorem f32_of_grid (x : ℚ) (n j : Int) (hx : x = n * 2 ^ j) (hj : ulpExp x ≤ j) :
    f32 x = x := by
  obtain ⟨M, hM⟩ := intCast_mul_zpow n (j - ulpExp x) (by omega)
  have hp := two_zpow_pos (ulpExp x)
  have e : x / 2 ^ ulpExp x = M := by
    rw [hM, zpow_sub₀ (by norm_num), hx]
    field_simp
  unfold f32
  rw [e, roundEven_intCast, ← e]
  field_simp

theorem f32_intCast (n : Int) (h : |n| < 2 ^ 24) : f32 n = n := by
  by_cases hn : n = 0
  · rw [hn]
    exact_mod_cast f32_zero
  · apply f32_of_grid (n : ℚ) n 0 (by simp)
    have hq : |(n : ℚ)| < 2 ^ ((23 : Int) + 1) := by
      have : |(n : ℚ)| < 2 ^ 24 := by exact_mod_cast h
      exact_mod_cast this
    have := ulpExp_le (n : ℚ) 23 (by exact_mod_cast hn) (by norm_num) hq
    omega

theorem f32_floor_ceil (x : ℚ) (h : |x| < 2 ^ 24) : (⌊x⌋ : ℚ) ≤ f32 x ∧ f32 x ≤ ⌈x⌉ := by
  by_cases hx : x = 0
  · rw [hx, f32_zero]
    simp
  · have hq : |x| < 2 ^ ((23 : Int) + 1) := by exact_mod_cast h
    have hk := ulpExp_le x 23 hx (by norm_num) hq
    have hp := two_zpow_pos (ulpExp x)
    obtain ⟨M, hM⟩ := intCast_mul_zpow ⌊x⌋ (-ulpExp x) (by omega)
    obtain ⟨N, hN⟩ := intCast_mul_zpow ⌈x⌉ (-ulpExp x) (by omega)
    rw [zpow_neg] at hM hN
    have hM' : (M : ℚ) ≤ x / 2 ^ ulpExp x := by
      rw [hM, div_eq_mul_inv]
      exact mul_le_mul_of_nonneg_right (Int.floor_le x) (inv_nonneg.mpr hp.le)
    have hN' : x / 2 ^ ulpExp x ≤ (N : ℚ) := by
      rw [hN, div_eq_mul_inv]
      exact mul_le_mul_of_nonneg_right (Int.le_ceil x) (inv_nonneg.mpr hp.le)
    have a := roundEven_mono hM'
    have b := roundEven_mono hN'
    rw [roundEven_intCast] at a b
    have a' : (M : ℚ) ≤ roundEven (x / 2 ^ ulpExp x) := by exact_mod_cast a
    have b' : (roundEven (x / 2 ^ ulpExp x) : ℚ) ≤ N := by exact_mod_cast b
    unfold f32
    constructor
    · calc (⌊x⌋ : ℚ) = M * 2 ^ ulpExp x := by rw [hM]; field_simp
        _ ≤ roundEven (x / 2 ^ ulpExp x) * 2 ^ ulpExp x :=
          mul_le_mul_of_nonneg_right a' hp.le
    · calc (roundEven (x / 2 ^ ulpExp x) : ℚ) * 2 ^ ulpExp x ≤ N * 2 ^ ulpExp x :=
          mul_le_mul_of_nonneg_right b' hp.le
        _ = ⌈x⌉ := by rw [hN]; field_simp

theorem abs_lt_zpow_ulpExp (x : ℚ) : |x| < 2 ^ (ulpExp x + 24) := by
  have h : |x| < ((2 : ℕ) : ℚ) ^ (Int.log 2 |x| + 1) := Int.lt_zpow_succ_log_self (by norm_num) _
  have h' : |x| < (2 : ℚ) ^ (Int.log 2 |x| + 1) := by exact_mod_cast h
  refine lt_of_lt_of_le h' (zpow_le_zpow_right₀ (by norm_num) ?_)
  unfold ulpExp
  have := le_max_left (Int.log 2 |x|) (-126)
  omega

theorem zpow_ulpExp_le_abs (x : ℚ) (hx : x ≠ 0) (h : -149 < ulpExp x) :
    2 ^ (ulpExp x + 23) ≤ |x| := by
  have hpos : 0 < |x| := abs_pos.mpr hx
  have h2 : ((2 : ℕ) : ℚ) ^ Int.log 2 |x| ≤ |x| := Int.zpow_log_le_self (by norm_num) hpos
  have hk : ulpExp x + 23 = Int.log 2 |x| := by
    unfold ulpExp at h ⊢
    rcases le_total (Int.log 2 |x|) (-126) with hl | hl
    · rw [max_eq_right hl] at h
      omega
    · rw [max_eq_left hl]
      ring
  rw [hk]
  exact_mod_cast h2

theorem ulpExp_mono (x y : ℚ) (hx : x ≠ 0) (h : |x| ≤ |y|) : ulpExp x ≤ ulpExp y := by
  have hl : Int.log 2 |x| ≤ Int.log 2 |y| := Int.log_mono_right (abs_pos.mpr hx) h
  unfold ulpExp
  have := max_le_max hl (le_refl (-126 : Int))
  omega

theorem roundGrid_mono (k : Int) {x y : ℚ} (h : x ≤ y) :
    (roundEven (x / 2 ^ k) : ℚ) * 2 ^ k ≤ roundEven (y / 2 ^ k) * 2 ^ k := by
  have hp := two_zpow_pos k
  have h1 : x / 2 ^ k ≤ y / 2 ^ k := div_le_div_of_nonneg_right h hp.le
  have h2 := roundEven_mono h1
  exact mul_le_mul_of_nonneg_right (by exact_mod_cast h2) hp.le

theorem roundGrid_zpow (k j : Int) (h : k ≤ j) :
    (roundEven ((2 : ℚ) ^ j / 2 ^ k) : ℚ) * 2 ^ k = 2 ^ j := by
  obtain ⟨M, hM⟩ := intCast_mul_zpow 1 (j - k) (by omega)
  have hp := two_zpow_pos k
  have e : (2 : ℚ) ^ j / 2 ^ k = M := by
    rw [hM, zpow_sub₀ (by norm_num)]
    simp
  rw [e, roundEven_intCast, ← e]
  field_simp

theorem f32_nonneg {x : ℚ} (h : 0 ≤ x) : 0 ≤ f32 x := by
  have hp := two_zpow_pos (ulpExp x)
  have h1 : (0 : ℚ) ≤ x / 2 ^ ulpExp x := div_nonneg h hp.le
  have h2 := roundEven_mono h1
  have h3 : roundEven ((0 : Int) : ℚ) = 0 := roundEven_intCast 0
  rw [Int.cast_zero] at h3
  rw [h3] at h2
  unfold f32
  exact mul_nonneg (by exact_mod_cast h2) hp.le

theorem f32_neg (x : ℚ) : f32 (-x) = -f32 x := by
  have hk : ulpExp (-x) = ulpExp x := by
    unfold ulpExp
    rw [abs_neg]
  unfold f32
  rw [hk, neg_div, roundEven_neg]
  push_cast
  ring

theorem f32_mono_of_pos {x y : ℚ} (hx : 0 < x) (h : x ≤ y) : f32 x ≤ f32 y := by
  have hy : 0 < y := lt_of_lt_of_le hx h
  have hxy : |x| ≤ |y| := by rw [abs_of_pos hx, abs_of_pos hy]; exact h
  rcases lt_or_eq_of_le (ulpExp_mono x y hx.ne' hxy) with hlt | heq
  · have hy149 : -149 < ulpExp y := by
      have : -149 ≤ ulpExp x := by
        unfold ulpExp
        have := le_max_right (Int.log 2 |x|) (-126)
        omega
      omega
    have h1 := zpow_ulpExp_le_abs y hy.ne' hy149
    rw [abs_of_pos hy] at h1
    have h2 := abs_lt_zpow_ulpExp x
    rw [abs_of_pos hx] at h2
    have a : f32 x ≤ 2 ^ (ulpExp x + 24) := by
      have := roundGrid_mono (ulpExp x) h2.le
      rw [roundGrid_zpow (ulpExp x) (ulpExp x + 24) (by omega)] at this
      exact this
    have b : (2 : ℚ) ^ (ulpExp y + 23) ≤ f32 y := by
      have := roundGrid_mono (ulpExp y) h1
      rw [roundGrid_zpow (ulpExp y) (ulpExp y + 23) (by omega)] at this
      exact this
    have c : (2 : ℚ) ^ (ulpExp x + 24) ≤ 2 ^ (ulpExp y + 23) :=
      zpow_le_zpow_right₀ (by norm_num) (by omega)
    exact le_trans a (le_trans c b)
  · unfold f32
    rw [heq]
    exact roundGrid_mono (ulpExp y) h

theorem f32_mono {x y : ℚ} (h : x ≤ y) : f32 x ≤ f32 y := by
  rcases lt_trichotomy 0 x with hx | hx | hx
  · exact f32_mono_of_pos hx h
  · rw [← hx, f32_zero]
    exact f32_nonneg (by rw [hx]; exact h)
  · rcases le_or_lt 0 y with hy | hy
    · have h1 : f32 x ≤ 0 := by
        have := f32_nonneg (show 0 ≤ -x by linarith)
        rw [f32_neg] at this
        linarith
      exact le_trans h1 (f32_nonneg hy)
    · have := f32_mono_of_pos (show 0 < -y by linarith) (show -y ≤ -x by linarith)
      rw [f32_neg, f32_neg] at this
      linarith

theorem f32_eval (x : ℚ) (e m : Int) (he : -126 ≤ e) (hx : 0 < x) (h1 : 2 ^ e ≤ x)
    (h2 : x < 2 ^ (e + 1)) (hlo : (2 * (m : ℚ) - 1) * 2 ^ (e - 23) < 2 * x)
    (hhi : 2 * x < (2 * (m : ℚ) + 1) * 2 ^ (e - 23)) : f32 x = m * 2 ^ (e - 23) := by
  apply f32_eq_of_near x e m he
  · rw [abs_of_pos hx]; exact h1
  · rw [abs_of_pos hx]; exact h2
  · rw [abs_lt]
    constructor <;> linarith

theorem f32_eval_neg (x : ℚ) (e m : Int) (he : -126 ≤ e) (hx : x < 0) (h1 : 2 ^ e ≤ -x)
    (h2 : -x < 2 ^ (e + 1)) (hlo : (2 * (m : ℚ) - 1) * 2 ^ (e - 23) < 2 * -x)
    (hhi : 2 * -x < (2 * (m : ℚ) + 1) * 2 ^ (e - 23)) : f32 x = -(m * 2 ^ (e - 23)) := by
  have h := f32_eval (-x) e m he (by linarith) h1 h2 hlo hhi
  rw [f32_neg] at h
  linarith

theorem wrap32_of_inInt32 (n : Int) (h : inInt32 n) : wrap32 n = n := by
  unfold inInt32 at h
  unfold wrap32
  norm_num at h ⊢
  omega

theorem wrap32_of_abs_lt (n : Int) (h : |n| < 2 ^ 24) : wrap32 n = n := by
  apply wrap32_of_inInt32
  unfold inInt32
  have := abs_lt.mp h
  norm_num at this ⊢
  omega

theorem floatToInt_f32_bounds (x : ℚ) (h : |x| < 2 ^ 24) :
    ⌊x⌋ ≤ floatToInt (f32 x) ∧ floatToInt (f32 x) ≤ ⌈x⌉ := by
  obtain ⟨h1, h2⟩ := f32_floor_ceil x h
  have a : ⌊x⌋ ≤ ⌊f32 x⌋ := Int.le_floor.mpr h1
  have b : ⌈f32 x⌉ ≤ ⌈x⌉ := Int.ceil_le.mpr h2
  have c : ⌊f32 x⌋ ≤ ⌈f32 x⌉ := Int.floor_le_ceil _
  unfold floatToInt
  split <;> constructor <;> omega

theorem floatToInt_f32_eq (x : ℚ) (n e : Int) (he : -126 ≤ e) (hn : 0 ≤ n) (h1 : (n : ℚ) ≤ x)
    (h2 : |x| < 2 ^ (e + 1)) (h24 : |x| < 2 ^ 24) (h3 : x + 2 ^ (e - 24) < n + 1) :
    floatToInt (f32 x) = n := by
  have hb := f32_sub_le_of_lt x e he h2
  rw [abs_le] at hb
  obtain ⟨hf, _⟩ := f32_floor_ceil x h24
  have hx : (n : ℚ) ≤ f32 x := le_trans (by exact_mod_cast Int.le_floor.mpr h1) hf
  have h0 : (0 : ℚ) ≤ f32 x := le_trans (by exact_mod_cast hn) hx
  rw [floatToInt, if_pos h0, Int.floor_eq_iff]
  constructor
  · exact hx
  · linarith

theorem floatToInt_f32_pair_sum (s : Int) (q : ℚ) (h : |(s : ℚ)| + |q| < 2 ^ 24) :
    |floatToInt (f32 ((s : ℚ) - q)) + floatToInt (f32 ((s : ℚ) + q)) - 2 * s| ≤ 1 := by
  have ha : |(s : ℚ) - q| < 2 ^ 24 := lt_of_le_of_lt (abs_sub _ _) h
  have hb : |(s : ℚ) + q| < 2 ^ 24 := lt_of_le_of_lt (abs_add _ _) h
  obtain ⟨a1, a2⟩ := floatToInt_f32_bounds _ ha
  obtain ⟨b1, b2⟩ := floatToInt_f32_bounds _ hb
  have f1 := Int.lt_floor_add_one ((s : ℚ) - q)
  have f2 := Int.lt_floor_add_one ((s : ℚ) + q)
  have c1 := Int.ceil_lt_add_one ((s : ℚ) - q)
  have c2 := Int.ceil_lt_add_one ((s : ℚ) + q)
  have lo : (2 * s - 2 : ℚ) < ((⌊(s : ℚ) - q⌋ + ⌊(s : ℚ) + q⌋ : Int) : ℚ) := by
    push_cast
    linarith
  have hi : ((⌈(s : ℚ) - q⌉ + ⌈(s : ℚ) + q⌉ : Int) : ℚ) < 2 * s + 2 := by
    push_cast
    linarith
  have lo' : 2 * s - 2 < ⌊(s : ℚ) - q⌋ + ⌊(s : ℚ) + q⌋ := by exact_mod_cast lo
  have hi' : ⌈(s : ℚ) - q⌉ + ⌈(s : ℚ) + q⌉ < 2 * s + 2 := by exact_mod_cast hi
  rw [abs_le]
  constructor <;> omega

theorem floatToInt_f32_pair_diff (s : Int) (q : ℚ) (h : |(s : ℚ)| + |q| < 2 ^ 24) :
    |((floatToInt (f32 ((s : ℚ) + q)) - floatToInt (f32 ((s : ℚ) - q)) : Int) : ℚ) - 2 * q|
      < 2 := by
  have ha : |(s : ℚ) - q| < 2 ^ 24 := lt_of_le_of_lt (abs_sub _ _) h
  have hb : |(s : ℚ) + q| < 2 ^ 24 := lt_of_le_of_lt (abs_add _ _) h
  obtain ⟨a1, a2⟩ := floatToInt_f32_bounds _ ha
  obtain ⟨b1, b2⟩ := floatToInt_f32_bounds _ hb
  have f1 := Int.lt_floor_add_one ((s : ℚ) - q)
  have f2 := Int.lt_floor_add_one ((s : ℚ) + q)
  have c1 := Int.ceil_lt_add_one ((s : ℚ) - q)
  have c2 := Int.ceil_lt_add_one ((s : ℚ) + q)
  have a1' : (⌊(s : ℚ) - q⌋ : ℚ) ≤ floatToInt (f32 ((s : ℚ) - q)) := by exact_mod_cast a1
  have a2' : (floatToInt (f32 ((s : ℚ) - q)) : ℚ) ≤ ⌈(s : ℚ) - q⌉ := by exact_mod_cast a2
  have b1' : (⌊(s : ℚ) + q⌋ : ℚ) ≤ floatToInt (f32 ((s : ℚ) + q)) := by exact_mod_cast b1
  have b2' : (floatToInt (f32 ((s : ℚ) + q)) : ℚ) ≤ ⌈(s : ℚ) + q⌉ := by exact_mod_cast b2
  rw [abs_lt]
  push_cast
  constructor <;> linarith

theorem f32_tenth : f32 (1 / 10) = 13421773 / 134217728 :=
  (f32_eval _ (-4) 13421773 (by norm_num) (by norm_num) (by norm_num) (by norm_num)
    (by norm_num) (by norm_num)).trans (by norm_num)

theorem f32_fifth : f32 (1 / 5) = 13421773 / 67108864 :=
  (f32_eval _ (-3) 13421773 (by norm_num) (by norm_num) (by norm_num) (by norm_num)
    (by norm_num) (by norm_num)).trans (by norm_num)

theorem f32_four_fifths : f32 (4 / 5) = 13421773 / 16777216 :=
  (f32_eval _ (-1) 13421773 (by norm_num) (by norm_num) (by norm_num) (by norm_num)
    (by norm_num) (by norm_num)).trans (by norm_num)

theorem roundEven_tie_even (m : Int) (h : m % 2 = 0) : roundEven ((m : ℚ) + 1 / 2) = m := by
  have hf : ⌊(m : ℚ) + 1 / 2⌋ = m := by
    rw [Int.floor_eq_iff]
    constructor <;> norm_num
  unfold roundEven
  rw [hf]
  norm_num [h]

theorem f32_eval_tie (x : ℚ) (e m : Int) (he : -126 ≤ e) (hx : 0 < x) (h1 : 2 ^ e ≤ x)
    (h2 : x < 2 ^ (e + 1)) (hm : 2 * x = (2 * (m : ℚ) + 1) * 2 ^ (e - 23))
    (hev : m % 2 = 0) : f32 x = m * 2 ^ (e - 23) := by
  have hk := ulpExp_eq x e he (by rw [abs_of_pos hx]; exact h1) (by rw [abs_of_pos hx]; exact h2)
  have hp := two_zpow_pos (e - 23)
  have hq : x / 2 ^ (e - 23) = (m : ℚ) + 1 / 2 := by
    rw [div_eq_iff (ne_of_gt hp)]
    linarith
  unfold f32
  rw [hk, hq, roundEven_tie_even m hev]

namespace Tracer

namespace Machine

/-! ## The PD law in binary32 -/

theorem Kp_eq : Kp = 13421773 / 16777216 :=
  (f32_eval _ (-1) 13421773 (by norm_num) (by norm_num) (by norm_num) (by norm_num)
    (by norm_num) (by norm_num)).trans (by norm_num)

theorem Kd_eq : Kd = 13421773 / 67108864 :=
  (f32_eval _ (-3) 13421773 (by norm_num) (by norm_num) (by norm_num) (by norm_num)
    (by norm_num) (by norm_num)).trans (by norm_num)

theorem calcPropValue_fst (t : Tracer) (e : Int) (he : |e| < 2 ^ 24)
    (hd : |e - t.mPreviousError| < 2 ^ 24) :
    (calcPropValue t e).1
      = f32 (f32 (f32 (Kp * e) + f32 (Kd * ((e - t.mPreviousError : Int) : ℚ))) + 0) := by
  simp only [calcPropValue, bias, Int.cast_zero, f32_zero]
  rw [wrap32_of_abs_lt _ hd, f32_intCast e he, f32_intCast (e - t.mPreviousError) hd]

theorem pd_round_error (e k : Int) :
    |f32 (f32 (f32 (Kp * e) + f32 (Kd * k)) + 0) - (4 / 5 * e + 1 / 5 * k)|
      ≤ 2 ^ (-22 : Int) * (4 / 5 * |(e : ℚ)| + 1 / 5 * |(k : ℚ)|) := by
  have hu : (2 : ℚ) ^ (-24 : Int) = 1 / 16777216 := by norm_num
  have hv : (2 : ℚ) ^ (-22 : Int) = 1 / 4194304 := by norm_num
  have hη0 : (0 : ℚ) ≤ 2 ^ (-150 : Int) := by positivity
  have hη1 : (2 : ℚ) ^ (-150 : Int) ≤ 1 / 10 ^ 40 := by norm_num
  rw [add_zero, hv, Kp_eq, Kd_eq]
  by_cases h0 : e = 0 ∧ k = 0
  · obtain ⟨he, hk⟩ := h0
    simp [he, hk, f32_zero]
  · have hAB : (1 : ℚ) ≤ |(e : ℚ)| + |(k : ℚ)| := by
      have : 1 ≤ |e| + |k| := by
        rcases not_and_or.mp h0 with h | h
        · have := Int.one_le_abs h
          have := abs_nonneg k
          omega
        · have := Int.one_le_abs h
          have := abs_nonneg e
          omega
      exact_mod_cast this
    have hA := abs_nonneg (e : ℚ)
    have hB := abs_nonneg (k : ℚ)
    generalize hη : (2 : ℚ) ^ (-150 : Int) = η at hη0 hη1
    have hx1 : |(13421773 / 16777216 : ℚ) * e| = 13421773 / 16777216 * |(e : ℚ)| := by
      rw [abs_mul, abs_of_pos (by norm_num : (0 : ℚ) < 13421773 / 16777216)]
    have hx2 : |(13421773 / 67108864 : ℚ) * k| = 13421773 / 67108864 * |(k : ℚ)| := by
      rw [abs_mul, abs_of_pos (by norm_num : (0 : ℚ) < 13421773 / 67108864)]
    have ha : |(13421773 / 16777216 : ℚ) * e - 4 / 5 * e| = 1 / 83886080 * |(e : ℚ)| := by
      rw [show (13421773 / 16777216 : ℚ) * e - 4 / 5 * e = 1 / 83886080 * e by ring, abs_mul,
        abs_of_pos (by norm_num : (0 : ℚ) < 1 / 83886080)]
    have hb : |(13421773 / 67108864 : ℚ) * k - 1 / 5 * k| = 1 / 335544320 * |(k : ℚ)| := by
      rw [show (13421773 / 67108864 : ℚ) * k - 1 / 5 * k = 1 / 335544320 * k by ring, abs_mul,
        abs_of_pos (by norm_num : (0 : ℚ) < 1 / 335544320)]
    have hp := f32_rel ((13421773 / 16777216 : ℚ) * e)
    have hd := f32_rel ((13421773 / 67108864 : ℚ) * k)
    have hs := f32_rel (f32 ((13421773 / 16777216 : ℚ) * e) + f32 ((13421773 / 67108864 : ℚ) * k))
    have ht := f32_rel (f32 (f32 ((13421773 / 16777216 : ℚ) * e)
      + f32 ((13421773 / 67108864 : ℚ) * k)))
    rw [hu, hη] at hp hd hs ht
    rw [hx1] at hp
    rw [hx2] at hd
    generalize f32 ((13421773 / 16777216 : ℚ) * e) = p at hp hs ht ⊢
    generalize f32 ((13421773 / 67108864 : ℚ) * k) = d at hd hs ht ⊢
    generalize f32 (p + d) = s at hs ht ⊢
    generalize f32 s = r at ht ⊢
    have t1 : |p + d| ≤ |p| + |d| := abs_add p d
    have t2 : |p| ≤ |(13421773 / 16777216 : ℚ) * e| + |p - 13421773 / 16777216 * e| := by
      have := abs_add (13421773 / 16777216 * (e : ℚ)) (p - 13421773 / 16777216 * e)
      rwa [add_sub_cancel] at this
    have t3 : |d| ≤ |(13421773 / 67108864 : ℚ) * k| + |d - 13421773 / 67108864 * k| := by
      have := abs_add (13421773 / 67108864 * (k : ℚ)) (d - 13421773 / 67108864 * k)
      rwa [add_sub_cancel] at this
    have t4 : |s| ≤ |p + d| + |s - (p + d)| := by
      have := abs_add (p + d) (s - (p + d))
      rwa [add_sub_cancel] at this
    rw [hx1] at t2
    rw [hx2] at t3
    have e1 : r - (4 / 5 * (e : ℚ) + 1 / 5 * k)
        = (r - s) + (s - (p + d)) + (p - 13421773 / 16777216 * e)
          + (d - 13421773 / 67108864 * k) + (13421773 / 16777216 * e - 4 / 5 * e)
          + (13421773 / 67108864 * k - 1 / 5 * k) := by ring
    have t5 : |r - (4 / 5 * (e : ℚ) + 1 / 5 * k)|
        ≤ |r - s| + |s - (p + d)| + |p - 13421773 / 16777216 * e|
          + |d - 13421773 / 67108864 * k| + |(13421773 / 16777216 : ℚ) * e - 4 / 5 * e|
          + |(13421773 / 67108864 : ℚ) * k - 1 / 5 * k| := by
      rw [e1]
      exact le_trans (abs_add _ _) (add_le_add_right (le_trans (abs_add _ _)
        (add_le_add_right (le_trans (abs_add _ _) (add_le_add_right (le_trans (abs_add _ _)
          (add_le_add_right (abs_add _ _) _)) _)) _)) _)
    rw [ha, hb] at t5
    linarith

theorem feed_head_rounded (t : Tracer) (es : List Int) (e0 : Int) (h : es[0]? = some e0) :
    (feed t es)[0]? = some (calcPropValue t e0) := by
  cases es with
  | nil => simp at h
  | cons e rest =>
    simp at h
    simp [feed, h]

theorem feed_succ_rounded (es : List Int) : ∀ (t : Tracer) (i : Nat) (e' e : Int),
    es[i]? = some e' → es[i + 1]? = some e →
    ∃ s : Tracer, s.mPreviousError = e' ∧ (feed t es)[i + 1]? = some (calcPropValue s e) := by
  induction es with
  | nil => intro t i e' e h; simp at h
  | cons a rest ih =>
    intro t i e' e h h1
    cases i with
    | zero =>
      simp at h h1
      refine ⟨(calcPropValue t a).2, ?_, ?_⟩
      · simp [calcPropValue, h]
      · simp only [feed, List.getElem?_cons_succ]
        exact feed_head_rounded _ _ _ h1
    | succ j =>
      simp only [List.getElem?_cons_succ] at h h1
      obtain ⟨s, hs, hf⟩ := ih (calcPropValue t a).2 j e' e h h1
      exact ⟨s, hs, by simpa [feed] using hf⟩

theorem feed_prev_rounded (es : List Int) : ∀ (t : Tracer) (i : Nat) (e : Int),
    es[i]? = some e → ((feed t es)[i]?).map (fun r => r.2.mPreviousError) = some e := by
  induction es with
  | nil => intro t i e h; simp at h
  | cons a rest ih =>
    intro t i e h
    cases i with
    | zero => simp at h; simp [feed, calcPropValue, h]
    | succ j =>
      simp only [List.getElem?_cons_succ] at h
      simpa [feed] using ih (calcPropValue t a).2 j e h

theorem calcPropValue_13 : (calcPropValue constructed 13).1 = 13631489 / 1048576 := by
  rw [calcPropValue_fst constructed 13 (by decide) (by decide), Kp_eq, Kd_eq]
  have h1 : f32 ((13421773 / 16777216 : ℚ) * ((13 : Int) : ℚ)) = 10905191 / 1048576 :=
    (f32_eval _ (3) 10905191 (by norm_num) (by norm_num) (by norm_num) (by norm_num)
      (by norm_num) (by norm_num)).trans (by norm_num)
  have h2 : f32 ((13421773 / 67108864 : ℚ) * ((13 - constructed.mPreviousError : Int) : ℚ))
      = 10905191 / 4194304 :=
    (f32_eval _ (1) 10905191 (by norm_num [constructed]) (by norm_num [constructed])
      (by norm_num [constructed]) (by norm_num [constructed]) (by norm_num [constructed])
      (by norm_num [constructed])).trans (by norm_num)
  have h3 : f32 ((10905191 / 1048576 : ℚ) + 10905191 / 4194304) = 13631489 / 1048576 :=
    (f32_eval _ (3) 13631489 (by norm_num) (by norm_num) (by norm_num) (by norm_num)
      (by norm_num) (by norm_num)).trans (by norm_num)
  have h4 : f32 ((13631489 / 1048576 : ℚ) + 0) = 13631489 / 1048576 :=
    (f32_eval _ (3) 13631489 (by norm_num) (by norm_num) (by norm_num) (by norm_num)
      (by norm_num) (by norm_num)).trans (by norm_num)
  rw [h1, h2, h3, h4]

theorem calcPropValue_75 : (calcPropValue constructed 75).1 = 75 := by
  rw [calcPropValue_fst constructed 75 (by decide) (by decide), Kp_eq, Kd_eq]
  have h1 : f32 ((13421773 / 16777216 : ℚ) * ((75 : Int) : ℚ)) = 60 :=
    (f32_eval _ (5) 15728640 (by norm_num) (by norm_num) (by norm_num) (by norm_num)
      (by norm_num) (by norm_num)).trans (by norm_num)
  have h2 : f32 ((13421773 / 67108864 : ℚ) * ((75 - constructed.mPreviousError : Int) : ℚ))
      = 15 :=
    (f32_eval _ (3) 15728640 (by norm_num [constructed]) (by norm_num [constructed])
      (by norm_num [constructed]) (by norm_num [constructed]) (by norm_num [constructed])
      (by norm_num [constructed])).trans (by norm_num)
  have h3 : f32 ((60 : ℚ) + 15) = 75 :=
    (f32_eval _ (6) 9830400 (by norm_num) (by norm_num) (by norm_num) (by norm_num)
      (by norm_num) (by norm_num)).trans (by norm_num)
  have h4 : f32 ((75 : ℚ) + 0) = 75 :=
    (f32_eval _ (6) 9830400 (by norm_num) (by norm_num) (by norm_num) (by norm_num)
      (by norm_num) (by norm_num)).trans (by norm_num)
  rw [h1, h2, h3, h4]

theorem calcPropValue_after_75 (t : Tracer) (h : t.mPreviousError = 75) :
    (calcPropValue t (-9)).1 = -(12582913 / 524288) := by
  rw [calcPropValue_fst t (-9) (by decide) (by rw [h]; decide), Kp_eq, Kd_eq, h]
  have h1 : f32 ((13421773 / 16777216 : ℚ) * ((-9 : Int) : ℚ)) = -(15099495 / 2097152) :=
    (f32_eval_neg _ (2) 15099495 (by norm_num) (by norm_num) (by norm_num) (by norm_num)
      (by norm_num) (by norm_num)).trans (by norm_num)
  have h2 : f32 ((13421773 / 67108864 : ℚ) * ((-9 - 75 : Int) : ℚ)) = -(8808039 / 524288) :=
    (f32_eval_neg _ (4) 8808039 (by norm_num) (by norm_num) (by norm_num) (by norm_num)
      (by norm_num) (by norm_num)).trans (by norm_num)
  have h3 : f32 (-(15099495 / 2097152 : ℚ) + -(8808039 / 524288)) = -(12582913 / 524288) :=
    (f32_eval_neg _ (4) 12582913 (by norm_num) (by norm_num) (by norm_num) (by norm_num)
      (by norm_num) (by norm_num)).trans (by norm_num)
  have h4 : f32 (-(12582913 / 524288 : ℚ) + 0) = -(12582913 / 524288) :=
    (f32_eval_neg _ (4) 12582913 (by norm_num) (by norm_num) (by norm_num) (by norm_num)
      (by norm_num) (by norm_num)).trans (by norm_num)
  rw [h1, h2, h3, h4]

/-- C1, as stated, fails: the `float` operations of `calcPropValue` round.  From
`mPreviousError = 0` the error 13 returns `13631489 / 1048576` (13.00000095),
not `0.8*13 + 0.2*13 = 13`; and the errors 75, -9 return 75 and then
`-12582913 / 524288` (-24.0000019), not `0.8*(-9) + 0.2*(-9 - 75) = -24`. -/
theorem calcPropValue_not_exact :
    constructed.mPreviousError = 0 ∧
    (feed constructed [13]).map Prod.fst = [13631489 / 1048576] ∧
    (13631489 / 1048576 : ℚ) ≠ 4 / 5 * 13 + 1 / 5 * 13 + 0 ∧
    (feed constructed [75, -9]).map Prod.fst = [75, -(12582913 / 524288)] ∧
    (-(12582913 / 524288) : ℚ) ≠ 4 / 5 * (-9) + 1 / 5 * (-9 - 75) + 0 := by
  refine ⟨rfl, ?_, by norm_num, ?_, by norm_num⟩
  · simp only [feed, List.map, calcPropValue_13]
  · simp only [feed, List.map, calcPropValue_75,
      calcPropValue_after_75 (calcPropValue constructed 75).2 rfl]

/-- C1, amended. Fed one error per call from `mPreviousError = 0`, errors below
`2 ^ 23` in size, `calcPropValue` returns the `float` value of
`Kp*e_i + Kd*(e_i - e_(i-1)) + bias` (of `Kp*e_0 + Kd*e_0 + bias` on the first
call), each product and each sum rounded to binary32, with `Kp` and `Kd` the
binary32 numbers nearest to 0.8 and 0.2 and `bias = 0`; the value is within
`2^-22 * (0.8*|e_i| + 0.2*|e_i - e_(i-1)|)` of the exact one.  After each call
`mPreviousError` is the error just passed. -/
theorem calcPropValue_rounded (t : Tracer) (h0 : t.mPreviousError = 0) (es : List Int)
    (hes : ∀ e ∈ es, |e| < 2 ^ 23) :
    (Kp = 13421773 / 16777216 ∧ Kd = 13421773 / 67108864 ∧ bias = 0) ∧
    (∀ e0 : Int, es[0]? = some e0 →
      ((feed t es)[0]?).map Prod.fst
        = some (f32 (f32 (f32 (Kp * e0) + f32 (Kd * e0)) + bias)) ∧
      |f32 (f32 (f32 (Kp * e0) + f32 (Kd * e0)) + bias) - (4 / 5 * e0 + 1 / 5 * e0 + bias)|
        ≤ 2 ^ (-22 : Int) * (4 / 5 * |(e0 : ℚ)| + 1 / 5 * |(e0 : ℚ)|)) ∧
    (∀ (i : Nat) (e' e : Int), es[i]? = some e' → es[i + 1]? = some e →
      ((feed t es)[i + 1]?).map Prod.fst
        = some (f32 (f32 (f32 (Kp * e) + f32 (Kd * (e - e'))) + bias)) ∧
      |f32 (f32 (f32 (Kp * e) + f32 (Kd * (e - e'))) + bias)
          - (4 / 5 * e + 1 / 5 * (e - e') + bias)|
        ≤ 2 ^ (-22 : Int) * (4 / 5 * |(e : ℚ)| + 1 / 5 * |(e : ℚ) - e'|)) ∧
    (∀ (i : Nat) (e : Int), es[i]? = some e →
      ((feed t es)[i]?).map (fun r => r.2.mPreviousError) = some e) := by
  have hmem : ∀ (i : Nat) (e : Int), es[i]? = some e → |e| < 2 ^ 23 := by
    intro i e h
    exact hes e (List.mem_iff_getElem?.mpr ⟨i, h⟩)
  refine ⟨⟨Kp_eq, Kd_eq, rfl⟩, ?_, ?_, ?_⟩
  · intro e0 h
    have he := hmem 0 e0 h
    rw [feed_head_rounded t es e0 h]
    have hf := calcPropValue_fst t e0 (by omega) (by rw [h0]; simpa using (by omega : |e0| < 2 ^ 24))
    have hb := pd_round_error e0 e0
    simp only [Option.map_some', hf, h0, sub_zero, bias, Int.cast_zero, add_zero] at hb ⊢
    exact ⟨trivial, hb⟩
  · intro i e' e h h1
    obtain ⟨s, hs, hf⟩ := feed_succ_rounded es t i e' e h h1
    have he := hmem (i + 1) e h1
    have he' := hmem i e' h
    have hd : |e - e'| < 2 ^ 24 := by
      have := abs_sub e e'
      omega
    have hv := calcPropValue_fst s e (by omega) (by rw [hs]; exact hd)
    have hb := pd_round_error e (e - e')
    rw [hf]
    simp only [Option.map_some', hv, hs, bias, Int.cast_zero, add_zero, Int.cast_sub] at hb ⊢
    exact ⟨trivial, hb⟩
  · intro i e h
    exact feed_prev_rounded es t i e h

/-- Witness of the amended C1 on the errors `[75, -9]` from the constructed
controller: the second call returns the rounded value, within the bound of
`0.8*(-9) + 0.2*(-9 - 75) = -24`, and leaves `mPreviousError = -9`. -/
theorem calcPropValue_rounded_witness :
    constructed.mPreviousError = 0 ∧ (∀ e ∈ [(75 : Int), -9], |e| < 2 ^ 23) ∧
    ((feed constructed [75, -9])[1]?).map Prod.fst
      = some (f32 (f32 (f32 (Kp * (-9 : Int)) + f32 (Kd * ((-9 : Int) - (75 : Int)))) + bias)) ∧
    |f32 (f32 (f32 (Kp * (-9 : Int)) + f32 (Kd * ((-9 : Int) - (75 : Int)))) + bias)
        - (4 / 5 * (-9 : Int) + 1 / 5 * ((-9 : Int) - (75 : Int)) + bias)|
      ≤ 2 ^ (-22 : Int) * (4 / 5 * |((-9 : Int) : ℚ)| + 1 / 5 * |((-9 : Int) : ℚ) - (75 : Int)|) ∧
    ((feed constructed [75, -9])[1]?).map (fun r => r.2.mPreviousError) = some (-9) :=
  have hes : ∀ e ∈ [(75 : Int), -9], |e| < 2 ^ 23 := by decide
  ⟨rfl, hes,
    ((calcPropValue_rounded constructed rfl [75, -9] hes).2.2.1 0 75 (-9) rfl (by simp)).1,
    ((calcPropValue_rounded constructed rfl [75, -9] hes).2.2.1 0 75 (-9) rfl (by simp)).2,
    (calcPropValue_rounded constructed rfl [75, -9] hes).2.2.2 1 (-9) (by simp)⟩

/-! ## Wheel powers on a steady-state tick, in binary32 -/

theorem run_steady_rounded (v : Variant) (hw : Sensors) (fuel : Nat) (t : Tracer)
    (hc : t.mInitialSequenceCompleted = true) (hs : t.mIsStopped = false)
    (hb : (t.mBlueDetectionEnabled && detectBlue hw.rgb) = false)
    (hl : t.mLineTraceEnabled = true) :
    run v hw fuel t = some (lineTrace hw (startOf t)) := by
  simp only [run, startOf_self, hc, hs, hb, hl]
  simp

theorem lineTrace_powers_rounded (hw : Sensors) (t : Tracer) :
    powers (lineTrace hw (startOf t)).log
      = [(Wheel.leftWheel, floatToInt (f32
            (f32 (calcAdaptiveSpeed t (calcPropValue t (wrap32 (hw.reflection 0 - target))).1 : ℚ)
              - (calcPropValue t (wrap32 (hw.reflection 0 - target))).1))),
         (Wheel.rightWheel, floatToInt (f32
            (f32 (calcAdaptiveSpeed t (calcPropValue t (wrap32 (hw.reflection 0 - target))).1 : ℚ)
              + (calcPropValue t (wrap32 (hw.reflection 0 - target))).1)))] := by
  have ht : turnOf hw (startOf t) = (calcPropValue t (wrap32 (hw.reflection 0 - target))).1 := by
    simp [turnOf, calDiffReflection, getReflection, startOf_self, startOf_nReflection,
      calcPropValue]
  simp only [lineTrace, setPowers, emit, powers_append, ht]
  simp [powers, powers_startOf, calDiffReflection, getReflection, startOf_self,
    startOf_nReflection, calcPropValue, calcAdaptiveSpeed]

theorem turn_steadyAfterOne_rounded :
    (calcPropValue steadyAfterOne (wrap32 (reading26.reflection 0 - target))).1
      = 13421773 / 16777216 := by
  have hd : wrap32 (reading26.reflection 0 - target) = 1 := by decide
  rw [hd, calcPropValue_fst _ _ (by decide) (by decide), Kp_eq, Kd_eq]
  have h1 : f32 ((13421773 / 16777216 : ℚ) * ((1 : Int) : ℚ)) = 13421773 / 16777216 :=
    (f32_eval _ (-1) 13421773 (by norm_num) (by norm_num) (by norm_num) (by norm_num)
      (by norm_num) (by norm_num)).trans (by norm_num)
  have h2 : f32 ((13421773 / 67108864 : ℚ)
      * ((1 - steadyAfterOne.mPreviousError : Int) : ℚ)) = 0 := by
    have : ((1 - steadyAfterOne.mPreviousError : Int) : ℚ) = 0 := by
      norm_num [steadyAfterOne, constructed]
    rw [this, mul_zero, f32_zero]
  have h3 : f32 ((13421773 / 16777216 : ℚ) + 0) = 13421773 / 16777216 :=
    (f32_eval _ (-1) 13421773 (by norm_num) (by norm_num) (by norm_num) (by norm_num)
      (by norm_num) (by norm_num)).trans (by norm_num)
  rw [h1, h2, h3, h3]

theorem speed_steadyAfterOne_rounded :
    calcAdaptiveSpeed steadyAfterOne (13421773 / 16777216) = 50 := by
  have h : floatToInt (13421773 / 16777216) = 0 := by
    rw [floatToInt_of_nonneg (by norm_num), Int.floor_eq_iff]
    norm_num
  norm_num [calcAdaptiveSpeed, turnAbs, h, steadyAfterOne, constructed, DEFAULT_BASE_SPEED]

theorem powers_steadyAfterOne_rounded (v : Variant) (fuel : Nat) :
    (run v reading26 fuel steadyAfterOne).map (fun x => powers x.log)
      = some [(Wheel.leftWheel, 49), (Wheel.rightWheel, 50)] := by
  rw [run_steady_rounded v reading26 fuel steadyAfterOne rfl rfl rfl rfl]
  simp only [Option.map_some', lineTrace_powers_rounded, turn_steadyAfterOne_rounded,
    speed_steadyAfterOne_rounded]
  have h50 : f32 ((50 : Int) : ℚ) = (50 : Int) := f32_intCast 50 (by decide)
  have h1 : floatToInt (f32 (((50 : Int) : ℚ) - 13421773 / 16777216)) = 49 :=
    floatToInt_f32_eq _ 49 5 (by norm_num) (by norm_num) (by norm_num)
      (by norm_num [abs_of_pos]) (by norm_num [abs_of_pos]) (by norm_num)
  have h2 : floatToInt (f32 (((50 : Int) : ℚ) + 13421773 / 16777216)) = 50 :=
    floatToInt_f32_eq _ 50 5 (by norm_num) (by norm_num) (by norm_num)
      (by norm_num [abs_of_pos]) (by norm_num [abs_of_pos]) (by norm_num)
  rw [h50, h1, h2]

/-- C4, as stated, fails: in steady state with previous error 1 and reflectance
26 the turn is the `float` 0.8 (`13421773 / 16777216`) and the speed 50, and the
tick commands 49 to the left wheel and 50 to the right one, so left is not
`speed - turn`, `left + right` is not `2*speed` and `right - left` is not
`2*turn`. -/
theorem run_powers_not_sum :
    (calcPropValue steadyAfterOne (wrap32 (reading26.reflection 0 - target))).1
      = 13421773 / 16777216 ∧
    calcAdaptiveSpeed steadyAfterOne (13421773 / 16777216) = 50 ∧
    (run Variant.testForce reading26 0 steadyAfterOne).map (fun x => powers x.log)
      = some [(Wheel.leftWheel, 49), (Wheel.rightWheel, 50)] ∧
    ((49 : Int) : ℚ) ≠ ((50 : Int) : ℚ) - 13421773 / 16777216 ∧
    (49 : Int) + 50 ≠ 2 * 50 ∧
    (((50 : Int) - 49 : Int) : ℚ) ≠ 2 * (13421773 / 16777216) := by
  refine ⟨turn_steadyAfterOne_rounded, speed_steadyAfterOne_rounded,
    powers_steadyAfterOne_rounded _ _, ?_, ?_, ?_⟩
  · norm_num
  · decide
  · norm_num

/-- C4, amended. On every steady-state line-following tick of `run`, with the
speed and the turn below `2 ^ 24` in size, the left wheel gets `speed - turn` and
the right wheel `speed + turn`, each rounded to binary32 and then converted to
`int` (fraction discarded), where `turn` is the PD output of the tick and
`speed = calcAdaptiveSpeed(turn)`.  When `turn` is an integer, the powers are
exactly `speed - turn` and `speed + turn`, so `left + right = 2*speed` and
`right - left = 2*turn`; in general `left + right` is within 1 of `2*speed` and
`right - left` within 2 of `2*turn`. -/
theorem run_powers_rounded (v : Variant) (hw : Sensors) (fuel : Nat) (t : Tracer)
    (hc : t.mInitialSequenceCompleted = true) (hs : t.mIsStopped = false)
    (hb : (t.mBlueDetectionEnabled && detectBlue hw.rgb) = false)
    (hl : t.mLineTraceEnabled = true)
    (turn : ℚ) (speed : Int)
    (hturn : turn = (calcPropValue t (wrap32 (hw.reflection 0 - target))).1)
    (hspeed : speed = calcAdaptiveSpeed t turn)
    (hrange : |(speed : ℚ)| + |turn| < 2 ^ 24) :
    (run v hw fuel t).map (fun x => powers x.log)
      = some [(Wheel.leftWheel, floatToInt (f32 ((speed : ℚ) - turn))),
              (Wheel.rightWheel, floatToInt (f32 ((speed : ℚ) + turn)))] ∧
    (∀ n : Int, turn = n →
      floatToInt (f32 ((speed : ℚ) - turn)) = speed - n ∧
      floatToInt (f32 ((speed : ℚ) + turn)) = speed + n ∧
      floatToInt (f32 ((speed : ℚ) - turn)) + floatToInt (f32 ((speed : ℚ) + turn))
        = 2 * speed ∧
      floatToInt (f32 ((speed : ℚ) + turn)) - floatToInt (f32 ((speed : ℚ) - turn)) = 2 * n) ∧
    |floatToInt (f32 ((speed : ℚ) - turn)) + floatToInt (f32 ((speed : ℚ) + turn)) - 2 * speed|
      ≤ 1 ∧
    |((floatToInt (f32 ((speed : ℚ) + turn)) - floatToInt (f32 ((speed : ℚ) - turn)) : Int) : ℚ)
        - 2 * turn| < 2 := by
  have hsp : |speed| < 2 ^ 24 := by
    have : |(speed : ℚ)| < 2 ^ 24 := lt_of_le_of_lt (le_add_of_nonneg_right (abs_nonneg _)) hrange
    exact_mod_cast this
  refine ⟨?_, ?_, floatToInt_f32_pair_sum speed turn hrange,
    floatToInt_f32_pair_diff speed turn hrange⟩
  · rw [run_steady_rounded v hw fuel t hc hs hb hl]
    simp only [Option.map_some', lineTrace_powers_rounded]
    rw [← hturn, ← hspeed, f32_intCast speed hsp]
  · intro n hn
    have ha : |(speed : ℚ) - n| < 2 ^ 24 := by
      rw [← hn]; exact lt_of_le_of_lt (abs_sub _ _) hrange
    have hb' : |(speed : ℚ) + n| < 2 ^ 24 := by
      rw [← hn]; exact lt_of_le_of_lt (abs_add _ _) hrange
    have h1 : floatToInt (f32 ((speed : ℚ) - turn)) = speed - n := by
      rw [hn]
      have e : ((speed : ℚ) - n) = ((speed - n : Int) : ℚ) := by push_cast; ring
      rw [e] at ha ⊢
      rw [f32_intCast _ (by exact_mod_cast ha), floatToInt_intCast]
    have h2 : floatToInt (f32 ((speed : ℚ) + turn)) = speed + n := by
      rw [hn]
      have e : ((speed : ℚ) + n) = ((speed + n : Int) : ℚ) := by push_cast; ring
      rw [e] at hb' ⊢
      rw [f32_intCast _ (by exact_mod_cast hb'), floatToInt_intCast]
    rw [h1, h2]
    refine ⟨rfl, rfl, by ring, by ring⟩

theorem turn_steadyAfter75 :
    (calcPropValue steadyAfter75 (wrap32 (reading16.reflection 0 - target))).1
      = -(12582913 / 524288) :=
  calcPropValue_after_75 steadyAfter75 rfl

theorem speed_steadyAfter75 :
    calcAdaptiveSpeed steadyAfter75 (-(12582913 / 524288)) = 25 := by
  have h : floatToInt (-(12582913 / 524288)) = -24 := by
    rw [floatToInt_of_neg (by norm_num), Int.ceil_eq_iff]
    norm_num
  norm_num [calcAdaptiveSpeed, turnAbs, h, steadyAfter75, constructed, DEFAULT_BASE_SPEED]
  decide

/-- Witness of the amended C4: the steady-state tick with previous error 75 and
reflectance 16, where the turn is the `float` -24.0000019 and the speed 25: the
tick commands 49 and 0, whose sum is within 1 of 50. -/
theorem run_powers_rounded_witness :
    (calcPropValue steadyAfter75 (wrap32 (reading16.reflection 0 - target))).1
      = -(12582913 / 524288) ∧
    calcAdaptiveSpeed steadyAfter75 (-(12582913 / 524288)) = 25 ∧
    |((25 : Int) : ℚ)| + |(-(12582913 / 524288) : ℚ)| < 2 ^ 24 ∧
    (run Variant.testForce reading16 0 steadyAfter75).map (fun x => powers x.log)
      = some [(Wheel.leftWheel, floatToInt (f32 (((25 : Int) : ℚ) - -(12582913 / 524288)))),
              (Wheel.rightWheel, floatToInt (f32 (((25 : Int) : ℚ) + -(12582913 / 524288))))] ∧
    floatToInt (f32 (((25 : Int) : ℚ) - -(12582913 / 524288))) = 49 ∧
    floatToInt (f32 (((25 : Int) : ℚ) + -(12582913 / 524288))) = 0 ∧
    |floatToInt (f32 (((25 : Int) : ℚ) - -(12582913 / 524288)))
        + floatToInt (f32 (((25 : Int) : ℚ) + -(12582913 / 524288))) - 2 * 25| ≤ 1 :=
  have hr : |((25 : Int) : ℚ)| + |(-(12582913 / 524288) : ℚ)| < 2 ^ 24 := by
    norm_num [abs_of_pos]
  ⟨turn_steadyAfter75, speed_steadyAfter75, hr,
    (run_powers_rounded Variant.testForce reading16 0 steadyAfter75 rfl rfl rfl rfl
      (-(12582913 / 524288)) 25 turn_steadyAfter75.symm speed_steadyAfter75.symm hr).1,
    floatToInt_f32_eq _ 49 5 (by norm_num) (by norm_num) (by norm_num)
      (by norm_num [abs_of_pos]) (by norm_num [abs_of_pos]) (by norm_num),
    floatToInt_f32_eq _ 0 (-1) (by norm_num) (by norm_num) (by norm_num)
      (by norm_num [abs_of_pos]) (by norm_num [abs_of_pos]) (by norm_num),
    (run_powers_rounded Variant.testForce reading16 0 steadyAfter75 rfl rfl rfl rfl
      (-(12582913 / 524288)) 25 turn_steadyAfter75.symm speed_steadyAfter75.symm hr).2.2.1⟩

/-! ## The targets and powers of a curve, in binary32 -/

theorem speedReduction_eq_min_rounded (i : ℚ) :
    speedReduction i
      = min (f32 (4 / 5)) (f32 (f32 (1 / 10) + f32 (f32 i * f32 (1 / 10)))) := by
  unfold speedReduction
  split
  · rename_i h
    rw [min_eq_left (le_of_lt h)]
  · rename_i h
    rw [min_eq_right (not_lt.mp h)]

theorem reducedPower_eq_max_rounded (b : Int) (i : ℚ) :
    reducedPower b i
      = max 5 (floatToInt (f32 (f32 (b : ℚ) * f32 (1 - speedReduction i)))) := by
  unfold reducedPower
  split
  · rename_i h
    rw [max_eq_left (le_of_lt h)]
  · rename_i h
    rw [max_eq_right (not_lt.mp h)]

theorem speedReduction_of_ge_rounded (i : ℚ) (h : 7 ≤ i) : speedReduction i = f32 (4 / 5) := by
  rw [speedReduction_eq_min_rounded]
  apply min_eq_left
  have h7 : f32 7 = 7 := by exact_mod_cast f32_intCast 7 (by decide)
  have hi : (7 : ℚ) ≤ f32 i := by
    have := f32_mono h
    rwa [h7] at this
  have hA : f32 ((7 : ℚ) * (13421773 / 134217728)) = 11744051 / 16777216 :=
    (f32_eval _ (-1) 11744051 (by norm_num) (by norm_num) (by norm_num) (by norm_num)
      (by norm_num) (by norm_num)).trans (by norm_num)
  have hS : f32 ((13421773 / 134217728 : ℚ) + 11744051 / 16777216) = 13421773 / 16777216 :=
    (f32_eval _ (-1) 13421773 (by norm_num) (by norm_num) (by norm_num) (by norm_num)
      (by norm_num) (by norm_num)).trans (by norm_num)
  rw [f32_tenth, f32_four_fifths]
  have h1 : (7 : ℚ) * (13421773 / 134217728) ≤ f32 i * (13421773 / 134217728) :=
    mul_le_mul_of_nonneg_right hi (by norm_num)
  have h2 := f32_mono h1
  rw [hA] at h2
  have h3 : (13421773 / 134217728 : ℚ) + 11744051 / 16777216
      ≤ 13421773 / 134217728 + f32 (f32 i * (13421773 / 134217728)) := by linarith
  have h4 := f32_mono h3
  rwa [hS] at h4

theorem one_sub_cap : f32 (1 - f32 (4 / 5)) = 3355443 / 16777216 := by
  rw [f32_four_fifths]
  exact (f32_eval _ (-3) 13421772 (by norm_num) (by norm_num) (by norm_num) (by norm_num)
    (by norm_num) (by norm_num)).trans (by norm_num)

theorem reducedPower_50 (i : ℚ) (h : 7 ≤ i) : reducedPower 50 i = 9 := by
  rw [reducedPower_eq_max_rounded, speedReduction_of_ge_rounded i h, one_sub_cap,
    f32_intCast 50 (by decide)]
  have : floatToInt (f32 (((50 : Int) : ℚ) * (3355443 / 16777216))) = 9 :=
    floatToInt_f32_eq _ 9 3 (by norm_num) (by norm_num) (by norm_num)
      (by norm_num [abs_of_pos]) (by norm_num [abs_of_pos]) (by norm_num)
  rw [this]
  decide

theorem reducedPower_30 (i : ℚ) (h : 7 ≤ i) : reducedPower 30 i = 5 := by
  rw [reducedPower_eq_max_rounded, speedReduction_of_ge_rounded i h, one_sub_cap,
    f32_intCast 30 (by decide)]
  have : floatToInt (f32 (((30 : Int) : ℚ) * (3355443 / 16777216))) = 5 :=
    floatToInt_f32_eq _ 5 2 (by norm_num) (by norm_num) (by norm_num)
      (by norm_num [abs_of_pos]) (by norm_num [abs_of_pos]) (by norm_num)
  rw [this]
  decide

theorem claimed_power_50 :
    max 5 (floatToInt ((50 : ℚ) * (1 - min (4 / 5) (1 / 10 + (1 / 10) * 8)))) = 10 := by
  have h : (50 : ℚ) * (1 - min (4 / 5) (1 / 10 + (1 / 10) * 8)) = ((10 : Int) : ℚ) := by
    rw [min_eq_left (by norm_num)]
    norm_num
  rw [h, floatToInt_intCast]
  decide

theorem claimed_power_30 :
    max 5 (floatToInt ((30 : ℚ) * (1 - min (4 / 5) (1 / 10 + (1 / 10) * 10)))) = 6 := by
  have h : (30 : ℚ) * (1 - min (4 / 5) (1 / 10 + (1 / 10) * 10)) = ((6 : Int) : ℚ) := by
    rw [min_eq_left (by norm_num)]
    norm_num
  rw [h, floatToInt_intCast]
  decide

theorem circumference_rounded :
    f32 (f32 (314159265 / 100000000) * WHEEL_DIAMETER_CM) = 8894337 / 524288 := by
  have h1 : f32 (314159265 / 100000000) = 13176795 / 4194304 :=
    (f32_eval _ (1) 13176795 (by norm_num) (by norm_num) (by norm_num) (by norm_num)
      (by norm_num) (by norm_num)).trans (by norm_num)
  have h2 : WHEEL_DIAMETER_CM = 11324621 / 2097152 :=
    (f32_eval _ (2) 11324621 (by norm_num) (by norm_num) (by norm_num) (by norm_num)
      (by norm_num) (by norm_num)).trans (by norm_num)
  rw [h1, h2]
  exact (f32_eval _ (4) 8894337 (by norm_num) (by norm_num) (by norm_num) (by norm_num)
    (by norm_num) (by norm_num)).trans (by norm_num)

theorem baseDegrees_13_rounded : baseDegrees 13 = 275 := by
  unfold baseDegrees
  simp only [circumference_rounded]
  have h13 : f32 13 = 13 := by exact_mod_cast f32_intCast 13 (by decide)
  have h1 : f32 ((13 : ℚ) / (8894337 / 524288)) = 6428203 / 8388608 :=
    (f32_eval _ (-1) 12856406 (by norm_num) (by norm_num) (by norm_num) (by norm_num)
      (by norm_num) (by norm_num)).trans (by norm_num)
  have h2 : floatToInt (f32 ((6428203 / 8388608 : ℚ) * 360)) = 275 :=
    floatToInt_f32_eq _ 275 8 (by norm_num) (by norm_num) (by norm_num)
      (by norm_num [abs_of_pos]) (by norm_num [abs_of_pos]) (by norm_num)
  rw [h13, h1, h2]

theorem distanceMultiplier_14_5 : distanceMultiplier (14 / 5) = 3271557 / 2097152 := by
  unfold distanceMultiplier
  have h1 : f32 (14 / 5) = 11744051 / 4194304 :=
    (f32_eval _ (1) 11744051 (by norm_num) (by norm_num) (by norm_num) (by norm_num)
      (by norm_num) (by norm_num)).trans (by norm_num)
  have h2 : f32 ((11744051 / 4194304 : ℚ) * (13421773 / 67108864)) = 9395241 / 16777216 :=
    (f32_eval _ (-1) 9395241 (by norm_num) (by norm_num) (by norm_num) (by norm_num)
      (by norm_num) (by norm_num)).trans (by norm_num)
  have h3 : f32 ((1 : ℚ) + 9395241 / 16777216) = 3271557 / 2097152 :=
    (f32_eval_tie _ (0) 13086228 (by norm_num) (by norm_num) (by norm_num) (by norm_num)
      (by norm_num) (by decide)).trans (by norm_num)
  rw [h1, f32_fifth, h2, h3]

theorem distanceMultiplier_8 : distanceMultiplier 8 = 5452595 / 2097152 := by
  unfold distanceMultiplier
  have h1 : f32 8 = 8 := by exact_mod_cast f32_intCast 8 (by decide)
  have h2 : f32 ((8 : ℚ) * (13421773 / 67108864)) = 13421773 / 8388608 :=
    (f32_eval _ (0) 13421773 (by norm_num) (by norm_num) (by norm_num) (by norm_num)
      (by norm_num) (by norm_num)).trans (by norm_num)
  have h3 : f32 ((1 : ℚ) + 13421773 / 8388608) = 5452595 / 2097152 :=
    (f32_eval_tie _ (1) 10905190 (by norm_num) (by norm_num) (by norm_num) (by norm_num)
      (by norm_num) (by decide)).trans (by norm_num)
  rw [h1, f32_fifth, h2, h3]

theorem rightTargetDegrees_13_left : rightTargetDegrees 13 .LEFT (14 / 5) = 428 := by
  show floatToInt (f32 (f32 (baseDegrees 13 : ℚ) * distanceMultiplier (14 / 5))) = 428
  rw [baseDegrees_13_rounded, distanceMultiplier_14_5, f32_intCast 275 (by decide)]
  exact floatToInt_f32_eq _ 428 8 (by norm_num) (by norm_num) (by norm_num)
    (by norm_num [abs_of_pos]) (by norm_num [abs_of_pos]) (by norm_num)

theorem rightTargetDegrees_13_left_8 : rightTargetDegrees 13 .LEFT 8 = 715 := by
  show floatToInt (f32 (f32 (baseDegrees 13 : ℚ) * distanceMultiplier 8)) = 715
  rw [baseDegrees_13_rounded, distanceMultiplier_8, f32_intCast 275 (by decide)]
  have h : f32 ((((275 : Int) : ℚ)) * (5452595 / 2097152)) = ((715 : Int) : ℚ) :=
    (f32_eval _ (9) 11714560 (by norm_num) (by norm_num) (by norm_num) (by norm_num)
      (by norm_num) (by norm_num)).trans (by norm_num)
  rw [h, floatToInt_intCast]

theorem claimed_target_13 :
    floatToInt (((275 : Int) : ℚ) * (1 + (1 / 5) * (14 / 5))) = 429 := by
  have h : ((275 : Int) : ℚ) * (1 + (1 / 5) * (14 / 5)) = ((429 : Int) : ℚ) := by norm_num
  rw [h, floatToInt_intCast]

/-- C15, as stated, fails: the targets and powers of a curve are computed in
`float`.  `1.0f - 0.8f` is `3355443 / 16777216`, below 0.2: at the base speed 50
and the intensity 8 the inner wheel gets 9, not
`max(5, trunc(50 * (1 - 0.8))) = 10`; at the base speed 30 and the intensity 10
(the left curve of `case 2` in `sample06_20250909testForce`) it gets 5, not 6.
For 13 cm and the intensity 2.8 `baseDegrees` is 275 and the outer wheel gets
428 degrees, not `trunc(275 * (1 + 0.2 * 2.8)) = 429`. -/
theorem reducedPower_not_exact :
    leftPower constructed .LEFT 8 = 9 ∧ rightPower constructed .RIGHT 8 = 9 ∧
    max 5 (floatToInt ((50 : ℚ) * (1 - min (4 / 5) (1 / 10 + (1 / 10) * 8)))) = 10 ∧
    leftPower afterFirstBlue .LEFT 10 = 5 ∧
    max 5 (floatToInt ((30 : ℚ) * (1 - min (4 / 5) (1 / 10 + (1 / 10) * 10)))) = 6 ∧
    f32 (1 - f32 (4 / 5)) = 3355443 / 16777216 ∧ (3355443 / 16777216 : ℚ) < 1 / 5 ∧
    baseDegrees 13 = 275 ∧ rightTargetDegrees 13 .LEFT (14 / 5) = 428 ∧
    leftTargetDegrees 13 .RIGHT (14 / 5) = 428 ∧
    floatToInt (((275 : Int) : ℚ) * (1 + (1 / 5) * (14 / 5))) = 429 :=
  ⟨reducedPower_50 8 (by norm_num), reducedPower_50 8 (by norm_num), claimed_power_50,
    reducedPower_30 10 (by norm_num), claimed_power_30, one_sub_cap, by norm_num,
    baseDegrees_13_rounded, rightTargetDegrees_13_left, rightTargetDegrees_13_left,
    claimed_target_13⟩

/-- C15, amended. For `LEFT` (respectively `RIGHT`) and an intensity `i >= 0`, as
long as the two target degrees and the base speed are values of `int32_t`,
`moveForward` gives the outer wheel, the right (left) one, the target degrees
`trunc(baseDegrees * (1 + i*0.2))` at the base speed, and the inner wheel the
degrees `baseDegrees` at the power `max(5, trunc(base * (1 - min(0.8, 0.1 + i*0.1))))`,
where `0.1`, `0.2` and `0.8` are the binary32 numbers nearest to them and every
product, sum and difference is rounded to binary32.  That power is at least 5
and is the same for every `i >= 7`: `max(5, trunc(base * (1.0f - 0.8f)))`. -/
theorem moveForward_curve_rounded (t : Tracer) (distanceCm i : ℚ) (hi : 0 ≤ i)
    (hb : inInt32 (baseDegrees distanceCm))
    (ho : inInt32 (floatToInt (f32 (f32 (baseDegrees distanceCm : ℚ)
      * f32 (1 + f32 (f32 i * f32 (1 / 5)))))))
    (hs : inInt32 t.mCurrentBaseSpeed) :
    (rightTargetDegrees distanceCm .LEFT i
        = floatToInt (f32 (f32 (baseDegrees distanceCm : ℚ)
            * f32 (1 + f32 (f32 i * f32 (1 / 5))))) ∧
      rightPower t .LEFT i = t.mCurrentBaseSpeed ∧
      leftTargetDegrees distanceCm .LEFT i = baseDegrees distanceCm ∧
      leftPower t .LEFT i
        = max 5 (floatToInt (f32 (f32 (t.mCurrentBaseSpeed : ℚ)
            * f32 (1 - min (f32 (4 / 5)) (f32 (f32 (1 / 10) + f32 (f32 i * f32 (1 / 10))))))))) ∧
    (leftTargetDegrees distanceCm .RIGHT i
        = floatToInt (f32 (f32 (baseDegrees distanceCm : ℚ)
            * f32 (1 + f32 (f32 i * f32 (1 / 5))))) ∧
      leftPower t .RIGHT i = t.mCurrentBaseSpeed ∧
      rightTargetDegrees distanceCm .RIGHT i = baseDegrees distanceCm ∧
      rightPower t .RIGHT i
        = max 5 (floatToInt (f32 (f32 (t.mCurrentBaseSpeed : ℚ)
            * f32 (1 - min (f32 (4 / 5)) (f32 (f32 (1 / 10) + f32 (f32 i * f32 (1 / 10))))))))) ∧
    (leftPower t .LEFT i ≥ 5 ∧ rightPower t .RIGHT i ≥ 5) ∧
    (∀ j : ℚ, 7 ≤ i → 7 ≤ j →
      leftPower t .LEFT i = leftPower t .LEFT j ∧
      rightPower t .RIGHT i = rightPower t .RIGHT j ∧
      leftPower t .LEFT i
        = max 5 (floatToInt (f32 (f32 (t.mCurrentBaseSpeed : ℚ) * f32 (1 - f32 (4 / 5)))))) ∧
    (f32 (1 / 10) = 13421773 / 134217728 ∧ f32 (1 / 5) = 13421773 / 67108864 ∧
      f32 (4 / 5) = 13421773 / 16777216) := by
  have _ := hi
  have _ := hb
  have _ := ho
  have _ := hs
  have hp : reducedPower t.mCurrentBaseSpeed i
      = max 5 (floatToInt (f32 (f32 (t.mCurrentBaseSpeed : ℚ)
          * f32 (1 - min (f32 (4 / 5)) (f32 (f32 (1 / 10) + f32 (f32 i * f32 (1 / 10)))))))) := by
    rw [reducedPower_eq_max_rounded, speedReduction_eq_min_rounded]
  refine ⟨⟨rfl, rfl, rfl, hp⟩, ⟨rfl, rfl, rfl, hp⟩, ⟨?_, ?_⟩, ?_,
    ⟨f32_tenth, f32_fifth, f32_four_fifths⟩⟩
  · show reducedPower t.mCurrentBaseSpeed i ≥ 5
    rw [reducedPower_eq_max_rounded]
    exact le_max_left _ _
  · show reducedPower t.mCurrentBaseSpeed i ≥ 5
    rw [reducedPower_eq_max_rounded]
    exact le_max_left _ _
  · intro j h7 hj
    have ei : reducedPower t.mCurrentBaseSpeed i
        = max 5 (floatToInt (f32 (f32 (t.mCurrentBaseSpeed : ℚ) * f32 (1 - f32 (4 / 5))))) := by
      rw [reducedPower_eq_max_rounded, speedReduction_of_ge_rounded i h7]
    have ej : reducedPower t.mCurrentBaseSpeed j
        = max 5 (floatToInt (f32 (f32 (t.mCurrentBaseSpeed : ℚ) * f32 (1 - f32 (4 / 5))))) := by
      rw [reducedPower_eq_max_rounded, speedReduction_of_ge_rounded j hj]
    exact ⟨ei.trans ej.symm, ei.trans ej.symm, ei⟩

theorem curve_13_8_in_range :
    inInt32 (baseDegrees 13) ∧
    inInt32 (floatToInt (f32 (f32 (baseDegrees 13 : ℚ) * f32 (1 + f32 (f32 8 * f32 (1 / 5)))))) ∧
    inInt32 constructed.mCurrentBaseSpeed := by
  have h : floatToInt (f32 (f32 (baseDegrees 13 : ℚ) * f32 (1 + f32 (f32 8 * f32 (1 / 5)))))
      = 715 := rightTargetDegrees_13_left_8
  rw [h, baseDegrees_13_rounded]
  refine ⟨?_, ?_, ?_⟩ <;> unfold inInt32 <;> decide

/-- Witness of the amended C15: the left curve of 13 cm with the intensity 8 at
the base speed of the constructed controller: the outer wheel gets 715 degrees
at the power 50, the inner wheel 275 degrees at the power 9, the same power as
for the intensity 9. -/
theorem moveForward_curve_rounded_witness :
    (0 : ℚ) ≤ 8 ∧
    inInt32 (baseDegrees 13) ∧
    inInt32 (floatToInt (f32 (f32 (baseDegrees 13 : ℚ) * f32 (1 + f32 (f32 8 * f32 (1 / 5)))))) ∧
    inInt32 constructed.mCurrentBaseSpeed ∧
    rightTargetDegrees 13 .LEFT 8 = 715 ∧ rightPower constructed .LEFT 8 = 50 ∧
    leftTargetDegrees 13 .LEFT 8 = 275 ∧ leftPower constructed .LEFT 8 = 9 ∧
    leftPower constructed .LEFT 8 ≥ 5 ∧
    leftPower constructed .LEFT 8 = leftPower constructed .LEFT 9 :=
  ⟨by norm_num, curve_13_8_in_range.1, curve_13_8_in_range.2.1, curve_13_8_in_range.2.2,
    rightTargetDegrees_13_left_8,
    (moveForward_curve_rounded constructed 13 8 (by norm_num) curve_13_8_in_range.1
      curve_13_8_in_range.2.1 curve_13_8_in_range.2.2).1.2.1,
    baseDegrees_13_rounded, reducedPower_50 8 (by norm_num),
    (moveForward_curve_rounded constructed 13 8 (by norm_num) curve_13_8_in_range.1
      curve_13_8_in_range.2.1 curve_13_8_in_range.2.2).2.2.1.1,
    ((moveForward_curve_rounded constructed 13 8 (by norm_num) curve_13_8_in_range.1
      curve_13_8_in_range.2.1 curve_13_8_in_range.2.2).2.2.2.1 9
      (by norm_num) (by norm_num)).1⟩

/-! ## What the distance test guarantees, in `int32_t` -/

theorem pollLoop_exit_wrapped (hw : Sensors) (goal : Int) : ∀ (fuel : Nat) (x y : Exec),
    pollLoop hw goal fuel x = some y →
      x.nCount + 1 ≤ y.nCount ∧ reached goal (hw.count (y.nCount - 1)) = true := by
  intro fuel
  induction fuel with
  | zero => intro x y h; simp [pollLoop] at h
  | succ n ih =>
    intro x y h
    simp only [pollLoop] at h
    split at h
    · rename_i hr
      simp only [Option.some.injEq] at h
      rw [← h]
      exact ⟨by simp [getCounts], by simpa [getCounts] using hr⟩
    · obtain ⟨a, b⟩ := ih _ _ h
      have e : (getCounts hw x).2.nCount = x.nCount + 1 := rfl
      rw [e] at a
      exact ⟨by omega, b⟩

theorem moveForward_first_poll_wrapped (hw : Sensors) (fuel : Nat) (distanceCm : ℚ)
    (direction : TurnDirection) (turnIntensity : ℚ) (x : Exec)
    (h : reached (averageTarget (hw.count x.nCount) distanceCm direction turnIntensity)
      (hw.count (x.nCount + 1)) = true) :
    moveForward .testForce hw (fuel + 1) distanceCm direction turnIntensity x
      = some
        { self := x.self
          nReflection := x.nReflection
          nCount := x.nCount + 2
          log := x.log ++ [.setPower .leftWheel (leftPower x.self direction turnIntensity),
            .setPower .rightWheel (rightPower x.self direction turnIntensity),
            .stop .leftWheel, .stop .rightWheel] } := by
  simp only [moveForward, pollLoop, getCounts, setPowers, emit, h, if_true, Option.map_some',
    stopBoth, List.append_assoc, List.singleton_append]
  rfl

theorem moveForward_oddStart_wrapped :
    leftTargetDegrees 13 .STRAIGHT 0 = 275 ∧ rightTargetDegrees 13 .STRAIGHT 0 = 275 ∧
    reached (averageTarget (1, 0) 13 .STRAIGHT 0) (275, 275) = true ∧
    moveForward .testForce oddStart 1 13 .STRAIGHT 0 (enter afterFirstBlue)
      = some { self := afterFirstBlue, nReflection := 0, nCount := 2
               log := [.setPower .leftWheel 30, .setPower .rightWheel 30,
                 .stop .leftWheel, .stop .rightWheel] } := by
  have hl : leftTargetDegrees 13 .STRAIGHT 0 = 275 := baseDegrees_13_rounded
  have hr : rightTargetDegrees 13 .STRAIGHT 0 = 275 := baseDegrees_13_rounded
  have hreach : reached (averageTarget (1, 0) 13 .STRAIGHT 0) (275, 275) = true := by
    simp only [averageTarget, leftTargetCount, rightTargetCount, hl, hr, reached]
    decide
  refine ⟨hl, hr, hreach, ?_⟩
  rw [moveForward_first_poll_wrapped oddStart 0 13 .STRAIGHT 0 (enter afterFirstBlue) hreach]
  rfl

theorem moveForward_farStart_wrapped :
    averageTarget (2 ^ 30 - 100, 2 ^ 30 - 100) 13 .STRAIGHT 0 = -1073741649 ∧
    moveForward .testForce farStart 1 13 .STRAIGHT 0 (enter afterFirstBlue)
      = some { self := afterFirstBlue, nReflection := 0, nCount := 2
               log := [.setPower .leftWheel 30, .setPower .rightWheel 30,
                 .stop .leftWheel, .stop .rightWheel] } := by
  have hl : leftTargetDegrees 13 .STRAIGHT 0 = 275 := baseDegrees_13_rounded
  have hr : rightTargetDegrees 13 .STRAIGHT 0 = 275 := baseDegrees_13_rounded
  have ha : averageTarget (2 ^ 30 - 100, 2 ^ 30 - 100) 13 .STRAIGHT 0 = -1073741649 := by
    simp only [averageTarget, leftTargetCount, rightTargetCount, hl, hr]
    decide
  have hreach : reached (averageTarget (farStart.count (enter afterFirstBlue).nCount)
      13 .STRAIGHT 0) (farStart.count ((enter afterFirstBlue).nCount + 1)) = true := by
    show reached (averageTarget (2 ^ 30 - 100, 2 ^ 30 - 100) 13 .STRAIGHT 0)
      (2 ^ 30 - 100, 2 ^ 30 - 100) = true
    rw [ha]
    decide
  refine ⟨ha, ?_⟩
  rw [moveForward_first_poll_wrapped farStart 0 13 .STRAIGHT 0 (enter afterFirstBlue) hreach]
  rfl

/-- C17, as stated, fails: the loop compares two averages taken in `int32_t`
division.  From the start counts `(1, 0)`, the straight move of 13 cm (the first
move of `case 1`) has the target degrees `(275, 275)` and leaves its poll loop
through the distance test on the reading `(275, 275)`; the encoder deltas are
then 274 and 275, whose average (274.5, or 274 in integer division) is below the
average target 275.  And from the start counts `(2 ^ 30 - 100, 2 ^ 30 - 100)` the
sum of the two target counts leaves the range of `int32_t`: taken modulo
`2 ^ 32` the average target is `-1073741649`, and the move ends on its first
poll with the encoders where they started. -/
theorem moveForward_exit_short :
    leftTargetDegrees 13 .STRAIGHT 0 = 275 ∧ rightTargetDegrees 13 .STRAIGHT 0 = 275 ∧
    oddStart.count 0 = (1, 0) ∧ oddStart.count 1 = (275, 275) ∧
    moveForward .testForce oddStart 1 13 .STRAIGHT 0 (enter afterFirstBlue)
      = some { self := afterFirstBlue, nReflection := 0, nCount := 2
               log := [.setPower .leftWheel 30, .setPower .rightWheel 30,
                 .stop .leftWheel, .stop .rightWheel] } ∧
    reached (averageTarget (1, 0) 13 .STRAIGHT 0) (275, 275) = true ∧
    Int.tdiv ((275 - 1) + (275 - 0)) 2 < Int.tdiv (275 + 275) 2 ∧
    (((275 - 1) + (275 - 0) : Int) : ℚ) / 2 < ((275 + 275 : Int) : ℚ) / 2 ∧
    farStart.count 0 = (2 ^ 30 - 100, 2 ^ 30 - 100) ∧
    farStart.count 1 = (2 ^ 30 - 100, 2 ^ 30 - 100) ∧
    averageTarget (2 ^ 30 - 100, 2 ^ 30 - 100) 13 .STRAIGHT 0 = -1073741649 ∧
    moveForward .testForce farStart 1 13 .STRAIGHT 0 (enter afterFirstBlue)
      = some { self := afterFirstBlue, nReflection := 0, nCount := 2
               log := [.setPower .leftWheel 30, .setPower .rightWheel 30,
                 .stop .leftWheel, .stop .rightWheel] } :=
  ⟨moveForward_oddStart_wrapped.1, moveForward_oddStart_wrapped.2.1, rfl, rfl,
    moveForward_oddStart_wrapped.2.2.2, moveForward_oddStart_wrapped.2.2.1, by decide,
    by norm_num, rfl, rfl, moveForward_farStart_wrapped.1, moveForward_farStart_wrapped.2⟩

/-- C17, amended. Whenever `moveForward` leaves its poll loop because the distance
test succeeded, and no `int32_t` value of the call has overflowed (the two
target degrees, the two target counts, their sum and the sum of the two counts
of every sample polled are values of `int32_t`), the average of the two current
counts is at least the average of the two target counts, both in integer
division (truncating toward zero); hence the sum of the two encoder deltas
since the start is at least the sum of the two target degrees minus 2 (the
average delta is at least the average target degrees minus 1), and minus 1 (one
half) when the sum of the two current counts is not negative.  In
`sample06_20250909testForce` the loop has no other exit. -/
theorem moveForward_exit_progress_int32 (hw : Sensors) (fuel : Nat) (distanceCm : ℚ)
    (direction : TurnDirection) (turnIntensity : ℚ) (x y : Exec)
    (h : moveForward .testForce hw fuel distanceCm direction turnIntensity x = some y)
    (hld : inInt32 (leftTargetDegrees distanceCm direction turnIntensity))
    (hrd : inInt32 (rightTargetDegrees distanceCm direction turnIntensity))
    (hl : inInt32 ((hw.count x.nCount).1 + leftTargetDegrees distanceCm direction turnIntensity))
    (hr : inInt32 ((hw.count x.nCount).2 + rightTargetDegrees distanceCm direction turnIntensity))
    (ht : inInt32 (((hw.count x.nCount).1 + leftTargetDegrees distanceCm direction turnIntensity)
      + ((hw.count x.nCount).2 + rightTargetDegrees distanceCm direction turnIntensity)))
    (hc : ∀ k : Nat, x.nCount < k → k < y.nCount →
      inInt32 ((hw.count k).1 + (hw.count k).2)) :
    x.nCount + 2 ≤ y.nCount ∧
    reached (averageTarget (hw.count x.nCount) distanceCm direction turnIntensity)
      (hw.count (y.nCount - 1)) = true ∧
    Int.tdiv ((hw.count (y.nCount - 1)).1 + (hw.count (y.nCount - 1)).2) 2
      ≥ Int.tdiv (((hw.count x.nCount).1 + leftTargetDegrees distanceCm direction turnIntensity)
        + ((hw.count x.nCount).2 + rightTargetDegrees distanceCm direction turnIntensity)) 2 ∧
    ((hw.count (y.nCount - 1)).1 - (hw.count x.nCount).1)
        + ((hw.count (y.nCount - 1)).2 - (hw.count x.nCount).2)
      ≥ leftTargetDegrees distanceCm direction turnIntensity
        + rightTargetDegrees distanceCm direction turnIntensity - 2 ∧
    ((((hw.count (y.nCount - 1)).1 - (hw.count x.nCount).1)
        + ((hw.count (y.nCount - 1)).2 - (hw.count x.nCount).2) : Int) : ℚ) / 2
      ≥ ((leftTargetDegrees distanceCm direction turnIntensity
        + rightTargetDegrees distanceCm direction turnIntensity : Int) : ℚ) / 2 - 1 ∧
    (0 ≤ (hw.count (y.nCount - 1)).1 + (hw.count (y.nCount - 1)).2 →
      ((hw.count (y.nCount - 1)).1 - (hw.count x.nCount).1)
          + ((hw.count (y.nCount - 1)).2 - (hw.count x.nCount).2)
        ≥ leftTargetDegrees distanceCm direction turnIntensity
          + rightTargetDegrees distanceCm direction turnIntensity - 1 ∧
      ((((hw.count (y.nCount - 1)).1 - (hw.count x.nCount).1)
          + ((hw.count (y.nCount - 1)).2 - (hw.count x.nCount).2) : Int) : ℚ) / 2
        ≥ ((leftTargetDegrees distanceCm direction turnIntensity
          + rightTargetDegrees distanceCm direction turnIntensity : Int) : ℚ) / 2 - 1 / 2) := by
  have _ := hld
  have _ := hrd
  have hexit : x.nCount + 2 ≤ y.nCount ∧
      reached (averageTarget (hw.count x.nCount) distanceCm direction turnIntensity)
        (hw.count (y.nCount - 1)) = true := by
    simp only [moveForward, Option.map_eq_some'] at h
    obtain ⟨z, hz, hy⟩ := h
    obtain ⟨a, b⟩ := pollLoop_exit_wrapped hw _ fuel _ z hz
    have e : y.nCount = z.nCount := by rw [← hy]; rfl
    rw [e]
    refine ⟨?_, b⟩
    have e2 : (setPowers (leftPower (getCounts hw x).2.self direction turnIntensity)
        (rightPower (getCounts hw x).2.self direction turnIntensity)
        (getCounts hw x).2).nCount = x.nCount + 1 := rfl
    rw [e2] at a
    omega
  obtain ⟨h1, h2⟩ := hexit
  have hc1 := hc (y.nCount - 1) (by omega) (by omega)
  have h3 : Int.tdiv ((hw.count (y.nCount - 1)).1 + (hw.count (y.nCount - 1)).2) 2
      ≥ Int.tdiv (((hw.count x.nCount).1 + leftTargetDegrees distanceCm direction turnIntensity)
        + ((hw.count x.nCount).2 + rightTargetDegrees distanceCm direction turnIntensity)) 2 := by
    have := h2
    simp only [reached, averageTarget, leftTargetCount, rightTargetCount, wrap32_of_inInt32 _ hl,
      wrap32_of_inInt32 _ hr, wrap32_of_inInt32 _ ht, wrap32_of_inInt32 _ hc1,
      decide_eq_true_eq] at this
    exact this
  obtain ⟨b, b'⟩ := tdiv_two_ge _ _ h3
  have hb : ((hw.count (y.nCount - 1)).1 - (hw.count x.nCount).1)
        + ((hw.count (y.nCount - 1)).2 - (hw.count x.nCount).2)
      ≥ leftTargetDegrees distanceCm direction turnIntensity
        + rightTargetDegrees distanceCm direction turnIntensity - 2 := by omega
  refine ⟨h1, h2, h3, hb, ?_, ?_⟩
  · have hq : ((((hw.count (y.nCount - 1)).1 - (hw.count x.nCount).1)
          + ((hw.count (y.nCount - 1)).2 - (hw.count x.nCount).2) : Int) : ℚ)
        ≥ ((leftTargetDegrees distanceCm direction turnIntensity
          + rightTargetDegrees distanceCm direction turnIntensity - 2 : Int) : ℚ) := by
      exact_mod_cast hb
    push_cast at hq ⊢
    linarith
  · intro hpos
    have hb1 : ((hw.count (y.nCount - 1)).1 - (hw.count x.nCount).1)
          + ((hw.count (y.nCount - 1)).2 - (hw.count x.nCount).2)
        ≥ leftTargetDegrees distanceCm direction turnIntensity
          + rightTargetDegrees distanceCm direction turnIntensity - 1 := by
      have := b' hpos
      omega
    refine ⟨hb1, ?_⟩
    have hq : ((((hw.count (y.nCount - 1)).1 - (hw.count x.nCount).1)
          + ((hw.count (y.nCount - 1)).2 - (hw.count x.nCount).2) : Int) : ℚ)
        ≥ ((leftTargetDegrees distanceCm direction turnIntensity
          + rightTargetDegrees distanceCm direction turnIntensity - 1 : Int) : ℚ) := by
      exact_mod_cast hb1
    push_cast at hq ⊢
    linarith

theorem oddStart_in_range :
    inInt32 (leftTargetDegrees 13 .STRAIGHT 0) ∧ inInt32 (rightTargetDegrees 13 .STRAIGHT 0) ∧
    inInt32 ((oddStart.count (enter afterFirstBlue).nCount).1 + leftTargetDegrees 13 .STRAIGHT 0) ∧
    inInt32 ((oddStart.count (enter afterFirstBlue).nCount).2
      + rightTargetDegrees 13 .STRAIGHT 0) ∧
    inInt32 (((oddStart.count (enter afterFirstBlue).nCount).1 + leftTargetDegrees 13 .STRAIGHT 0)
      + ((oddStart.count (enter afterFirstBlue).nCount).2 + rightTargetDegrees 13 .STRAIGHT 0)) ∧
    ∀ k : Nat, inInt32 ((oddStart.count k).1 + (oddStart.count k).2) := by
  rw [moveForward_oddStart_wrapped.1, moveForward_oddStart_wrapped.2.1]
  refine ⟨?_, ?_, ?_, ?_, ?_, ?_⟩
  · unfold inInt32; decide
  · unfold inInt32; decide
  · unfold inInt32; decide
  · unfold inInt32; decide
  · unfold inInt32; decide
  · intro k
    unfold inInt32 oddStart
    by_cases hk : k = 0
    · simp [hk]
    · simp [hk]

/-- Witness of the amended C17: the straight move of 13 cm from the start counts
`(1, 0)`, which leaves its loop on the reading `(275, 275)`: no sum leaves the
range of `int32_t`, the deltas sum to 549 and the target degrees to 550. -/
theorem moveForward_exit_progress_int32_witness :
    moveForward .testForce oddStart 1 13 .STRAIGHT 0 (enter afterFirstBlue)
      = some { self := afterFirstBlue, nReflection := 0, nCount := 2
               log := [.setPower .leftWheel 30, .setPower .rightWheel 30,
                 .stop .leftWheel, .stop .rightWheel] } ∧
    inInt32 (leftTargetDegrees 13 .STRAIGHT 0) ∧ inInt32 (rightTargetDegrees 13 .STRAIGHT 0) ∧
    inInt32 ((oddStart.count 0).1 + leftTargetDegrees 13 .STRAIGHT 0) ∧
    inInt32 ((oddStart.count 0).2 + rightTargetDegrees 13 .STRAIGHT 0) ∧
    inInt32 (((oddStart.count 0).1 + leftTargetDegrees 13 .STRAIGHT 0)
      + ((oddStart.count 0).2 + rightTargetDegrees 13 .STRAIGHT 0)) ∧
    (∀ k : Nat, 0 < k → k < 2 → inInt32 ((oddStart.count k).1 + (oddStart.count k).2)) ∧
    reached (averageTarget (oddStart.count 0) 13 .STRAIGHT 0) (oddStart.count (2 - 1))
      = true ∧
    ((275 : Int) - 1) + (275 - 0)
      ≥ leftTargetDegrees 13 .STRAIGHT 0 + rightTargetDegrees 13 .STRAIGHT 0 - 2 ∧
    (0 ≤ (275 : Int) + 275 →
      ((275 : Int) - 1) + (275 - 0)
        ≥ leftTargetDegrees 13 .STRAIGHT 0 + rightTargetDegrees 13 .STRAIGHT 0 - 1) :=
  ⟨moveForward_oddStart_wrapped.2.2.2, oddStart_in_range.1, oddStart_in_range.2.1,
    oddStart_in_range.2.2.1, oddStart_in_range.2.2.2.1, oddStart_in_range.2.2.2.2.1,
    fun k _ _ => oddStart_in_range.2.2.2.2.2 k,
    (moveForward_exit_progress_int32 oddStart 1 13 .STRAIGHT 0 (enter afterFirstBlue) _
      moveForward_oddStart_wrapped.2.2.2 oddStart_in_range.1 oddStart_in_range.2.1
      oddStart_in_range.2.2.1 oddStart_in_range.2.2.2.1 oddStart_in_range.2.2.2.2.1
      (fun k _ _ => oddStart_in_range.2.2.2.2.2 k)).2.1,
    (moveForward_exit_progress_int32 oddStart 1 13 .STRAIGHT 0 (enter afterFirstBlue) _
      moveForward_oddStart_wrapped.2.2.2 oddStart_in_range.1 oddStart_in_range.2.1
      oddStart_in_range.2.2.1 oddStart_in_range.2.2.2.1 oddStart_in_range.2.2.2.2.1
      (fun k _ _ => oddStart_in_range.2.2.2.2.2 k)).2.2.2.1,
    fun hp => ((moveForward_exit_progress_int32 oddStart 1 13 .STRAIGHT 0
      (enter afterFirstBlue) _
      moveForward_oddStart_wrapped.2.2.2 oddStart_in_range.1 oddStart_in_range.2.1
      oddStart_in_range.2.2.1 oddStart_in_range.2.2.2.1 oddStart_in_range.2.2.2.2.1
      (fun k _ _ => oddStart_in_range.2.2.2.2.2 k)).2.2.2.2.2 hp).1⟩

end Machine

end Tracer
